import Mathlib

/-!
# gocfg: typed configuration from environment variables

A shallow embedding of the Go package (`config.go`, `parse.go`) and a
verification of its parse pass.

Modelling conventions.

* Go strings are modelled by `String`, read as sequences of Unicode scalar
  values (names and values are assumed to be valid UTF-8).
* A Go call either returns or panics: `Exec α`.
* `interface{}` values are modelled by `Value`, which keeps the dynamic type;
  a nil interface is `none : Option Value`.
* Output targets are typed pointers; the caller's variables live in `Memory`,
  addressed by element type and address, so pointers of different element
  types never alias.
* `[]*Variable` holds references; the `Variable` structs themselves live in a
  `VarHeap`, so registering the same `*Variable` twice is expressible.
* Validators are Go closures; they are modelled as pure functions that may
  panic, and `EnvLookuper.LookupEnv` as a pure function.
* The parts of the Go standard library that are tables or floating point
  (`unicode.ToUpper`, `strconv.ParseFloat`, the `float32` conversion and
  `strconv.IntSize`) are parameters, collected in `Stdlib`.
-/

set_option autoImplicit false

namespace Gocfg

/-! ## Go runtime values -/

/-- Outcome of a Go call: it returns a value or it panics. -/
inductive Exec (α : Type) where
  | ret (a : α)
  | panic
  deriving Repr, DecidableEq

/-- IEEE-754 binary32 value, kept as its bit pattern. -/
structure Float32 where
  bits : Nat
  deriving Repr, DecidableEq

/-- IEEE-754 binary64 value, kept as its bit pattern. -/
structure Float64 where
  bits : Nat
  deriving Repr, DecidableEq

/-- The Go type `valueType byte` of config.go. -/
abbrev valueType := Nat

def STRING : valueType := 0
def INT : valueType := 1
def INT64 : valueType := 2
def FLOAT32 : valueType := 3
def FLOAT64 : valueType := 4
def BOOL : valueType := 5

/-- A non-nil `interface{}` value together with its dynamic type. `other`
stands for a value of any dynamic type that is not one of the six. -/
inductive Value where
  | string (s : String)
  | int (i : Int)
  | int64 (i : Int)
  | float32 (f : Float32)
  | float64 (f : Float64)
  | bool (b : Bool)
  | other (dyn : Nat)
  deriving Repr, DecidableEq

/-- The dynamic type of a value, as the tag of the declaration type it is the
Go type of (`none` for every other Go type). -/
def Value.typeTag : Value → Option valueType
  | .string _ => some STRING
  | .int _ => some INT
  | .int64 _ => some INT64
  | .float32 _ => some FLOAT32
  | .float64 _ => some FLOAT64
  | .bool _ => some BOOL
  | .other _ => none

/-- A non-nil Go `error`: the result of `errors.New` / `fmt.Errorf`
(`errorString`), or any other implementation, kept with its message. -/
inductive GoError where
  | errorString (s : String)
  | foreign (dyn : Nat) (s : String)
  deriving Repr, DecidableEq

/-- The `Error()` method of an error value. -/
def GoError.Error : GoError → String
  | .errorString s => s
  | .foreign _ s => s

/-! ## Standard library -/

/-- The parts of the Go standard library that are taken as parameters. -/
structure Stdlib where
  /-- Go `unicode.ToUpper` -/
  ToUpperRune : Char → Char
  /-- Go `strconv.IntSize`, the width of `int` -/
  IntSize : Nat
  /-- Go `strconv.ParseFloat(s, bitSize)`; `none` when it returns an error -/
  ParseFloat : String → Nat → Option Float64
  /-- The conversion `float32(f)`. -/
  toFloat32 : Float64 → Float32

/-- Go `strings.ReplaceAll(s, old, new)` for one-character `old` and `new`. -/
def ReplaceAll (s : String) (old new : Char) : String :=
  ⟨s.data.map (fun c => if c = old then new else c)⟩

/-- Go `strings.ToUpper`: maps every rune through `unicode.ToUpper`. -/
def ToUpper (rt : Stdlib) (s : String) : String :=
  ⟨s.data.map rt.ToUpperRune⟩

/-- Value of a decimal digit, `none` for any other character. -/
def digitVal (c : Char) : Option Nat :=
  if 48 ≤ c.toNat ∧ c.toNat ≤ 57 then some (c.toNat - 48) else none

/-- The digit loop of `strconv.ParseUint` in base 10 (without underscores). -/
def ParseUintLoop : List Char → Nat → Option Nat
  | [], n => some n
  | c :: cs, n =>
    match digitVal c with
    | none => none
    | some d => ParseUintLoop cs (n * 10 + d)

/-- Go `strconv.ParseUint(s, 10, _)` up to the range check: `none` is a syntax
error. The accumulated value is not clamped; `ParseInt` rejects everything
from the cutoff on, which includes every clamped value. -/
def ParseUint (s : List Char) : Option Nat :=
  match s with
  | [] => none
  | _ :: _ => ParseUintLoop s 0

/-- Go `strconv.ParseInt(s, 10, bitSize)`; `none` when it returns an error. -/
def ParseInt (s : String) (bitSize : Nat) : Option Int :=
  match s.data with
  | [] => none
  | c :: cs =>
    let neg : Bool := c = '-'
    let rest := if c = '+' ∨ c = '-' then cs else c :: cs
    match ParseUint rest with
    | none => none
    | some un =>
      let cutoff : Nat := 2 ^ (bitSize - 1)
      if !neg && decide (cutoff ≤ un) then none
      else if neg && decide (cutoff < un) then none
      else some (if neg then -(un : Int) else (un : Int))

/-- Go `strconv.Atoi(s)`: `ParseInt(s, 10, 0)` at the width of `int`. -/
def Atoi (rt : Stdlib) (s : String) : Option Int :=
  ParseInt s rt.IntSize

/-- Go `strconv.ParseBool(s)`; `none` when it returns an error. -/
def ParseBool (s : String) : Option Bool :=
  if s = "1" ∨ s = "t" ∨ s = "T" ∨ s = "true" ∨ s = "TRUE" ∨ s = "True" then some true
  else if s = "0" ∨ s = "f" ∨ s = "F" ∨ s = "false" ∨ s = "FALSE" ∨ s = "False" then some false
  else none

/-! ## Data model (config.go) -/

/-- Go `EnvLookuper`: the lookup source. -/
structure EnvLookuper where
  LookupEnv : String → String × Bool

/-- The `pointer interface{}` field of a `Variable`: a nil interface, or a
pointer to a variable of one of the six element types (itself possibly nil). -/
inductive Pointer where
  | nilInterface
  | ptr (elem : valueType) (addr : Option Nat)
  deriving Repr, DecidableEq

/-- Go `Variable` of config.go. -/
structure Variable where
  Default : Option Value
  Name : String
  Required : Bool
  ValidationFunc : Option (Value → Exec (Option GoError))
  pointer : Pointer
  valueType : valueType

/-- A caller-owned variable: element type and address. -/
structure Loc where
  elem : valueType
  addr : Nat
  deriving Repr, DecidableEq

/-- The caller-owned variables that output targets point into. -/
abbrev Memory := Loc → Value

/-- The assignment `*p = x` for a non-nil `p`. -/
def Memory.set (mem : Memory) (l : Loc) (x : Value) : Memory :=
  fun k => if k = l then x else mem k

/-- The type assertion `setting.pointer.(*T)`: panics unless the dynamic type
is pointer to `elem`. -/
def Pointer.assert (p : Pointer) (elem : valueType) : Exec (Option Nat) :=
  match p with
  | .nilInterface => .panic
  | .ptr e a => if e = elem then .ret a else .panic

/-- The assignment `*p = x` through a possibly nil pointer to `elem`. -/
def Memory.store (mem : Memory) (elem : valueType) (p : Option Nat) (x : Value) : Exec Memory :=
  match p with
  | none => .panic
  | some a => .ret (mem.set ⟨elem, a⟩ x)

/-- The `Variable` structs, by reference. -/
abbrev VarHeap := Nat → Variable

/-- Go `Config` of config.go. The field `vars` is the source's `variables` (a
reserved word here); it holds references into the `VarHeap`. -/
structure Config where
  vars : List Nat
  env : EnvLookuper

/-- Go `New()`; `os` is the lookup source reading the process environment. -/
def New (os : EnvLookuper) : Config :=
  { vars := [], env := os }

/-- Go `SetEnvLookuper` -/
def Config.SetEnvLookuper (c : Config) (l : EnvLookuper) : Config :=
  { c with env := l }

/-- Go `formatEnvVarName`, returning the rewritten name. -/
def formatEnvVarName (rt : Stdlib) (name : String) : String :=
  ToUpper rt (ReplaceAll name '-' '_')

/-- Update of one `Variable` struct in the heap. -/
def VarHeap.update (h : VarHeap) (r : Nat) (v : Variable) : VarHeap :=
  fun k => if k = r then v else h k

/-- Go `setVariable`: rewrite the name in place, append the reference. -/
def Config.setVariable (rt : Stdlib) (c : Config) (h : VarHeap) (setting : Nat) :
    Config × VarHeap :=
  let h1 := h.update setting { h setting with Name := formatEnvVarName rt (h setting).Name }
  ({ c with vars := c.vars ++ [setting] }, h1)

/-- The two field assignments shared by the six `Set…` operations. -/
def tagVariable (h : VarHeap) (setting : Nat) (ty : valueType) (pointer : Option Nat) : VarHeap :=
  let h1 := h.update setting { h setting with valueType := ty }
  h1.update setting { h1 setting with pointer := .ptr ty pointer }

/-- Go `SetString` -/
def Config.SetString (rt : Stdlib) (c : Config) (h : VarHeap) (pointer : Option Nat)
    (setting : Nat) : Config × VarHeap :=
  c.setVariable rt (tagVariable h setting STRING pointer) setting

/-- Go `SetInt` -/
def Config.SetInt (rt : Stdlib) (c : Config) (h : VarHeap) (pointer : Option Nat)
    (setting : Nat) : Config × VarHeap :=
  c.setVariable rt (tagVariable h setting INT pointer) setting

/-- Go `SetInt64` -/
def Config.SetInt64 (rt : Stdlib) (c : Config) (h : VarHeap) (pointer : Option Nat)
    (setting : Nat) : Config × VarHeap :=
  c.setVariable rt (tagVariable h setting INT64 pointer) setting

/-- Go `SetFloat32` -/
def Config.SetFloat32 (rt : Stdlib) (c : Config) (h : VarHeap) (pointer : Option Nat)
    (setting : Nat) : Config × VarHeap :=
  c.setVariable rt (tagVariable h setting FLOAT32 pointer) setting

/-- Go `SetFloat64` -/
def Config.SetFloat64 (rt : Stdlib) (c : Config) (h : VarHeap) (pointer : Option Nat)
    (setting : Nat) : Config × VarHeap :=
  c.setVariable rt (tagVariable h setting FLOAT64 pointer) setting

/-- Go `SetBool` -/
def Config.SetBool (rt : Stdlib) (c : Config) (h : VarHeap) (pointer : Option Nat)
    (setting : Nat) : Config × VarHeap :=
  c.setVariable rt (tagVariable h setting BOOL pointer) setting

/-- The six registration operations. -/
def setOps : List (Stdlib → Config → VarHeap → Option Nat → Nat → Config × VarHeap) :=
  [Config.SetString, Config.SetInt, Config.SetInt64, Config.SetFloat32, Config.SetFloat64,
    Config.SetBool]


/-! ## parse.go -/

/-- The error `fmt.Errorf("'%s' variable is missing", name)`. -/
def errMissing (name : String) : GoError :=
  .errorString ("'" ++ name ++ "' variable is missing")

/-- The error `fmt.Errorf("variable '%s' has a wrong default value type", name)`. -/
def errWrongDefault (name : String) : GoError :=
  .errorString ("variable '" ++ name ++ "' has a wrong default value type")

/-- The error `fmt.Errorf("variable '%s' has a wrong value type", name)`. -/
def errWrongValue (name : String) : GoError :=
  .errorString ("variable '" ++ name ++ "' has a wrong value type")

/-- The tail shared by the six routines after a successful conversion:
`*p = stored`, then `return setting.ValidationFunc(arg)` when a validator is
attached, else `return nil`. -/
def assignAndValidate (setting : Variable) (mem : Memory) (elem : valueType) (p : Option Nat)
    (stored arg : Value) : Exec (Memory × Option GoError) :=
  match mem.store elem p stored with
  | .panic => .panic
  | .ret mem1 =>
    match setting.ValidationFunc with
    | some f =>
      match f arg with
      | .panic => .panic
      | .ret e => .ret (mem1, e)
    | none => .ret (mem1, none)

/-- The assignment `*p = d; return nil` of the default branch. -/
def assignDefault (mem : Memory) (elem : valueType) (p : Option Nat) (d : Value) :
    Exec (Memory × Option GoError) :=
  match mem.store elem p d with
  | .panic => .panic
  | .ret mem1 => .ret (mem1, none)

/-- Go `Config.parseString`. -/
def Config.parseString (c : Config) (setting : Variable) (mem : Memory) :
    Exec (Memory × Option GoError) :=
  let v := (c.env.LookupEnv setting.Name).1
  let ok := (c.env.LookupEnv setting.Name).2
  if setting.Required && !ok then .ret (mem, some (errMissing setting.Name))
  else
    match setting.pointer.assert STRING with
    | .panic => .panic
    | .ret p =>
      if !ok && setting.Default.isSome then
        match setting.Default with
        | some (.string d) => assignDefault mem STRING p (.string d)
        | _ => .ret (mem, some (errWrongDefault setting.Name))
      else assignAndValidate setting mem STRING p (.string v) (.string v)

/-- Go `Config.parseInt`. -/
def Config.parseInt (rt : Stdlib) (c : Config) (setting : Variable) (mem : Memory) :
    Exec (Memory × Option GoError) :=
  let v := (c.env.LookupEnv setting.Name).1
  let ok := (c.env.LookupEnv setting.Name).2
  if setting.Required && !ok then .ret (mem, some (errMissing setting.Name))
  else
    match setting.pointer.assert INT with
    | .panic => .panic
    | .ret p =>
      if !ok && setting.Default.isSome then
        match setting.Default with
        | some (.int d) => assignDefault mem INT p (.int d)
        | _ => .ret (mem, some (errWrongDefault setting.Name))
      else
        match Atoi rt v with
        | none => .ret (mem, some (errWrongValue setting.Name))
        | some iv => assignAndValidate setting mem INT p (.int iv) (.int iv)

/-- Go `Config.parseInt64`. -/
def Config.parseInt64 (c : Config) (setting : Variable) (mem : Memory) :
    Exec (Memory × Option GoError) :=
  let v := (c.env.LookupEnv setting.Name).1
  let ok := (c.env.LookupEnv setting.Name).2
  if setting.Required && !ok then .ret (mem, some (errMissing setting.Name))
  else
    match setting.pointer.assert INT64 with
    | .panic => .panic
    | .ret p =>
      if !ok && setting.Default.isSome then
        match setting.Default with
        | some (.int64 d) => assignDefault mem INT64 p (.int64 d)
        | _ => .ret (mem, some (errWrongDefault setting.Name))
      else
        match ParseInt v 64 with
        | none => .ret (mem, some (errWrongValue setting.Name))
        | some iv => assignAndValidate setting mem INT64 p (.int64 iv) (.int64 iv)

/-- Go `Config.parseFloat32`: the target receives `float32(fv)`, the validator
is called with `fv`, the `float64` that `strconv.ParseFloat` returned. -/
def Config.parseFloat32 (rt : Stdlib) (c : Config) (setting : Variable) (mem : Memory) :
    Exec (Memory × Option GoError) :=
  let v := (c.env.LookupEnv setting.Name).1
  let ok := (c.env.LookupEnv setting.Name).2
  if setting.Required && !ok then .ret (mem, some (errMissing setting.Name))
  else
    match setting.pointer.assert FLOAT32 with
    | .panic => .panic
    | .ret p =>
      if !ok && setting.Default.isSome then
        match setting.Default with
        | some (.float32 d) => assignDefault mem FLOAT32 p (.float32 d)
        | _ => .ret (mem, some (errWrongDefault setting.Name))
      else
        match rt.ParseFloat v 32 with
        | none => .ret (mem, some (errWrongValue setting.Name))
        | some fv =>
          assignAndValidate setting mem FLOAT32 p (.float32 (rt.toFloat32 fv)) (.float64 fv)

/-- Go `Config.parseFloat64`. -/
def Config.parseFloat64 (rt : Stdlib) (c : Config) (setting : Variable) (mem : Memory) :
    Exec (Memory × Option GoError) :=
  let v := (c.env.LookupEnv setting.Name).1
  let ok := (c.env.LookupEnv setting.Name).2
  if setting.Required && !ok then .ret (mem, some (errMissing setting.Name))
  else
    match setting.pointer.assert FLOAT64 with
    | .panic => .panic
    | .ret p =>
      if !ok && setting.Default.isSome then
        match setting.Default with
        | some (.float64 d) => assignDefault mem FLOAT64 p (.float64 d)
        | _ => .ret (mem, some (errWrongDefault setting.Name))
      else
        match rt.ParseFloat v 64 with
        | none => .ret (mem, some (errWrongValue setting.Name))
        | some fv => assignAndValidate setting mem FLOAT64 p (.float64 fv) (.float64 fv)

/-- Go `Config.parseBool`. -/
def Config.parseBool (c : Config) (setting : Variable) (mem : Memory) :
    Exec (Memory × Option GoError) :=
  let v := (c.env.LookupEnv setting.Name).1
  let ok := (c.env.LookupEnv setting.Name).2
  if setting.Required && !ok then .ret (mem, some (errMissing setting.Name))
  else
    match setting.pointer.assert BOOL with
    | .panic => .panic
    | .ret p =>
      if !ok && setting.Default.isSome then
        match setting.Default with
        | some (.bool d) => assignDefault mem BOOL p (.bool d)
        | _ => .ret (mem, some (errWrongDefault setting.Name))
      else
        match ParseBool v with
        | none => .ret (mem, some (errWrongValue setting.Name))
        | some bv => assignAndValidate setting mem BOOL p (.bool bv) (.bool bv)

/-- Go `ParseErrors`. -/
structure ParseErrors where
  errs : List GoError
  deriving Repr, DecidableEq

/-- Go `NewParseErrors(errs...)`. -/
def NewParseErrors (errs : List GoError) : ParseErrors :=
  { errs := [] ++ errs }

/-- Go `ParseErrors.Add`. -/
def ParseErrors.Add (pe : ParseErrors) (err : GoError) : ParseErrors :=
  { errs := pe.errs ++ [err] }

/-- Go `ParseErrors.IsNotNil`. -/
def ParseErrors.IsNotNil (pe : ParseErrors) : Bool :=
  decide (pe.errs.length > 0)

/-- The loop of `ParseErrors.Error`: `rest` is what remains of `pe.errs`, `i`
the index of its head, `n` is `len(pe.errs)` and `m` the message so far. -/
def ParseErrors.ErrorLoop (n : Nat) : List GoError → Nat → String → String
  | [], _, m => m
  | e :: rest, i, m =>
    let m1 := m ++ e.Error
    let m2 := if (i : Int) ≠ (n : Int) - 1 then m1 ++ ", " else m1
    ParseErrors.ErrorLoop n rest (i + 1) m2

/-- Go `ParseErrors.Error`. -/
def ParseErrors.Error (pe : ParseErrors) : String :=
  ParseErrors.ErrorLoop pe.errs.length pe.errs 0 "config parsing failed: "

/-- The `switch v.valueType` of `Parse`: the routine of the tag; a tag outside
the six cases matches no case and nothing happens. -/
def Config.parseVariable (rt : Stdlib) (c : Config) (v : Variable) (mem : Memory) :
    Exec (Memory × Option GoError) :=
  if v.valueType = STRING then c.parseString v mem
  else if v.valueType = INT then c.parseInt rt v mem
  else if v.valueType = INT64 then c.parseInt64 v mem
  else if v.valueType = FLOAT32 then c.parseFloat32 rt v mem
  else if v.valueType = FLOAT64 then c.parseFloat64 rt v mem
  else if v.valueType = BOOL then c.parseBool v mem
  else .ret (mem, none)

/-- The `for _, v := range c.variables` loop of `Parse` over the remaining
declarations: an error is added to `errs` and the loop continues. -/
def Config.ParseLoop (rt : Stdlib) (c : Config) :
    List Variable → Memory → ParseErrors → Exec (Memory × ParseErrors)
  | [], mem, errs => .ret (mem, errs)
  | v :: rest, mem, errs =>
    match c.parseVariable rt v mem with
    | .panic => .panic
    | .ret (mem1, some err) => Config.ParseLoop rt c rest mem1 (errs.Add err)
    | .ret (mem1, none) => Config.ParseLoop rt c rest mem1 errs

/-- Go `Config.Parse`: the returned `error` is `none` for nil, else the
`*ParseErrors`. -/
def Config.Parse (rt : Stdlib) (c : Config) (h : VarHeap) (mem : Memory) :
    Exec (Memory × Option ParseErrors) :=
  match Config.ParseLoop rt c (c.vars.map h) mem (NewParseErrors []) with
  | .panic => .panic
  | .ret (mem1, errs) => if errs.IsNotNil then .ret (mem1, some errs) else .ret (mem1, none)

/-! ## validate.go -/

/-- Go `strings.HasPrefix(s, pre)`. -/
def HasPrefix (s pre : String) : Bool :=
  pre.data.isPrefixOf s.data

/-- Go `strings.HasSuffix(s, suf)`. -/
def HasSuffix (s suf : String) : Bool :=
  suf.data.isSuffixOf s.data

/-- The search of `strings.Index`: whether `sub` starts at some position of
the remaining text. -/
def occursIn (sub : List Char) : List Char → Bool
  | [] => sub.isPrefixOf []
  | c :: cs => sub.isPrefixOf (c :: cs) || occursIn sub cs

/-- Go `strings.Contains(s, substr)`. -/
def Contains (s substr : String) : Bool :=
  occursIn substr.data s.data

/-- Go `ValidateStringRegexpMatch(exp)`. The matcher `regexp.MatchString` is a
parameter: it returns an error for a pattern that does not compile. -/
def ValidateStringRegexpMatch (MatchString : String → String → Except GoError Bool)
    (exp : String) : Value → Exec (Option GoError) :=
  fun value =>
    match value with
    | .string v =>
      match MatchString exp v with
      | .error err => .ret (some err)
      | .ok ok =>
        if !ok then
          .ret (some (.errorString
            ("value '" ++ v ++ "' does not match regular expression '" ++ exp ++ "'")))
        else .ret none
    | _ => .panic

/-- Go `ValidateStringContains(s)`: the assertion `value.(string)` panics on a
value of another type. -/
def ValidateStringContains (s : String) : Value → Exec (Option GoError) :=
  fun value =>
    match value with
    | .string v =>
      if !Contains v s then
        .ret (some (.errorString ("value '" ++ v ++ "' does not contain '" ++ s ++ "'")))
      else .ret none
    | _ => .panic

/-- Go `ValidateStringHasPrefix(s)`. -/
def ValidateStringHasPrefix (s : String) : Value → Exec (Option GoError) :=
  fun value =>
    match value with
    | .string v =>
      if !HasPrefix v s then
        .ret (some (.errorString ("value '" ++ v ++ "' does not start with '" ++ s ++ "'")))
      else .ret none
    | _ => .panic

/-- Go `ValidateStringHasSuffix(s)`. -/
def ValidateStringHasSuffix (s : String) : Value → Exec (Option GoError) :=
  fun value =>
    match value with
    | .string v =>
      if !HasSuffix v s then
        .ret (some (.errorString ("value '" ++ v ++ "' does not end with '" ++ s ++ "'")))
      else .ret none
    | _ => .panic


/-! ## The six routines as one resolution procedure -/

/-- The six declaration types. -/
def supported (t : valueType) : Prop :=
  t = STRING ∨ t = INT ∨ t = INT64 ∨ t = FLOAT32 ∨ t = FLOAT64 ∨ t = BOOL

instance (t : valueType) : Decidable (supported t) := by
  unfold supported; exact inferInstance

/-- The conversion step of the routine of tag `t` on the raw string: `none`
when the routine reports a wrong value type, else the value assigned to the
target and the value handed to the validator. -/
def convert (rt : Stdlib) (t : valueType) (raw : String) : Option (Value × Value) :=
  if t = STRING then some (.string raw, .string raw)
  else if t = INT then (Atoi rt raw).map (fun iv => (.int iv, .int iv))
  else if t = INT64 then (ParseInt raw 64).map (fun iv => (.int64 iv, .int64 iv))
  else if t = FLOAT32 then
    (rt.ParseFloat raw 32).map (fun fv => (.float32 (rt.toFloat32 fv), .float64 fv))
  else if t = FLOAT64 then (rt.ParseFloat raw 64).map (fun fv => (.float64 fv, .float64 fv))
  else if t = BOOL then (ParseBool raw).map (fun bv => (.bool bv, .bool bv))
  else none

/-- The common shape of the six routines, by the tag of the declaration. -/
def resolve (rt : Stdlib) (c : Config) (v : Variable) (mem : Memory) :
    Exec (Memory × Option GoError) :=
  if v.Required && !(c.env.LookupEnv v.Name).2 then .ret (mem, some (errMissing v.Name))
  else
    match v.pointer.assert v.valueType with
    | .panic => .panic
    | .ret p =>
      if !(c.env.LookupEnv v.Name).2 && v.Default.isSome then
        match v.Default with
        | some d =>
          if d.typeTag = some v.valueType then assignDefault mem v.valueType p d
          else .ret (mem, some (errWrongDefault v.Name))
        | none => .ret (mem, some (errWrongDefault v.Name))
      else
        match convert rt v.valueType (c.env.LookupEnv v.Name).1 with
        | none => .ret (mem, some (errWrongValue v.Name))
        | some (stored, arg) => assignAndValidate v mem v.valueType p stored arg

/-- The output target of a declaration: the variable its pointer refers to. -/
def Variable.target (v : Variable) : Option Loc :=
  match v.pointer with
  | .ptr e (some a) => some ⟨e, a⟩
  | _ => none

/-- The effect of a routine on the memory: no assignment, or one assignment. -/
def Memory.write (mem : Memory) : Option (Loc × Value) → Memory
  | none => mem
  | some (l, x) => mem.set l x

/-- The error list held by the result of `Parse`: empty for nil. -/
def errorsOf : Option ParseErrors → List GoError
  | none => []
  | some pe => pe.errs

/-- The error a routine returned, if it returned one. -/
def Exec.error : Exec (Memory × Option GoError) → Option GoError
  | .ret (_, e) => e
  | .panic => none


/-- Whether a call panicked. -/
def Exec.isPanic {α : Type} : Exec α → Bool
  | .ret _ => false
  | .panic => true

/-- The registry that holds the single declaration `r` of the registry `c`. -/
def Config.only (c : Config) (r : Nat) : Config :=
  { c with vars := [r] }

/-- The error list of a returned result of `Parse` (empty after a panic). -/
def Exec.errors : Exec (Memory × Option ParseErrors) → List GoError
  | .ret (_, res) => errorsOf res
  | .panic => []


/-! ## Instances used to evaluate the development on concrete inputs -/

/-- Go `EnvLookuperMock` of config_test.go: a lookup in an in-memory map,
given as its list of entries; `("", false)` for a missing key. -/
def EnvLookuperMock (entries : List (String × String)) : EnvLookuper :=
  { LookupEnv := fun key =>
      match entries.lookup key with
      | some v => (v, true)
      | none => ("", false) }

/-- Upper-casing restricted to the ASCII letters. -/
def asciiUpper (ch : Char) : Char :=
  if 97 ≤ ch.toNat ∧ ch.toNat ≤ 122 then Char.ofNat (ch.toNat - 32) else ch

/-- A standard library instance for 64-bit hosts whose upper-casing is
restricted to ASCII and whose `ParseFloat` accepts no input. -/
def asciiStdlib : Stdlib :=
  { ToUpperRune := asciiUpper
    IntSize := 64
    ParseFloat := fun _ _ => none
    toFloat32 := fun f => ⟨f.bits⟩ }

/-- A validator that rejects every value. -/
def rejectAll : Value → Exec (Option GoError) :=
  fun _ => .ret (some (.errorString "rejected"))

/-- A memory in which every variable holds the empty string. -/
def zeroMemory : Memory :=
  fun _ => .string ""

/-- The lookup source of `TestConfigInt`. -/
def testEnv : EnvLookuper :=
  EnvLookuperMock [("REQUEST_TIMEOUT", "30"), ("API_URL", "https://api.example.com"),
    ("API_VERSION", "5"), ("LOG_LEVEL", "DEBUG")]

/-- A registry over `testEnv`. -/
def testConfig : Config :=
  (New testEnv).SetEnvLookuper testEnv


/-- A `*Variable` reference used in the examples. -/
def logLevelRef : Nat := 0

/-- A heap of `Variable` structs as the caller creates them (before
registration): every struct is `&Variable{Name: "LOG_LEVEL", ValidationFunc: …}`
with a validator that rejects every value. -/
def rejectingHeap : VarHeap :=
  fun _ => { Default := none, Name := "LOG_LEVEL", Required := false,
             ValidationFunc := some rejectAll, pointer := .nilInterface, valueType := 0 }

/-- The declaration "default value conflict" of `TestConfigInt64`, as it is
after `SetInt64(&value, …)` with `value` at address 0: the default `5` is an
`int`, not an `int64`. -/
def conflictInt64 : Variable :=
  { Default := some (.int 5), Name := "REQUEST_TIMEOUT", Required := false,
    ValidationFunc := none, pointer := .ptr INT64 (some 0), valueType := INT64 }


/-- The declaration "default value" of `TestConfigInt` after
`SetInt(&value, …)` with `value` at address 0, with a validator attached. -/
def defaultInt (f : Option (Value → Exec (Option GoError))) : Variable :=
  { Default := some (.int 500), Name := "BATCH_SIZE", Required := false,
    ValidationFunc := f, pointer := .ptr INT (some 0), valueType := INT }

/-- The declaration "wrong default value type" of `TestConfigInt` after
`SetInt(&value, …)` with `value` at address 0. -/
def wrongDefaultInt : Variable :=
  { Default := some (.string "1"), Name := "BATCH_SIZE", Required := false,
    ValidationFunc := none, pointer := .ptr INT (some 0), valueType := INT }


/-- A STRING declaration `LOG_LEVEL` with a validator that rejects every
value, as it is after `SetString(&value, …)` with `value` at address 0. -/
def rejectedString : Variable :=
  { Default := none, Name := "LOG_LEVEL", Required := false,
    ValidationFunc := some rejectAll, pointer := .ptr STRING (some 0), valueType := STRING }


/-- The two declarations of the sixth example scenario, as they are after
`SetString(&level, …)` and `SetInt(&size, …)`: STRING `LOG_LEVEL` and a required
INT `BATCH_SIZE`. -/
def twoHeap : VarHeap :=
  fun r =>
    if r = 0 then
      { Default := none, Name := "LOG_LEVEL", Required := false, ValidationFunc := none,
        pointer := .ptr STRING (some 0), valueType := STRING }
    else
      { Default := none, Name := "BATCH_SIZE", Required := true, ValidationFunc := none,
        pointer := .ptr INT (some 0), valueType := INT }

/-- The registry of the sixth example scenario over `testEnv`. -/
def twoConfig : Config :=
  { vars := [0, 1], env := testEnv }

/-- The registry of the sixth example scenario with the two declarations in
the other order: the failing `BATCH_SIZE` first, `LOG_LEVEL` second. -/
def failFirstConfig : Config :=
  { vars := [1, 0], env := testEnv }


/-- A heap of `Variable` structs as the caller creates them: every struct is
`&Variable{Name: "api-version"}`. -/
def apiVersionHeap : VarHeap :=
  fun _ => { Default := none, Name := "api-version", Required := false,
             ValidationFunc := none, pointer := .nilInterface, valueType := 0 }

/-- A lookup source whose only entry is stored under the key `api-version`, in
lower case and with a hyphen. -/
def hyphenEnv : EnvLookuper :=
  EnvLookuperMock [("api-version", "5")]

/-- A heap of `Variable` structs as the caller creates them: every struct is
`&Variable{Name: "API-VERSION"}`. -/
def upperApiVersionHeap : VarHeap :=
  fun _ => { Default := none, Name := "API-VERSION", Required := false,
             ValidationFunc := none, pointer := .nilInterface, valueType := 0 }

/-- A memory in which every variable holds the integer zero. -/
def zeroIntMemory : Memory :=
  fun _ => .int 0

/-- An INT declaration `BATCH_SIZE` without default, not required, as it is
after `SetInt(&value, …)` with `value` at address 0. -/
def optionalInt : Variable :=
  { Default := none, Name := "BATCH_SIZE", Required := false,
    ValidationFunc := none, pointer := .ptr INT (some 0), valueType := INT }

/-- A registry over `testEnv` holding one declaration. -/
def oneConfig : Config :=
  { vars := [0], env := testEnv }

/-- An optional STRING declaration `LOG_FORMAT` without default, as it is after
`SetString(&value, …)` with `value` at address 0, with a validator attached. -/
def optionalString (f : Option (Value → Exec (Option GoError))) : Variable :=
  { Default := none, Name := "LOG_FORMAT", Required := false,
    ValidationFunc := f, pointer := .ptr STRING (some 0), valueType := STRING }

/-! ## The wording of the specification for the conversions -/

/-- Whether a character is one of the decimal digits `0` to `9`. -/
def isDecimalDigit (c : Char) : Bool :=
  decide (48 ≤ c.toNat ∧ c.toNat ≤ 57)

/-- The number denoted by a string of decimal digits, most significant first. -/
def decimalValue (ds : List Char) : Nat :=
  ds.foldl (fun n c => n * 10 + (c.toNat - 48)) 0

/-- The wording of the specification for an integer literal: `s` is an
optional `+` or `-` sign followed by one or more decimal digits, and denotes
the integer `n`. -/
def DecimalNumeral (s : String) (n : Int) : Prop :=
  ∃ sign ds : List Char, s.data = sign ++ ds ∧
    (sign = [] ∨ sign = ['+'] ∨ sign = ['-']) ∧
    ds ≠ [] ∧ (∀ c ∈ ds, isDecimalDigit c = true) ∧
    n = if sign = ['-'] then -(decimalValue ds : Int) else (decimalValue ds : Int)

/-- The character of a decimal digit. -/
def digitChar (d : Nat) : Char :=
  Char.ofNat (48 + d)

/-- The decimal rendering of a natural number, without leading zeros. -/
def formatNat (n : Nat) : List Char :=
  if n = 0 then ['0'] else (Nat.digits 10 n).reverse.map digitChar

/-- The decimal rendering of an integer (`strconv.FormatInt(n, 10)`): a minus
sign for a negative number, then the digits of its absolute value. -/
def FormatInt (n : Int) : String :=
  ⟨if n < 0 then '-' :: formatNat n.natAbs else formatNat n.natAbs⟩

/-- The Go value of an integer at the type of the declaration: `int64` for
INT64, `int` otherwise. -/
def intValue (t : valueType) (n : Int) : Value :=
  if t = INT64 then .int64 n else .int n

/-- The spellings that `strconv.ParseBool` reads as true. -/
def trueSpellings : List String :=
  ["1", "t", "T", "true", "TRUE", "True"]

/-- The spellings that `strconv.ParseBool` reads as false. -/
def falseSpellings : List String :=
  ["0", "f", "F", "false", "FALSE", "False"]

/-- Equality of two strings ignoring the case of ASCII letters. -/
def equalIgnoringCase (s t : String) : Bool :=
  s.data.map Char.toLower == t.data.map Char.toLower

/-- A lookup source holding `TRACING_ENABLED` in mixed case. -/
def mixedCaseEnv : EnvLookuper :=
  EnvLookuperMock [("TRACING_ENABLED", "tRUE")]

/-- The declaration "basic test case" of `TestConfigBool` after
`SetBool(&value, …)` with `value` at address 0. -/
def tracingBool : Variable :=
  { Default := none, Name := "TRACING_ENABLED", Required := false,
    ValidationFunc := none, pointer := .ptr BOOL (some 0), valueType := BOOL }

/-- The lookup source of `TestConfigBool`. -/
def boolEnv : EnvLookuper :=
  EnvLookuperMock [("TRACING_ENABLED", "true"), ("USE_GCS_STORAGE", "false")]

/-- An empty registry over `boolEnv`. -/
def boolConfig : Config :=
  (New boolEnv).SetEnvLookuper boolEnv

/-- An empty registry over `mixedCaseEnv`. -/
def mixedCaseConfig : Config :=
  (New mixedCaseEnv).SetEnvLookuper mixedCaseEnv

/-! ## Registries built by the registration operations -/

/-- One call of a registration operation: the operation, the output target
and the `*Variable` handed to it. -/
structure SetCall where
  op : Stdlib → Config → VarHeap → Option Nat → Nat → Config × VarHeap
  pointer : Option Nat
  setting : Nat

/-- A sequence of registration calls, made in order on a registry and the heap
of `Variable` structs. -/
def registerAll (rt : Stdlib) : List SetCall → Config × VarHeap → Config × VarHeap
  | [], st => st
  | call :: rest, st => registerAll rt rest (call.op rt st.1 st.2 call.pointer call.setting)

/-- Every declaration of the registry carries one of the six tags and a
pointer whose element type is that of the tag. -/
def TagAgrees (c : Config) (h : VarHeap) : Prop :=
  ∀ r ∈ c.vars, supported (h r).valueType ∧ ∃ p, (h r).pointer = .ptr (h r).valueType p

/-- No declaration of the registry carries a nil output pointer. -/
def TargetsNonNil (c : Config) (h : VarHeap) : Prop :=
  ∀ r ∈ c.vars, ∀ e, (h r).pointer ≠ .ptr e none

/-- A heap of `Variable` structs as the caller creates them: every struct is
`&Variable{Name: "REQUEST_TIMEOUT", ValidationFunc: ValidateStringContains("3")}`. -/
def stringValidatedHeap : VarHeap :=
  fun _ => { Default := none, Name := "REQUEST_TIMEOUT", Required := false,
             ValidationFunc := some (ValidateStringContains "3"), pointer := .nilInterface,
             valueType := 0 }

/-! ## A FLOAT32 declaration with a validator -/

/-- A standard library instance that reads one float, the text `1.2`: at 32
bits `ParseFloat` returns the `float64` nearest to the `float32` 1.2 (bits
`0x3FF3333340000000`), at 64 bits the `float64` 1.2; `float32(f)` of the former
is the `float32` 1.2 (bits `0x3F99999A`). -/
def floatStdlib : Stdlib :=
  { ToUpperRune := asciiUpper
    IntSize := 64
    ParseFloat := fun s bitSize =>
      if s = "1.2" then
        some (if bitSize = 32 then ⟨0x3FF3333340000000⟩ else ⟨0x3FF3333333333333⟩)
      else none
    toFloat32 := fun f => if f.bits = 0x3FF3333340000000 then ⟨0x3F99999A⟩ else ⟨0⟩ }

/-- The lookup source of `TestConfigFloat32`. -/
def floatEnv : EnvLookuper :=
  EnvLookuperMock [("CPU_REQUEST", "1.2"), ("LOAD_AVERAGE_THRESHOLD", "0.8")]

/-- An empty registry over `floatEnv`. -/
def floatConfig : Config :=
  (New floatEnv).SetEnvLookuper floatEnv

/-- A validator written for a FLOAT32 declaration,
`func(value interface{}) error { _ = value.(float32); return nil }`: it asserts
that its argument is a `float32`. -/
def assertFloat32 : Value → Exec (Option GoError) :=
  fun value =>
    match value with
    | .float32 _ => .ret none
    | _ => .panic

/-- A validator that reports the dynamic type of its argument,
`func(value interface{}) error { return fmt.Errorf("%T", value) }`. -/
def reportType : Value → Exec (Option GoError) :=
  fun value =>
    match value with
    | .string _ => .ret (some (.errorString "string"))
    | .int _ => .ret (some (.errorString "int"))
    | .int64 _ => .ret (some (.errorString "int64"))
    | .float32 _ => .ret (some (.errorString "float32"))
    | .float64 _ => .ret (some (.errorString "float64"))
    | .bool _ => .ret (some (.errorString "bool"))
    | .other _ => .ret (some (.errorString "other"))

/-- The declaration "basic test case" of `TestConfigFloat32` after
`SetFloat32(&value, …)` with `value` at address 0, with a validator attached. -/
def cpuRequest (f : Value → Exec (Option GoError)) : Variable :=
  { Default := none, Name := "CPU_REQUEST", Required := false,
    ValidationFunc := some f, pointer := .ptr FLOAT32 (some 0), valueType := FLOAT32 }

/-! ## The dispatch of `Parse` -/

/-- The routine that the `switch v.valueType` of `Parse` selects for a tag:
`none` when no case matches. -/
def Config.routine (rt : Stdlib) (c : Config) (t : valueType) :
    Option (Variable → Memory → Exec (Memory × Option GoError)) :=
  if t = STRING then some c.parseString
  else if t = INT then some (c.parseInt rt)
  else if t = INT64 then some c.parseInt64
  else if t = FLOAT32 then some (c.parseFloat32 rt)
  else if t = FLOAT64 then some (c.parseFloat64 rt)
  else if t = BOOL then some c.parseBool
  else none

/-- The same `*Variable` registered twice: `SetString(&s, v)`, then
`SetInt(&i, v)`, with `s` at address 0 and `i` at address 1. -/
def twiceCalls : List SetCall :=
  [⟨Config.SetString, some 0, 0⟩, ⟨Config.SetInt, some 1, 0⟩]

/-- The lookup source of the tests with two more entries, under keys that
differ from the declared names `LOG_LEVEL` and `BATCH_SIZE` by case and by a
hyphen. -/
def noisyEnv : EnvLookuper :=
  EnvLookuperMock [("batch-size", "7"), ("log_level", "TRACE"), ("REQUEST_TIMEOUT", "30"),
    ("API_URL", "https://api.example.com"), ("API_VERSION", "5"), ("LOG_LEVEL", "DEBUG")]


/-- The INT64 declaration `REQUEST_TIMEOUT` with a validator that rejects every
value, as it is after `SetInt64(&value, …)` with `value` at address 0. -/
def validatedInt64 : Variable :=
  { Default := none, Name := "REQUEST_TIMEOUT", Required := false,
    ValidationFunc := some rejectAll, pointer := .ptr INT64 (some 0), valueType := INT64 }

/-- The BOOL declaration `TRACING_ENABLED` with a validator that rejects every
value, as it is after `SetBool(&value, …)` with `value` at address 0. -/
def validatedBool : Variable :=
  { Default := none, Name := "TRACING_ENABLED", Required := false,
    ValidationFunc := some rejectAll, pointer := .ptr BOOL (some 0), valueType := BOOL }


/-! ## Theorems -/

theorem parseVariable_eq_resolve (rt : Stdlib) (c : Config) (v : Variable) (mem : Memory)
    (hs : supported v.valueType) : c.parseVariable rt v mem = resolve rt c v mem := by
  obtain ⟨df, nm, rq, vf, ptr, ty⟩ := v
  simp only [supported] at hs
  rcases hs with h | h | h | h | h | h <;> subst h <;>
    rcases df with _ | (_ | _ | _ | _ | _ | _ | _) <;>
    simp [Config.parseVariable, resolve, convert, Config.parseString, Config.parseInt,
      Config.parseInt64, Config.parseFloat32, Config.parseFloat64, Config.parseBool,
      Value.typeTag, STRING, INT, INT64, FLOAT32, FLOAT64, BOOL] <;>
    first
      | done
      | (cases Atoi rt (c.env.LookupEnv nm).1 <;> rfl)
      | (cases ParseInt (c.env.LookupEnv nm).1 64 <;> rfl)
      | (cases rt.ParseFloat (c.env.LookupEnv nm).1 32 <;> rfl)
      | (cases rt.ParseFloat (c.env.LookupEnv nm).1 64 <;> rfl)
      | (cases ParseBool (c.env.LookupEnv nm).1 <;> rfl)

/-- Claim C1. Required-before-default: for each of the six declaration types,
every lookup source and every Default, a declaration with Required set whose
name is absent from the source fails with the error
'NAME' variable is missing; no default is applied and the memory, hence the
output target, is left as it was. -/
theorem required_before_default (rt : Stdlib) (c : Config) (v : Variable) (mem : Memory)
    (hs : supported v.valueType) (hreq : v.Required = true)
    (habs : (c.env.LookupEnv v.Name).2 = false) :
    c.parseVariable rt v mem
      = .ret (mem, some (.errorString ("'" ++ v.Name ++ "' variable is missing"))) := by
  rw [parseVariable_eq_resolve rt c v mem hs]
  simp [resolve, hreq, habs, errMissing]

/-- The case "missing required var" of `TestConfigInt`, with a well-typed default added. -/
theorem required_before_default_witness :
    supported INT ∧ true = true ∧ (testConfig.env.LookupEnv "BATCH_SIZE").2 = false ∧
    testConfig.parseVariable asciiStdlib
        { Default := some (.int 500), Name := "BATCH_SIZE", Required := true,
          ValidationFunc := none, pointer := .ptr INT (some 0), valueType := INT } zeroMemory
      = .ret (zeroMemory, some (.errorString ("'" ++ "BATCH_SIZE" ++ "' variable is missing"))) :=
  ⟨by decide, rfl, by decide,
    required_before_default asciiStdlib testConfig
      { Default := some (.int 500), Name := "BATCH_SIZE", Required := true,
        ValidationFunc := none, pointer := .ptr INT (some 0), valueType := INT } zeroMemory
      (by decide) rfl (by decide)⟩


/-- Claim C2, refuted as stated: a STRING declaration `LOG_LEVEL` with a
validator that rejects every value, registered with `SetString` and parsed
against a source holding `LOG_LEVEL=DEBUG`. The name is present and the value
converts, the target receives `DEBUG`, yet `Parse` returns an aggregate holding
the validator's error. -/
theorem presence_precedence_counterexample :
    (testEnv.LookupEnv "LOG_LEVEL").2 = true ∧
    (convert asciiStdlib STRING (testEnv.LookupEnv "LOG_LEVEL").1).isSome = true ∧
    ∃ mem1,
      (testConfig.SetString asciiStdlib rejectingHeap (some 0) logLevelRef).1.Parse asciiStdlib
          (testConfig.SetString asciiStdlib rejectingHeap (some 0) logLevelRef).2 zeroMemory
        = .ret (mem1, some ⟨[.errorString "rejected"]⟩) ∧
      mem1 ⟨STRING, 0⟩ = .string "DEBUG" :=
  ⟨by decide, by decide, _, rfl, by decide⟩

/-- Claim C2, amended. Presence precedence: for each of the six declaration
types, when the name is present in the source and the raw value converts, the
routine assigns the converted value to the output target whatever the Default
and Required fields hold; the returned error is the validator's verdict on the
converted value (no error when no validator is attached or when it accepts).
The right-hand side mentions neither Default nor Required. -/
theorem presence_precedence (rt : Stdlib) (c : Config) (v : Variable) (mem : Memory)
    (a : Nat) (stored arg : Value)
    (hs : supported v.valueType) (hpres : (c.env.LookupEnv v.Name).2 = true)
    (hconv : convert rt v.valueType (c.env.LookupEnv v.Name).1 = some (stored, arg))
    (hp : v.pointer = .ptr v.valueType (some a)) :
    c.parseVariable rt v mem =
      match v.ValidationFunc with
      | none => .ret (mem.set ⟨v.valueType, a⟩ stored, none)
      | some f =>
        match f arg with
        | .panic => .panic
        | .ret e => .ret (mem.set ⟨v.valueType, a⟩ stored, e) := by
  rw [parseVariable_eq_resolve rt c v mem hs]
  simp only [resolve, hpres, hconv, hp, Pointer.assert, assignAndValidate, Memory.store]
  cases v.ValidationFunc <;> simp

/-- The case "default value conflict" of `TestConfigInt64`: the value 30 of the source is assigned. -/
theorem presence_precedence_witness :
    supported conflictInt64.valueType ∧
    (testConfig.env.LookupEnv conflictInt64.Name).2 = true ∧
    convert asciiStdlib conflictInt64.valueType (testConfig.env.LookupEnv conflictInt64.Name).1
      = some (.int64 30, .int64 30) ∧
    conflictInt64.pointer = .ptr conflictInt64.valueType (some 0) ∧
    testConfig.parseVariable asciiStdlib conflictInt64 zeroMemory =
      match conflictInt64.ValidationFunc with
      | none => .ret (zeroMemory.set ⟨conflictInt64.valueType, 0⟩ (.int64 30), none)
      | some f =>
        match f (.int64 30) with
        | .panic => .panic
        | .ret e => .ret (zeroMemory.set ⟨conflictInt64.valueType, 0⟩ (.int64 30), e) :=
  ⟨by decide, by decide, by decide, rfl,
    presence_precedence asciiStdlib testConfig conflictInt64 zeroMemory 0 (.int64 30) (.int64 30)
      (by decide) (by decide) (by decide) rfl⟩


/-- Claim C3. Default applied without validation: for each of the six
declaration types, when the name is absent, Required is false and Default is a
non-nil value of the declared type, the routine assigns exactly the default to
the output target and returns no error, whichever validator `f` is attached:
the validator is not called, so one that rejects every value (or panics) does
not make the declaration fail. -/
theorem default_applied_without_validation (rt : Stdlib) (c : Config) (v : Variable)
    (mem : Memory) (d : Value) (a : Nat) (f : Option (Value → Exec (Option GoError)))
    (hs : supported v.valueType) (habs : (c.env.LookupEnv v.Name).2 = false)
    (hreq : v.Required = false) (hd : v.Default = some d)
    (hty : d.typeTag = some v.valueType) (hp : v.pointer = .ptr v.valueType (some a)) :
    c.parseVariable rt { v with ValidationFunc := f } mem
      = .ret (mem.set ⟨v.valueType, a⟩ d, none) := by
  have h1 := parseVariable_eq_resolve rt c { v with ValidationFunc := f } mem hs
  rw [h1]
  simp [resolve, habs, hreq, hd, hty, hp, Pointer.assert, assignDefault, Memory.store]

/-- The case "default value" of `TestConfigInt` with a validator that rejects every value attached. -/
theorem default_applied_without_validation_witness :
    supported (defaultInt none).valueType ∧
    (testConfig.env.LookupEnv (defaultInt none).Name).2 = false ∧
    (defaultInt none).Required = false ∧
    (defaultInt none).Default = some (.int 500) ∧
    (Value.int 500).typeTag = some (defaultInt none).valueType ∧
    (defaultInt none).pointer = .ptr (defaultInt none).valueType (some 0) ∧
    testConfig.parseVariable asciiStdlib
        { defaultInt none with ValidationFunc := some rejectAll } zeroMemory
      = .ret (zeroMemory.set ⟨(defaultInt none).valueType, 0⟩ (.int 500), none) :=
  ⟨by decide, by decide, rfl, rfl, rfl, rfl,
    default_applied_without_validation asciiStdlib testConfig (defaultInt none) zeroMemory
      (.int 500) 0 (some rejectAll) (by decide) (by decide) rfl rfl rfl rfl⟩

/-- Claim C4. Wrong default type: for each of the six declaration types, when
the name is absent, Required is false and Default is a non-nil value whose
dynamic type is not the declared type, the routine fails with the error
variable 'NAME' has a wrong default value type and leaves the memory, hence
the output target, as it was. The pointer `p` of the declared element type may
even be nil: it is not dereferenced. -/
theorem wrong_default_type (rt : Stdlib) (c : Config) (v : Variable) (mem : Memory)
    (d : Value) (p : Option Nat)
    (hs : supported v.valueType) (habs : (c.env.LookupEnv v.Name).2 = false)
    (hreq : v.Required = false) (hd : v.Default = some d)
    (hty : d.typeTag ≠ some v.valueType) (hp : v.pointer = .ptr v.valueType p) :
    c.parseVariable rt v mem
      = .ret (mem, some (.errorString
          ("variable '" ++ v.Name ++ "' has a wrong default value type"))) := by
  rw [parseVariable_eq_resolve rt c v mem hs]
  simp [resolve, habs, hreq, hd, hty, hp, Pointer.assert, errWrongDefault]

/-- The case "wrong default value type" of `TestConfigInt`. -/
theorem wrong_default_type_witness :
    supported wrongDefaultInt.valueType ∧
    (testConfig.env.LookupEnv wrongDefaultInt.Name).2 = false ∧
    wrongDefaultInt.Required = false ∧
    wrongDefaultInt.Default = some (.string "1") ∧
    (Value.string "1").typeTag ≠ some wrongDefaultInt.valueType ∧
    wrongDefaultInt.pointer = .ptr wrongDefaultInt.valueType (some 0) ∧
    testConfig.parseVariable asciiStdlib wrongDefaultInt zeroMemory
      = .ret (zeroMemory, some (.errorString
          ("variable '" ++ wrongDefaultInt.Name ++ "' has a wrong default value type"))) :=
  ⟨by decide, by decide, rfl, rfl, by decide, rfl,
    wrong_default_type asciiStdlib testConfig wrongDefaultInt zeroMemory (.string "1") (some 0)
      (by decide) (by decide) rfl rfl (by decide) rfl⟩

/-- Claim C5, refuted as stated: the case "default value conflict" of
`TestConfigInt64`. The INT64 declaration `REQUEST_TIMEOUT` has the default `5`
of dynamic type `int`, the source holds `REQUEST_TIMEOUT=30`; the routine
returns no error and the target receives 30. -/
theorem default_type_safety_counterexample :
    conflictInt64.Default = some (.int 5) ∧
    (Value.int 5).typeTag ≠ some conflictInt64.valueType ∧
    (testConfig.env.LookupEnv conflictInt64.Name).2 = true ∧
    ∃ mem1, testConfig.parseVariable asciiStdlib conflictInt64 zeroMemory = .ret (mem1, none) ∧
      mem1 ⟨INT64, 0⟩ = .int64 30 :=
  ⟨rfl, by decide, by decide, _, rfl, by decide⟩

/-- Claim C5, amended. Default type safety: a declaration of one of the six
types whose Default is a non-nil value of another dynamic type fails with the
wrong-default-type error when the name is absent and Required is false; when
the name is absent and Required is true it fails with the missing-variable
error instead; and when the name is present the Default is ignored: the
outcome is that of the same declaration with a nil Default. -/
theorem default_type_safety (rt : Stdlib) (c : Config) (v : Variable) (mem : Memory)
    (d : Value) (p : Option Nat)
    (hs : supported v.valueType) (hd : v.Default = some d)
    (hty : d.typeTag ≠ some v.valueType) (hp : v.pointer = .ptr v.valueType p) :
    ((c.env.LookupEnv v.Name).2 = false → v.Required = false →
        c.parseVariable rt v mem = .ret (mem, some (errWrongDefault v.Name))) ∧
    ((c.env.LookupEnv v.Name).2 = false → v.Required = true →
        c.parseVariable rt v mem = .ret (mem, some (errMissing v.Name))) ∧
    ((c.env.LookupEnv v.Name).2 = true →
        c.parseVariable rt v mem = c.parseVariable rt { v with Default := none } mem) := by
  refine ⟨fun habs hreq => ?_, fun habs hreq => ?_, fun hpres => ?_⟩
  · rw [parseVariable_eq_resolve rt c v mem hs]
    simp [resolve, habs, hreq, hd, hty, hp, Pointer.assert]
  · rw [parseVariable_eq_resolve rt c v mem hs]
    simp [resolve, habs, hreq]
  · have h1 := parseVariable_eq_resolve rt c { v with Default := none } mem hs
    rw [parseVariable_eq_resolve rt c v mem hs, h1]
    simp only [resolve, hpres, hp, Pointer.assert]
    simp
    cases convert rt v.valueType (c.env.LookupEnv v.Name).1 with
    | none => rfl
    | some sa => rfl

/-- The three cases at the declaration "default value conflict" of `TestConfigInt64`. -/
theorem default_type_safety_witness :
    supported conflictInt64.valueType ∧
    conflictInt64.Default = some (.int 5) ∧
    (Value.int 5).typeTag ≠ some conflictInt64.valueType ∧
    conflictInt64.pointer = .ptr conflictInt64.valueType (some 0) ∧
    ((testConfig.env.LookupEnv conflictInt64.Name).2 = false → conflictInt64.Required = false →
        testConfig.parseVariable asciiStdlib conflictInt64 zeroMemory
          = .ret (zeroMemory, some (errWrongDefault conflictInt64.Name))) ∧
    ((testConfig.env.LookupEnv conflictInt64.Name).2 = false → conflictInt64.Required = true →
        testConfig.parseVariable asciiStdlib conflictInt64 zeroMemory
          = .ret (zeroMemory, some (errMissing conflictInt64.Name))) ∧
    ((testConfig.env.LookupEnv conflictInt64.Name).2 = true →
        testConfig.parseVariable asciiStdlib conflictInt64 zeroMemory
          = testConfig.parseVariable asciiStdlib { conflictInt64 with Default := none }
              zeroMemory) :=
  ⟨by decide, rfl, by decide, rfl,
    default_type_safety asciiStdlib testConfig conflictInt64 zeroMemory (.int 5) (some 0)
      (by decide) rfl (by decide) rfl⟩


theorem parseVariable_unsupported (rt : Stdlib) (c : Config) (v : Variable) (mem : Memory)
    (hs : ¬ supported v.valueType) : c.parseVariable rt v mem = .ret (mem, none) := by
  simp only [supported, not_or] at hs
  obtain ⟨h0, h1, h2, h3, h4, h5⟩ := hs
  simp [Config.parseVariable, h0, h1, h2, h3, h4, h5]

/-- Every way in which `resolve` can return: without writing, with one of the
three built-in errors (or, for the default branch, none), or after
`assignAndValidate` wrote the converted value. -/
theorem resolve_ret (rt : Stdlib) (c : Config) (v : Variable) (mem mem1 : Memory)
    (r : Option GoError) (h : resolve rt c v mem = .ret (mem1, r)) :
    (mem1 = mem ∧ (r = some (errMissing v.Name) ∨ r = some (errWrongDefault v.Name) ∨
        r = some (errWrongValue v.Name))) ∨
    (∃ a d, v.pointer = .ptr v.valueType (some a) ∧ v.Default = some d ∧
        (c.env.LookupEnv v.Name).2 = false ∧ mem1 = mem.set ⟨v.valueType, a⟩ d ∧ r = none) ∨
    (∃ a stored arg, v.pointer = .ptr v.valueType (some a) ∧
        convert rt v.valueType (c.env.LookupEnv v.Name).1 = some (stored, arg) ∧
        mem1 = mem.set ⟨v.valueType, a⟩ stored ∧
        (match v.ValidationFunc with
          | none => r = none
          | some f => f arg = .ret r)) := by
  unfold resolve at h
  split at h
  · simp only [Exec.ret.injEq, Prod.mk.injEq] at h
    exact Or.inl ⟨h.1.symm, Or.inl h.2.symm⟩
  · cases hptr : v.pointer with
    | nilInterface => simp [hptr, Pointer.assert] at h
    | ptr e a =>
      simp only [hptr, Pointer.assert] at h
      by_cases he : e = v.valueType
      · simp only [he, if_true] at h
        split at h
        · rename_i hdef
          cases hd : v.Default with
          | none => simp [hd] at hdef
          | some d =>
            simp only [hd] at h
            split at h
            · cases a with
              | none => simp [assignDefault, Memory.store] at h
              | some a =>
                simp only [assignDefault, Memory.store, Exec.ret.injEq, Prod.mk.injEq] at h
                simp only [Bool.and_eq_true, Bool.not_eq_true', hd] at hdef
                exact Or.inr (Or.inl ⟨a, d, by rw [he], rfl, hdef.1, h.1.symm, h.2.symm⟩)
            · simp only [Exec.ret.injEq, Prod.mk.injEq] at h
              exact Or.inl ⟨h.1.symm, Or.inr (Or.inl h.2.symm)⟩
        · cases hc : convert rt v.valueType (c.env.LookupEnv v.Name).1 with
          | none =>
            simp only [hc, Exec.ret.injEq, Prod.mk.injEq] at h
            exact Or.inl ⟨h.1.symm, Or.inr (Or.inr h.2.symm)⟩
          | some sa =>
            obtain ⟨stored, arg⟩ := sa
            simp only [hc] at h
            cases a with
            | none => simp [assignAndValidate, Memory.store] at h
            | some a =>
              refine Or.inr (Or.inr ⟨a, stored, arg, by rw [he], rfl, ?_⟩)
              simp only [assignAndValidate, Memory.store] at h
              cases hf : v.ValidationFunc with
              | none =>
                simp only [hf, Exec.ret.injEq, Prod.mk.injEq] at h
                exact ⟨h.1.symm, h.2.symm⟩
              | some f =>
                simp only [hf] at h
                cases hfa : f arg with
                | panic => simp [hfa] at h
                | ret e0 =>
                  simp only [hfa, Exec.ret.injEq, Prod.mk.injEq] at h
                  exact ⟨h.1.symm, by rw [← h.2]; exact hfa⟩
      · simp [he] at h


/-- Claim C6, refuted as stated: the STRING declaration `LOG_LEVEL` with a
rejecting validator, against a source holding `LOG_LEVEL=DEBUG`. The routine
returns the validator's error, and the output target, which held the empty
string, now holds `DEBUG`: `*p = v` precedes the validator call. -/
theorem write_only_on_success_counterexample :
    zeroMemory ⟨STRING, 0⟩ = .string "" ∧
    ∃ mem1, testConfig.parseVariable asciiStdlib rejectedString zeroMemory
        = .ret (mem1, some (.errorString "rejected")) ∧
      mem1 ⟨STRING, 0⟩ = .string "DEBUG" ∧ mem1 ⟨STRING, 0⟩ ≠ zeroMemory ⟨STRING, 0⟩ :=
  ⟨rfl, _, rfl, by decide, by decide⟩

/-- Claim C6, amended. Whenever the routine of a declaration returns, the
memory is either untouched or differs by one assignment to the declaration's
own output target. If it returns an error, then either the memory is untouched
and the error is one of the missing-variable, wrong-default-type and
wrong-value-type errors, or the error is the result of the validator on the
converted value and the target already holds the converted value. -/
theorem write_only_on_success (rt : Stdlib) (c : Config) (v : Variable) (mem mem1 : Memory)
    (r : Option GoError) (h : c.parseVariable rt v mem = .ret (mem1, r)) :
    (mem1 = mem ∨ ∃ loc x, v.target = some loc ∧ mem1 = mem.set loc x) ∧
    (∀ e, r = some e →
      (mem1 = mem ∧ (e = errMissing v.Name ∨ e = errWrongDefault v.Name ∨
          e = errWrongValue v.Name)) ∨
      (∃ a stored arg f, v.pointer = .ptr v.valueType (some a) ∧
          convert rt v.valueType (c.env.LookupEnv v.Name).1 = some (stored, arg) ∧
          v.ValidationFunc = some f ∧ f arg = .ret (some e) ∧
          mem1 = mem.set ⟨v.valueType, a⟩ stored)) := by
  by_cases hs : supported v.valueType
  · rw [parseVariable_eq_resolve rt c v mem hs] at h
    rcases resolve_ret rt c v mem mem1 r h with ⟨hm, he⟩ | ⟨a, d, hp, _, _, hm, hr⟩ |
      ⟨a, stored, arg, hp, hc, hm, hv⟩
    · refine ⟨Or.inl hm, fun e hr => Or.inl ⟨hm, ?_⟩⟩
      subst hr
      simpa using he
    · refine ⟨Or.inr ⟨⟨v.valueType, a⟩, d, by simp [Variable.target, hp], hm⟩, fun e hr' => ?_⟩
      rw [hr] at hr'
      exact absurd hr' (by simp)
    · refine ⟨Or.inr ⟨⟨v.valueType, a⟩, stored, by simp [Variable.target, hp], hm⟩,
        fun e hr => ?_⟩
      subst hr
      cases hf : v.ValidationFunc with
      | none => simp [hf] at hv
      | some f =>
        simp only [hf] at hv
        exact Or.inr ⟨a, stored, arg, f, hp, hc, rfl, hv, hm⟩
  · rw [parseVariable_unsupported rt c v mem hs] at h
    simp only [Exec.ret.injEq, Prod.mk.injEq] at h
    refine ⟨Or.inl h.1.symm, fun e hr => ?_⟩
    rw [← h.2] at hr
    exact absurd hr (by simp)

/-- The case "wrong default value type" of `TestConfigInt`: an error and an untouched memory. -/
theorem write_only_on_success_witness :
    testConfig.parseVariable asciiStdlib wrongDefaultInt zeroMemory
      = .ret (zeroMemory, some (errWrongDefault "BATCH_SIZE")) ∧
    ((zeroMemory = zeroMemory ∨
        ∃ loc x, wrongDefaultInt.target = some loc ∧ zeroMemory = zeroMemory.set loc x) ∧
    (∀ e, some (errWrongDefault "BATCH_SIZE") = some e →
      (zeroMemory = zeroMemory ∧ (e = errMissing wrongDefaultInt.Name ∨
          e = errWrongDefault wrongDefaultInt.Name ∨ e = errWrongValue wrongDefaultInt.Name)) ∨
      (∃ a stored arg f, wrongDefaultInt.pointer = .ptr wrongDefaultInt.valueType (some a) ∧
          convert asciiStdlib wrongDefaultInt.valueType
            (testConfig.env.LookupEnv wrongDefaultInt.Name).1 = some (stored, arg) ∧
          wrongDefaultInt.ValidationFunc = some f ∧ f arg = .ret (some e) ∧
          zeroMemory = zeroMemory.set ⟨wrongDefaultInt.valueType, a⟩ stored))) :=
  ⟨rfl, write_only_on_success asciiStdlib testConfig wrongDefaultInt zeroMemory zeroMemory
    (some (errWrongDefault "BATCH_SIZE")) rfl⟩


/-- The outcome of `resolve` does not depend on the memory it starts from:
either it panics from every memory, or it returns the same error from every
memory after the same assignment (if any) to the declaration's own target. -/
theorem resolve_uniform (rt : Stdlib) (c : Config) (v : Variable) :
    (∀ m, resolve rt c v m = .panic) ∨
    ∃ (w : Option (Loc × Value)) (e : Option GoError),
      (∀ m, resolve rt c v m = .ret (m.write w, e)) ∧
      (∀ l x, w = some (l, x) → v.target = some l) := by
  by_cases h1 : (v.Required && !(c.env.LookupEnv v.Name).2) = true
  · exact Or.inr ⟨none, some (errMissing v.Name), fun m => by simp [resolve, h1, Memory.write],
      by simp⟩
  cases hptr : v.pointer with
  | nilInterface => exact Or.inl fun m => by simp [resolve, h1, hptr, Pointer.assert]
  | ptr e a =>
    by_cases he : e = v.valueType
    swap
    · exact Or.inl fun m => by simp [resolve, h1, hptr, Pointer.assert, he]
    by_cases h2 : (!(c.env.LookupEnv v.Name).2 && v.Default.isSome) = true
    · cases hd : v.Default with
      | none => simp [hd] at h2
      | some d =>
        have habs : (c.env.LookupEnv v.Name).2 = false := by simpa [hd] using h2
        have hreq : v.Required = false := by simpa [habs] using h1
        by_cases hty : d.typeTag = some v.valueType
        · cases a with
          | none =>
            exact Or.inl fun m => by
              simp [resolve, hreq, hptr, Pointer.assert, he, habs, hd, hty, assignDefault,
                Memory.store]
          | some a =>
            refine Or.inr ⟨some (⟨v.valueType, a⟩, d), none, fun m => ?_, ?_⟩
            · simp [resolve, hreq, hptr, Pointer.assert, he, habs, hd, hty, assignDefault,
                Memory.store, Memory.write]
            · intro l x hw
              simp only [Option.some.injEq, Prod.mk.injEq] at hw
              simp [Variable.target, hptr, he, hw.1]
        · exact Or.inr ⟨none, some (errWrongDefault v.Name), fun m => by
            simp [resolve, hreq, hptr, Pointer.assert, he, habs, hd, hty, Memory.write], by simp⟩
    · cases hc : convert rt v.valueType (c.env.LookupEnv v.Name).1 with
      | none =>
        exact Or.inr ⟨none, some (errWrongValue v.Name), fun m => by
          simp [resolve, h1, hptr, Pointer.assert, he, h2, hc, Memory.write], by simp⟩
      | some sa =>
        obtain ⟨stored, arg⟩ := sa
        cases a with
        | none =>
          exact Or.inl fun m => by
            simp [resolve, h1, hptr, Pointer.assert, he, h2, hc, assignAndValidate, Memory.store]
        | some a =>
          have htgt : ∀ l x, some ((⟨v.valueType, a⟩ : Loc), stored) = some (l, x) →
              v.target = some l := by
            intro l x hw
            simp only [Option.some.injEq, Prod.mk.injEq] at hw
            simp [Variable.target, hptr, he, hw.1]
          cases hf : v.ValidationFunc with
          | none =>
            exact Or.inr ⟨some (⟨v.valueType, a⟩, stored), none, fun m => by
              simp [resolve, h1, hptr, Pointer.assert, he, h2, hc, assignAndValidate,
                Memory.store, hf, Memory.write], htgt⟩
          | some f =>
            cases hfa : f arg with
            | panic =>
              exact Or.inl fun m => by
                simp [resolve, h1, hptr, Pointer.assert, he, h2, hc, assignAndValidate,
                  Memory.store, hf, hfa]
            | ret e0 =>
              exact Or.inr ⟨some (⟨v.valueType, a⟩, stored), e0, fun m => by
                simp [resolve, h1, hptr, Pointer.assert, he, h2, hc, assignAndValidate,
                  Memory.store, hf, hfa, Memory.write], htgt⟩

/-- The outcome of the routine of a declaration does not depend on the memory. -/
theorem parseVariable_uniform (rt : Stdlib) (c : Config) (v : Variable) :
    (∀ m, c.parseVariable rt v m = .panic) ∨
    ∃ (w : Option (Loc × Value)) (e : Option GoError),
      (∀ m, c.parseVariable rt v m = .ret (m.write w, e)) ∧
      (∀ l x, w = some (l, x) → v.target = some l) := by
  by_cases hs : supported v.valueType
  · rcases resolve_uniform rt c v with h | ⟨w, e, h, ht⟩
    · exact Or.inl fun m => by rw [parseVariable_eq_resolve rt c v m hs]; exact h m
    · exact Or.inr ⟨w, e, fun m => by rw [parseVariable_eq_resolve rt c v m hs]; exact h m, ht⟩
  · exact Or.inr ⟨none, none, fun m => parseVariable_unsupported rt c v m hs, by simp⟩


/-- The loop of `Parse`, when no declaration panics: it returns, and the
errors it adds are the errors of the failing declarations, in order. The error
of a declaration is taken from its routine run on any fixed memory `m0`. -/
theorem ParseLoop_errors (rt : Stdlib) (c : Config) (m0 : Memory) :
    ∀ (vs : List Variable) (mem : Memory) (errs : ParseErrors),
      (∀ v ∈ vs, c.parseVariable rt v m0 ≠ .panic) →
      ∃ mem1, Config.ParseLoop rt c vs mem errs
        = .ret (mem1, ⟨errs.errs ++ vs.filterMap (fun v => (c.parseVariable rt v m0).error)⟩) := by
  intro vs
  induction vs with
  | nil => intro mem errs _; exact ⟨mem, by simp [Config.ParseLoop]⟩
  | cons v rest ih =>
    intro mem errs hnp
    have hrest : ∀ u ∈ rest, c.parseVariable rt u m0 ≠ .panic :=
      fun u hu => hnp u (List.mem_cons_of_mem _ hu)
    rcases parseVariable_uniform rt c v with hp | ⟨w, e, hw, _⟩
    · exact absurd (hp m0) (hnp v (List.mem_cons_self _ _))
    · have hv0 : (c.parseVariable rt v m0).error = e := by rw [hw m0]; rfl
      cases e with
      | none =>
        obtain ⟨mem1, h1⟩ := ih (mem.write w) errs hrest
        refine ⟨mem1, ?_⟩
        simp only [Config.ParseLoop, hw mem, h1, List.filterMap_cons, hv0]
      | some err =>
        obtain ⟨mem1, h1⟩ := ih (mem.write w) (errs.Add err) hrest
        refine ⟨mem1, ?_⟩
        have hstep : Config.ParseLoop rt c (v :: rest) mem errs
            = Config.ParseLoop rt c rest (mem.write w) (errs.Add err) := by
          simp only [Config.ParseLoop, hw mem]
        rw [hstep, h1]
        simp only [List.filterMap_cons, hv0, ParseErrors.Add, List.append_assoc,
          List.singleton_append]

/-- Claim C7. Aggregate completeness: for every registry and every lookup
source, when no declaration panics, `Parse` returns; the error sequence of its
result is exactly the sequence of the errors of the failing declarations, in
registration order, one entry per failing declaration; the result is nil if and
only if no declaration fails, and a returned aggregate is never empty. -/
theorem aggregate_completeness (rt : Stdlib) (c : Config) (h : VarHeap) (mem : Memory)
    (hnp : ∀ r ∈ c.vars, c.parseVariable rt (h r) mem ≠ .panic) :
    ∃ mem1 res, c.Parse rt h mem = .ret (mem1, res) ∧
      errorsOf res = (c.vars.map h).filterMap (fun v => (c.parseVariable rt v mem).error) ∧
      (errorsOf res).length
        = (c.vars.filter (fun r => ((c.parseVariable rt (h r) mem).error).isSome)).length ∧
      (res = none ↔ ∀ r ∈ c.vars, (c.parseVariable rt (h r) mem).error = none) ∧
      (∀ pe, res = some pe → pe.errs ≠ []) := by
  have hnp1 : ∀ v ∈ c.vars.map h, c.parseVariable rt v mem ≠ .panic := by
    intro v hv
    obtain ⟨r, hr, rfl⟩ := List.mem_map.1 hv
    exact hnp r hr
  obtain ⟨mem1, h1⟩ := ParseLoop_errors rt c mem (c.vars.map h) mem (NewParseErrors []) hnp1
  have hlen : ∀ l : List Nat,
      ((l.map h).filterMap (fun v => (c.parseVariable rt v mem).error)).length
        = (l.filter (fun r => ((c.parseVariable rt (h r) mem).error).isSome)).length := by
    intro l
    induction l with
    | nil => rfl
    | cons r l ih =>
      cases he : (c.parseVariable rt (h r) mem).error <;>
        simp only [List.map_cons, List.filterMap_cons, List.filter_cons, he, Option.isSome_none,
          Option.isSome_some, List.length_cons, ih] <;> simp
  have hnil : ∀ l : List Nat,
      ((l.map h).filterMap (fun v => (c.parseVariable rt v mem).error) = [] ↔
        ∀ r ∈ l, (c.parseVariable rt (h r) mem).error = none) := by
    intro l
    induction l with
    | nil => simp
    | cons r l ih =>
      cases he : (c.parseVariable rt (h r) mem).error <;>
        simp only [List.map_cons, List.filterMap_cons, he, ih] <;> simp [he]
  simp only [NewParseErrors, List.nil_append] at h1
  cases hf : (c.vars.map h).filterMap (fun v => (c.parseVariable rt v mem).error) with
  | nil =>
    refine ⟨mem1, none, ?_, ?_, ?_, ?_, ?_⟩
    · simp [Config.Parse, NewParseErrors, h1, hf, ParseErrors.IsNotNil]
    · simp [errorsOf]
    · rw [← hlen, hf]; simp [errorsOf]
    · simpa using (hnil c.vars).1 hf
    · intro pe hpe; cases hpe
  | cons e es =>
    refine ⟨mem1, some ⟨e :: es⟩, ?_, ?_, ?_, ?_, ?_⟩
    · simp [Config.Parse, NewParseErrors, h1, hf, ParseErrors.IsNotNil]
    · simp [errorsOf]
    · rw [← hlen, hf]; simp [errorsOf]
    · constructor
      · intro hn; cases hn
      · intro hall
        have := (hnil c.vars).2 hall
        rw [hf] at this
        cases this
    · intro pe hpe
      cases hpe
      simp


theorem Exec.ne_panic_of_isPanic {α : Type} {x : Exec α} (h : x.isPanic = false) :
    x ≠ .panic := by
  intro hx
  rw [hx] at h
  cases h

/-- The sixth example scenario: STRING `LOG_LEVEL` present, required INT `BATCH_SIZE` absent. -/
theorem aggregate_completeness_witness :
    (∀ r ∈ twoConfig.vars,
        twoConfig.parseVariable asciiStdlib (twoHeap r) zeroMemory ≠ .panic) ∧
    ∃ mem1 res, twoConfig.Parse asciiStdlib twoHeap zeroMemory = .ret (mem1, res) ∧
      errorsOf res = (twoConfig.vars.map twoHeap).filterMap
        (fun v => (twoConfig.parseVariable asciiStdlib v zeroMemory).error) ∧
      (errorsOf res).length = (twoConfig.vars.filter (fun r =>
        ((twoConfig.parseVariable asciiStdlib (twoHeap r) zeroMemory).error).isSome)).length ∧
      (res = none ↔
        ∀ r ∈ twoConfig.vars,
          (twoConfig.parseVariable asciiStdlib (twoHeap r) zeroMemory).error = none) ∧
      (∀ pe, res = some pe → pe.errs ≠ []) :=
  have hnp : ∀ r ∈ twoConfig.vars,
      twoConfig.parseVariable asciiStdlib (twoHeap r) zeroMemory ≠ .panic :=
    fun _ hr => Exec.ne_panic_of_isPanic
      ((by decide : ∀ r ∈ twoConfig.vars,
        (twoConfig.parseVariable asciiStdlib (twoHeap r) zeroMemory).isPanic = false) _ hr)
  ⟨hnp, aggregate_completeness asciiStdlib twoConfig twoHeap zeroMemory hnp⟩


theorem Memory.write_other (mem : Memory) (w : Option (Loc × Value)) (l : Loc)
    (h : ∀ l1 x, w = some (l1, x) → l1 ≠ l) : (mem.write w) l = mem l := by
  cases w with
  | none => rfl
  | some lx =>
    obtain ⟨l1, x⟩ := lx
    have hne : l ≠ l1 := fun e => h l1 x rfl e.symm
    simp [Memory.write, Memory.set, hne]

theorem Memory.write_twice (mem : Memory) (u w : Option (Loc × Value)) (l : Loc)
    (hu : ∀ l1 x, u = some (l1, x) → l1 ≠ l) : ((mem.write u).write w) l = (mem.write w) l := by
  cases w with
  | none => exact Memory.write_other mem u l hu
  | some lx =>
    obtain ⟨l1, x⟩ := lx
    by_cases hl : l = l1
    · simp [Memory.write, Memory.set, hl]
    · simp only [Memory.write, Memory.set, hl, if_false]
      exact Memory.write_other mem u l hu

/-- One iteration of the loop of `Parse` on a declaration that returns. -/
theorem ParseLoop_cons (rt : Stdlib) (c : Config) (v : Variable) (rest : List Variable)
    (mem : Memory) (errs : ParseErrors) (w : Option (Loc × Value)) (e : Option GoError)
    (hw : c.parseVariable rt v mem = .ret (mem.write w, e)) :
    ∃ errs2, Config.ParseLoop rt c (v :: rest) mem errs
      = Config.ParseLoop rt c rest (mem.write w) errs2 := by
  cases e with
  | none => exact ⟨errs, by simp only [Config.ParseLoop, hw]⟩
  | some err => exact ⟨errs.Add err, by simp only [Config.ParseLoop, hw]⟩

/-- The loop of `Parse` leaves every variable that is no declaration's output
target as it was. -/
theorem ParseLoop_frame (rt : Stdlib) (c : Config) :
    ∀ (vs : List Variable) (mem : Memory) (errs : ParseErrors) (mem1 : Memory)
      (errs1 : ParseErrors), Config.ParseLoop rt c vs mem errs = .ret (mem1, errs1) →
      ∀ l, (∀ v ∈ vs, v.target ≠ some l) → mem1 l = mem l := by
  intro vs
  induction vs with
  | nil =>
    intro mem errs mem1 errs1 h l _
    simp only [Config.ParseLoop, Exec.ret.injEq, Prod.mk.injEq] at h
    rw [h.1]
  | cons v rest ih =>
    intro mem errs mem1 errs1 h l hl
    rcases parseVariable_uniform rt c v with hp | ⟨w, e, hw, ht⟩
    · simp [Config.ParseLoop, hp mem] at h
    · obtain ⟨errs2, h2⟩ := ParseLoop_cons rt c v rest mem errs w e (hw mem)
      rw [h2] at h
      rw [ih (mem.write w) errs2 mem1 errs1 h l (fun u hu => hl u (List.mem_cons_of_mem _ hu))]
      refine Memory.write_other mem w l (fun l1 x hwl e1 => ?_)
      exact hl v (List.mem_cons_self _ _) (by rw [ht l1 x hwl, e1])

/-- After the loop of `Parse` over declarations with pairwise distinct output
targets, the target of each declaration holds what the routine of that
declaration alone leaves in it. -/
theorem ParseLoop_own (rt : Stdlib) (c : Config) :
    ∀ (vs : List Variable) (mem : Memory) (errs : ParseErrors) (mem1 : Memory)
      (errs1 : ParseErrors), Config.ParseLoop rt c vs mem errs = .ret (mem1, errs1) →
      vs.Pairwise (fun v1 v2 => ∀ l, v1.target = some l → v2.target ≠ some l) →
      ∀ v ∈ vs, ∀ l, v.target = some l → ∀ w e,
        (∀ m, c.parseVariable rt v m = .ret (m.write w, e)) → mem1 l = (mem.write w) l := by
  intro vs
  induction vs with
  | nil => intro mem errs mem1 errs1 _ _ v hv; cases hv
  | cons u rest ih =>
    intro mem errs mem1 errs1 h hpw v hv l hl w e hw
    rw [List.pairwise_cons] at hpw
    rcases parseVariable_uniform rt c u with hp | ⟨wu, eu, hwu, htu⟩
    · simp [Config.ParseLoop, hp mem] at h
    · obtain ⟨errs2, h2⟩ := ParseLoop_cons rt c u rest mem errs wu eu (hwu mem)
      rw [h2] at h
      rcases List.mem_cons.1 hv with rfl | hvr
      · have hsame : mem.write wu = mem.write w := by
          have h3 := hwu mem
          rw [hw mem] at h3
          simp only [Exec.ret.injEq, Prod.mk.injEq] at h3
          exact h3.1.symm
        rw [ParseLoop_frame rt c rest (mem.write wu) errs2 mem1 errs1 h l
          (fun x hx => hpw.1 x hx l hl), hsame]
      · rw [ih (mem.write wu) errs2 mem1 errs1 h hpw.2 v hvr l hl w e hw]
        refine Memory.write_twice mem wu w l (fun l1 x hwl e1 => ?_)
        exact hpw.1 v hvr l1 (htu l1 x hwl) (by rw [hl, e1])

/-- The result of `Parse` on the registry holding one declaration. -/
theorem Parse_only (rt : Stdlib) (c : Config) (h : VarHeap) (r : Nat) (mem m1 : Memory)
    (e : Option GoError) (hv : c.parseVariable rt (h r) mem = .ret (m1, e)) :
    (c.only r).Parse rt h mem = .ret (m1, e.map (fun x => ⟨[x]⟩)) := by
  have hv1 : (c.only r).parseVariable rt (h r) mem = .ret (m1, e) := hv
  cases e with
  | none =>
    simp [Config.Parse, Config.only, Config.ParseLoop, NewParseErrors, ParseErrors.IsNotNil]
    simp [Config.only] at hv1
    simp [hv1, Config.ParseLoop]
  | some x =>
    simp [Config.Parse, Config.only, Config.ParseLoop, NewParseErrors, ParseErrors.IsNotNil]
    simp [Config.only] at hv1
    simp [hv1, Config.ParseLoop, ParseErrors.Add]


/-- The result of `Parse` from the result of its loop. -/
theorem Parse_of_loop (rt : Stdlib) (c : Config) (h : VarHeap) (mem mem1 : Memory)
    (errs1 : ParseErrors)
    (hl : Config.ParseLoop rt c (c.vars.map h) mem (NewParseErrors []) = .ret (mem1, errs1)) :
    c.Parse rt h mem = .ret (mem1, if errs1.IsNotNil then some errs1 else none) := by
  simp only [Config.Parse, hl]
  split <;> rfl

theorem errorsOf_result (errs : ParseErrors) :
    errorsOf (if errs.IsNotNil then some errs else none) = errs.errs := by
  obtain ⟨l⟩ := errs
  cases l <;> simp [ParseErrors.IsNotNil, errorsOf]

/-- Claim C8. Independence of declarations: in a pass in which no declaration
panics and the output targets are pairwise distinct, `Parse` returns after
processing every declaration, also those that follow a failing one. Its error
sequence is the sequence of the errors that the routines of the failing
declarations return, in registration order, which is also the concatenation
of the error sequences that `Parse` returns for the registries holding each
declaration alone. For each declaration, its routine returns, `Parse` on the
registry holding it alone returns the memory and the error of that routine,
and after the whole pass the output target of the declaration holds what its
routine leaves in it. A variable that is no declaration's target is left as it
was. -/
theorem independence_of_declarations (rt : Stdlib) (c : Config) (h : VarHeap) (mem : Memory)
    (hnp : ∀ r ∈ c.vars, c.parseVariable rt (h r) mem ≠ .panic)
    (hd : (c.vars.map h).Pairwise (fun v1 v2 => ∀ l, v1.target = some l → v2.target ≠ some l)) :
    ∃ mem1 res, c.Parse rt h mem = .ret (mem1, res) ∧
      errorsOf res = (c.vars.map h).filterMap (fun v => (c.parseVariable rt v mem).error) ∧
      errorsOf res = c.vars.flatMap (fun r => ((c.only r).Parse rt h mem).errors) ∧
      (∀ r ∈ c.vars, ∃ memr e,
        c.parseVariable rt (h r) mem = .ret (memr, e) ∧
        (c.only r).Parse rt h mem = .ret (memr, e.map (fun x => ⟨[x]⟩)) ∧
        ∀ l, (h r).target = some l → mem1 l = memr l) ∧
      (∀ l, (∀ r ∈ c.vars, (h r).target ≠ some l) → mem1 l = mem l) := by
  have hnp1 : ∀ v ∈ c.vars.map h, c.parseVariable rt v mem ≠ .panic := by
    intro v hv
    obtain ⟨r, hr, rfl⟩ := List.mem_map.1 hv
    exact hnp r hr
  obtain ⟨mem1, hloop⟩ := ParseLoop_errors rt c mem (c.vars.map h) mem (NewParseErrors []) hnp1
  have hP := Parse_of_loop rt c h mem mem1 _ hloop
  have herrs := errorsOf_result
    ⟨(NewParseErrors []).errs
      ++ (c.vars.map h).filterMap (fun v => (c.parseVariable rt v mem).error)⟩
  simp only [NewParseErrors, List.nil_append] at herrs
  have hsingle : ∀ r ∈ c.vars, ∃ w e, (∀ m, c.parseVariable rt (h r) m = .ret (m.write w, e)) ∧
      (c.only r).Parse rt h mem = .ret (mem.write w, e.map (fun x => ⟨[x]⟩)) := by
    intro r hr
    rcases parseVariable_uniform rt c (h r) with hp | ⟨w, e, hw, _⟩
    · exact absurd (hp mem) (hnp r hr)
    · exact ⟨w, e, hw, Parse_only rt c h r mem _ e (hw mem)⟩
  have hgen : ∀ l : List Nat, (∀ r ∈ l, r ∈ c.vars) →
      (l.map h).filterMap (fun v => (c.parseVariable rt v mem).error)
        = l.flatMap (fun r => ((c.only r).Parse rt h mem).errors) := by
    intro l
    induction l with
    | nil => intro _; rfl
    | cons r l ih =>
      intro hl
      obtain ⟨w, e, hw, hp⟩ := hsingle r (hl r (List.mem_cons_self _ _))
      have ih1 := ih (fun x hx => hl x (List.mem_cons_of_mem _ hx))
      have he : (c.parseVariable rt (h r) mem).error = e := by rw [hw mem]; rfl
      simp only [List.map_cons, List.filterMap_cons, List.flatMap, List.flatten_cons, he, hp]
      simp only [List.flatMap] at ih1
      cases e with
      | none => simpa [Exec.errors, errorsOf] using ih1
      | some x => simpa [Exec.errors, errorsOf] using ih1
  refine ⟨mem1, _, hP, ?_, ?_, ?_, ?_⟩
  · simp only [NewParseErrors, List.nil_append]
    rw [herrs]
  · simp only [NewParseErrors, List.nil_append]
    rw [herrs]
    exact hgen c.vars (fun _ hr => hr)
  · intro r hr
    obtain ⟨w, e, hw, hp⟩ := hsingle r hr
    refine ⟨_, e, hw mem, hp, fun l hl => ?_⟩
    exact ParseLoop_own rt c (c.vars.map h) mem _ mem1 _ hloop hd (h r)
      (List.mem_map.2 ⟨r, hr, rfl⟩) l hl w e hw
  · intro l hl
    refine ParseLoop_frame rt c (c.vars.map h) mem _ mem1 _ hloop l (fun v hv => ?_)
    obtain ⟨r, hr, rfl⟩ := List.mem_map.1 hv
    exact hl r hr

/-- The sixth example scenario with the failing declaration registered first:
the required INT `BATCH_SIZE` fails, the STRING `LOG_LEVEL` that follows is
still processed and its target receives `DEBUG`; the aggregate holds the one
error of `BATCH_SIZE`. -/
theorem independence_of_declarations_witness :
    (∀ r ∈ failFirstConfig.vars,
        failFirstConfig.parseVariable asciiStdlib (twoHeap r) zeroMemory ≠ .panic) ∧
    (failFirstConfig.vars.map twoHeap).Pairwise
        (fun v1 v2 => ∀ l, v1.target = some l → v2.target ≠ some l) ∧
    (∃ mem1 res, failFirstConfig.Parse asciiStdlib twoHeap zeroMemory = .ret (mem1, res) ∧
      errorsOf res = (failFirstConfig.vars.map twoHeap).filterMap
        (fun v => (failFirstConfig.parseVariable asciiStdlib v zeroMemory).error) ∧
      errorsOf res = failFirstConfig.vars.flatMap
        (fun r => ((failFirstConfig.only r).Parse asciiStdlib twoHeap zeroMemory).errors) ∧
      (∀ r ∈ failFirstConfig.vars, ∃ memr e,
        failFirstConfig.parseVariable asciiStdlib (twoHeap r) zeroMemory = .ret (memr, e) ∧
        (failFirstConfig.only r).Parse asciiStdlib twoHeap zeroMemory
          = .ret (memr, e.map (fun x => ⟨[x]⟩)) ∧
        ∀ l, (twoHeap r).target = some l → mem1 l = memr l) ∧
      (∀ l, (∀ r ∈ failFirstConfig.vars, (twoHeap r).target ≠ some l) →
        mem1 l = zeroMemory l)) ∧
    failFirstConfig.Parse asciiStdlib twoHeap zeroMemory
      = .ret (zeroMemory.set ⟨STRING, 0⟩ (.string "DEBUG"),
          some ⟨[.errorString "'BATCH_SIZE' variable is missing"]⟩) ∧
    failFirstConfig.parseVariable asciiStdlib (twoHeap 1) zeroMemory
      = .ret (zeroMemory, some (.errorString "'BATCH_SIZE' variable is missing")) ∧
    failFirstConfig.parseVariable asciiStdlib (twoHeap 0) zeroMemory
      = .ret (zeroMemory.set ⟨STRING, 0⟩ (.string "DEBUG"), none) :=
  have hnp : ∀ r ∈ failFirstConfig.vars,
      failFirstConfig.parseVariable asciiStdlib (twoHeap r) zeroMemory ≠ .panic :=
    fun _ hr => Exec.ne_panic_of_isPanic
      ((by decide : ∀ r ∈ failFirstConfig.vars,
        (failFirstConfig.parseVariable asciiStdlib (twoHeap r) zeroMemory).isPanic = false) _ hr)
  have hd : (failFirstConfig.vars.map twoHeap).Pairwise
      (fun v1 v2 => ∀ l, v1.target = some l → v2.target ≠ some l) := by
    simp [failFirstConfig, twoHeap, Variable.target, STRING, INT]
  ⟨hnp, hd,
    independence_of_declarations asciiStdlib failFirstConfig twoHeap zeroMemory hnp hd,
    rfl, rfl, rfl⟩


theorem intercalate_go_append (x acc sep : String) (l : List String) :
    String.intercalate.go (x ++ acc) sep l = x ++ String.intercalate.go acc sep l := by
  induction l generalizing acc with
  | nil => rfl
  | cons a l ih =>
    simp only [String.intercalate.go]
    rw [← ih]
    simp only [String.append_assoc]

theorem intercalate_cons_cons (sep a b : String) (l : List String) :
    sep.intercalate (a :: b :: l) = a ++ sep ++ sep.intercalate (b :: l) := by
  simp only [String.intercalate, String.intercalate.go]
  rw [intercalate_go_append]

/-- The loop of `ParseErrors.Error` appends the remaining messages, separated
by a comma and a blank, when `i` is the index of the first remaining error. -/
theorem ErrorLoop_eq (n : Nat) :
    ∀ (rest : List GoError) (i : Nat) (m : String), i + rest.length = n →
      ParseErrors.ErrorLoop n rest i m = m ++ ", ".intercalate (rest.map GoError.Error) := by
  intro rest
  induction rest with
  | nil =>
    intro i m _
    simp [ParseErrors.ErrorLoop, String.intercalate]
  | cons e rest ih =>
    intro i m hn
    cases rest with
    | nil =>
      have hi : (i : Int) = (n : Int) - 1 := by
        simp only [List.length_cons, List.length_nil] at hn
        omega
      simp [ParseErrors.ErrorLoop, hi, String.intercalate, String.intercalate.go]
    | cons e1 rest1 =>
      have hi : (i : Int) ≠ (n : Int) - 1 := by
        simp only [List.length_cons] at hn
        omega
      have hn1 : (i + 1) + (e1 :: rest1).length = n := by
        simp only [List.length_cons] at hn ⊢
        omega
      rw [ParseErrors.ErrorLoop]
      simp only [hi, ne_eq, not_false_eq_true, if_true]
      rw [ih (i + 1) _ hn1]
      have h2 := intercalate_cons_cons ", " e.Error e1.Error (rest1.map GoError.Error)
      simp only [List.map_cons, String.append_assoc]
      rw [h2]
      simp only [String.append_assoc]

/-- Claim C9. Aggregate rendering: for every sequence of errors held by a
`ParseErrors` value, `Error()` is the text "config parsing failed: " followed
by the messages of the errors in order, separated by a comma and a blank, with
no trailing separator; for one error it is the text and that message, for none
it is the text alone. -/
theorem aggregate_rendering (pe : ParseErrors) :
    pe.Error = "config parsing failed: " ++ ", ".intercalate (pe.errs.map GoError.Error) ∧
    (∀ e, pe.errs = [e] → pe.Error = "config parsing failed: " ++ e.Error) ∧
    (pe.errs = [] → pe.Error = "config parsing failed: ") := by
  have h := ErrorLoop_eq pe.errs.length pe.errs 0 "config parsing failed: " (by simp)
  refine ⟨h, fun e he => ?_, fun he => ?_⟩
  · unfold ParseErrors.Error
    rw [h, he]
    rfl
  · unfold ParseErrors.Error
    rw [h, he]
    rfl


/-- The routine of a declaration reads the lookup source at the declaration's
name and nowhere else. -/
theorem parseVariable_congr_env (rt : Stdlib) (c1 c2 : Config) (v : Variable) (mem : Memory)
    (h : c1.env.LookupEnv v.Name = c2.env.LookupEnv v.Name) :
    c1.parseVariable rt v mem = c2.parseVariable rt v mem := by
  by_cases hs : supported v.valueType
  · rw [parseVariable_eq_resolve rt c1 v mem hs, parseVariable_eq_resolve rt c2 v mem hs]
    simp only [resolve, h]
  · rw [parseVariable_unsupported rt c1 v mem hs, parseVariable_unsupported rt c2 v mem hs]

/-- What each registration operation does to the registry and to the heap of
`Variable` structs. -/
theorem setOps_spec (rt : Stdlib) (c : Config) (h : VarHeap) (p : Option Nat) (r : Nat)
    (op : Stdlib → Config → VarHeap → Option Nat → Nat → Config × VarHeap) (hop : op ∈ setOps) :
    ∃ ty, supported ty ∧
      op rt c h p r = ({ c with vars := c.vars ++ [r] },
        fun k => if k = r then
          { h r with valueType := ty, pointer := .ptr ty p,
                     Name := formatEnvVarName rt (h r).Name }
        else h k) := by
  simp only [setOps, List.mem_cons, List.mem_singleton, List.not_mem_nil, or_false] at hop
  have key : ∀ ty, c.setVariable rt (tagVariable h r ty p) r
      = ({ c with vars := c.vars ++ [r] },
        fun k => if k = r then
          { h r with valueType := ty, pointer := .ptr ty p,
                     Name := formatEnvVarName rt (h r).Name }
        else h k) := by
    intro ty
    simp only [Config.setVariable, tagVariable, VarHeap.update, if_true, Prod.mk.injEq, true_and]
    funext k
    by_cases hk : k = r <;> simp [VarHeap.update, hk]
  rcases hop with rfl | rfl | rfl | rfl | rfl | rfl
  · exact ⟨STRING, by simp [supported], key STRING⟩
  · exact ⟨INT, by simp [supported], key INT⟩
  · exact ⟨INT64, by simp [supported], key INT64⟩
  · exact ⟨FLOAT32, by simp [supported], key FLOAT32⟩
  · exact ⟨FLOAT64, by simp [supported], key FLOAT64⟩
  · exact ⟨BOOL, by simp [supported], key BOOL⟩

theorem formatEnvVarName_idem (rt : Stdlib)
    (hidem : ∀ ch, rt.ToUpperRune (rt.ToUpperRune ch) = rt.ToUpperRune ch)
    (hhy : ∀ ch, rt.ToUpperRune ch = '-' → ch = '-') (n : String) :
    formatEnvVarName rt (formatEnvVarName rt n) = formatEnvVarName rt n := by
  simp only [formatEnvVarName, ToUpper, ReplaceAll, List.map_map]
  congr 1
  apply List.map_congr_left
  intro ch _
  simp only [Function.comp]
  have hd : (if ch = '-' then '_' else ch) ≠ '-' := by
    by_cases hc : ch = '-'
    · simp [hc]
    · simp [hc]
  have hu : rt.ToUpperRune (if ch = '-' then '_' else ch) ≠ '-' := fun e => hd (hhy _ e)
  rw [if_neg hu, hidem]


theorem asciiUpper_of_range (n : Nat) (h1 : 97 ≤ n) (h2 : n ≤ 122) :
    asciiUpper (asciiUpper (Char.ofNat n)) = asciiUpper (Char.ofNat n) ∧
    asciiUpper (Char.ofNat n) ≠ '-' := by
  interval_cases n <;> decide

theorem asciiUpper_idem (ch : Char) : asciiUpper (asciiUpper ch) = asciiUpper ch := by
  by_cases h : 97 ≤ ch.toNat ∧ ch.toNat ≤ 122
  · have := (asciiUpper_of_range ch.toNat h.1 h.2).1
    rwa [Char.ofNat_toNat] at this
  · have h0 : asciiUpper ch = ch := by simp [asciiUpper, h]
    rw [h0, h0]

theorem asciiUpper_hyphen (ch : Char) (he : asciiUpper ch = '-') : ch = '-' := by
  by_cases h : 97 ≤ ch.toNat ∧ ch.toNat ≤ 122
  · have := (asciiUpper_of_range ch.toNat h.1 h.2).2
    rw [Char.ofNat_toNat] at this
    exact absurd he this
  · have h0 : asciiUpper ch = ch := by simp [asciiUpper, h]
    rwa [h0] at he

/-- The characters of a normalized name: every character of the name, a
hyphen first replaced by an underscore, mapped to its upper case. -/
theorem formatEnvVarName_data (rt : Stdlib) (n : String) :
    (formatEnvVarName rt n).data
      = n.data.map (fun ch => rt.ToUpperRune (if ch = '-' then '_' else ch)) := by
  simp only [formatEnvVarName, ToUpper, ReplaceAll, List.map_map]
  rfl

/-- Claim C10. Name normalization, for a standard library whose rune
upper-casing is idempotent and yields a hyphen only from a hyphen. Each of the
six registration operations rewrites the name of the declaration character by
character, a hyphen to the upper case of the underscore and any other
character to its upper case, so that no hyphen is left, and appends the
declaration; the routine run by `Parse` reads the lookup source at that
rewritten name only; registering a declaration that differs only by a name
with the same normalization yields the same registry, hence the same result of
`Parse` (errors and memory) on every source; and normalizing a normalized name
changes nothing. -/
theorem name_normalization (rt : Stdlib)
    (hidem : ∀ ch, rt.ToUpperRune (rt.ToUpperRune ch) = rt.ToUpperRune ch)
    (hhy : ∀ ch, rt.ToUpperRune ch = '-' → ch = '-')
    (c : Config) (h : VarHeap) (p : Option Nat) (r : Nat)
    (op : Stdlib → Config → VarHeap → Option Nat → Nat → Config × VarHeap) (hop : op ∈ setOps) :
    ((op rt c h p r).2 r).Name.data
      = (h r).Name.data.map (fun ch => rt.ToUpperRune (if ch = '-' then '_' else ch)) ∧
    '-' ∉ ((op rt c h p r).2 r).Name.data ∧
    ((op rt c h p r).2 r).Name = ToUpper rt (ReplaceAll (h r).Name '-' '_') ∧
    (op rt c h p r).1.vars = c.vars ++ [r] ∧
    (∀ (c2 : Config) (mem : Memory),
      c2.env.LookupEnv
          ⟨(h r).Name.data.map (fun ch => rt.ToUpperRune (if ch = '-' then '_' else ch))⟩
        = c.env.LookupEnv
          ⟨(h r).Name.data.map (fun ch => rt.ToUpperRune (if ch = '-' then '_' else ch))⟩ →
      c2.parseVariable rt ((op rt c h p r).2 r) mem
        = (op rt c h p r).1.parseVariable rt ((op rt c h p r).2 r) mem) ∧
    (∀ n2 : String,
      n2.data.map (fun ch => rt.ToUpperRune (if ch = '-' then '_' else ch))
        = (h r).Name.data.map (fun ch => rt.ToUpperRune (if ch = '-' then '_' else ch)) →
      op rt c (h.update r { h r with Name := n2 }) p r = op rt c h p r ∧
      ∀ (l : EnvLookuper) (mem : Memory),
        ((op rt c (h.update r { h r with Name := n2 }) p r).1.SetEnvLookuper l).Parse rt
            (op rt c (h.update r { h r with Name := n2 }) p r).2 mem
          = ((op rt c h p r).1.SetEnvLookuper l).Parse rt (op rt c h p r).2 mem) ∧
    (∀ n : List Char,
      (n.map (fun ch => rt.ToUpperRune (if ch = '-' then '_' else ch))).map
          (fun ch => rt.ToUpperRune (if ch = '-' then '_' else ch))
        = n.map (fun ch => rt.ToUpperRune (if ch = '-' then '_' else ch))) ∧
    (∀ n, formatEnvVarName rt (formatEnvVarName rt n) = formatEnvVarName rt n) := by
  obtain ⟨ty, _, hspec⟩ := setOps_spec rt c h p r op hop
  have hname : ((op rt c h p r).2 r).Name = formatEnvVarName rt (h r).Name := by
    rw [hspec]
    simp
  have hsame : ∀ n2, formatEnvVarName rt n2 = formatEnvVarName rt (h r).Name →
      op rt c (h.update r { h r with Name := n2 }) p r = op rt c h p r := by
    intro n2 hn
    obtain ⟨ty2, _, hspec2⟩ :=
      setOps_spec rt c (h.update r { h r with Name := n2 }) p r op hop
    have hty : ty2 = ty := by
      have e1 := congrArg (fun x => (x.2 r).valueType) hspec2
      have e2 := congrArg (fun x => (x.2 r).valueType) hspec
      simp only [if_true] at e1 e2
      simp only [setOps, List.mem_cons, List.mem_singleton, List.not_mem_nil, or_false] at hop
      rcases hop with rfl | rfl | rfl | rfl | rfl | rfl <;>
        · simp only [Config.SetString, Config.SetInt, Config.SetInt64, Config.SetFloat32,
            Config.SetFloat64, Config.SetBool, Config.setVariable, tagVariable, VarHeap.update,
            if_true] at e1 e2
          rw [← e1, ← e2]
    rw [hspec2, hspec, hty]
    simp only [Prod.mk.injEq, true_and]
    funext k
    by_cases hk : k = r
    · simp [hk, VarHeap.update, hn]
    · simp [hk, VarHeap.update]
  have hmk : ∀ n : String, formatEnvVarName rt n
      = ⟨n.data.map (fun ch => rt.ToUpperRune (if ch = '-' then '_' else ch))⟩ := by
    intro n
    rw [← formatEnvVarName_data rt n]
  refine ⟨?_, ?_, ?_, ?_, ?_, ?_, ?_, formatEnvVarName_idem rt hidem hhy⟩
  · rw [hname, formatEnvVarName_data]
  · rw [hname, formatEnvVarName_data]
    intro hmem
    obtain ⟨ch, _, hch⟩ := List.mem_map.1 hmem
    have h1 := hhy _ hch
    by_cases hc : ch = '-'
    · rw [if_pos hc] at h1
      exact absurd h1 (by decide)
    · rw [if_neg hc] at h1
      exact hc h1
  · rw [hname]
    rfl
  · rw [hspec]
  · intro c2 mem hl
    have henv : (op rt c h p r).1.env = c.env := by rw [hspec]
    apply parseVariable_congr_env
    rw [hname, hmk, henv]
    exact hl
  · intro n2 hn
    have hn2 : formatEnvVarName rt n2 = formatEnvVarName rt (h r).Name := by
      rw [hmk n2, hmk (h r).Name, hn]
    refine ⟨hsame n2 hn2, fun l mem => ?_⟩
    rw [hsame n2 hn2]
  · intro n
    have := congrArg String.data (formatEnvVarName_idem rt hidem hhy ⟨n⟩)
    simpa only [formatEnvVarName_data] using this

/-- Registration of `api-version` with `SetInt` under ASCII upper-casing: the
registered name is `API_VERSION`, the hyphen has become an underscore; the
declaration named `API_VERSION` yields the same registry and the same result
of `Parse`; and parsing against the source of `TestConfigInt` stores 5. -/
theorem name_normalization_witness :
    (∀ ch, asciiStdlib.ToUpperRune (asciiStdlib.ToUpperRune ch) = asciiStdlib.ToUpperRune ch) ∧
    (∀ ch, asciiStdlib.ToUpperRune ch = '-' → ch = '-') ∧
    Config.SetInt ∈ setOps ∧
    (((Config.SetInt asciiStdlib testConfig apiVersionHeap (some 0) 0).2 0).Name.data
      = (apiVersionHeap 0).Name.data.map
          (fun ch => asciiStdlib.ToUpperRune (if ch = '-' then '_' else ch)) ∧
    '-' ∉ ((Config.SetInt asciiStdlib testConfig apiVersionHeap (some 0) 0).2 0).Name.data ∧
    ((Config.SetInt asciiStdlib testConfig apiVersionHeap (some 0) 0).2 0).Name
      = ToUpper asciiStdlib (ReplaceAll (apiVersionHeap 0).Name '-' '_') ∧
    (Config.SetInt asciiStdlib testConfig apiVersionHeap (some 0) 0).1.vars
      = testConfig.vars ++ [0] ∧
    (∀ (c2 : Config) (mem : Memory),
      c2.env.LookupEnv
          ⟨(apiVersionHeap 0).Name.data.map
            (fun ch => asciiStdlib.ToUpperRune (if ch = '-' then '_' else ch))⟩
        = testConfig.env.LookupEnv
          ⟨(apiVersionHeap 0).Name.data.map
            (fun ch => asciiStdlib.ToUpperRune (if ch = '-' then '_' else ch))⟩ →
      c2.parseVariable asciiStdlib
          ((Config.SetInt asciiStdlib testConfig apiVersionHeap (some 0) 0).2 0) mem
        = (Config.SetInt asciiStdlib testConfig apiVersionHeap (some 0) 0).1.parseVariable
            asciiStdlib ((Config.SetInt asciiStdlib testConfig apiVersionHeap (some 0) 0).2 0)
            mem) ∧
    (∀ n2 : String,
      n2.data.map (fun ch => asciiStdlib.ToUpperRune (if ch = '-' then '_' else ch))
        = (apiVersionHeap 0).Name.data.map
            (fun ch => asciiStdlib.ToUpperRune (if ch = '-' then '_' else ch)) →
      Config.SetInt asciiStdlib testConfig
          (apiVersionHeap.update 0 { apiVersionHeap 0 with Name := n2 }) (some 0) 0
        = Config.SetInt asciiStdlib testConfig apiVersionHeap (some 0) 0 ∧
      ∀ (l : EnvLookuper) (mem : Memory),
        ((Config.SetInt asciiStdlib testConfig
            (apiVersionHeap.update 0 { apiVersionHeap 0 with Name := n2 })
            (some 0) 0).1.SetEnvLookuper l).Parse asciiStdlib
            (Config.SetInt asciiStdlib testConfig
              (apiVersionHeap.update 0 { apiVersionHeap 0 with Name := n2 }) (some 0) 0).2 mem
          = ((Config.SetInt asciiStdlib testConfig apiVersionHeap (some 0) 0).1.SetEnvLookuper
              l).Parse asciiStdlib
              (Config.SetInt asciiStdlib testConfig apiVersionHeap (some 0) 0).2 mem) ∧
    (∀ n : List Char,
      (n.map (fun ch => asciiStdlib.ToUpperRune (if ch = '-' then '_' else ch))).map
          (fun ch => asciiStdlib.ToUpperRune (if ch = '-' then '_' else ch))
        = n.map (fun ch => asciiStdlib.ToUpperRune (if ch = '-' then '_' else ch))) ∧
    (∀ n, formatEnvVarName asciiStdlib (formatEnvVarName asciiStdlib n)
        = formatEnvVarName asciiStdlib n)) ∧
    (apiVersionHeap 0).Name = "api-version" ∧
    ((Config.SetInt asciiStdlib testConfig apiVersionHeap (some 0) 0).2 0).Name
      = "API_VERSION" ∧
    (Config.SetInt asciiStdlib testConfig
        (apiVersionHeap.update 0 { apiVersionHeap 0 with Name := "API_VERSION" }) (some 0) 0
      = Config.SetInt asciiStdlib testConfig apiVersionHeap (some 0) 0) ∧
    (Config.SetInt asciiStdlib testConfig apiVersionHeap (some 0) 0).1.Parse asciiStdlib
        (Config.SetInt asciiStdlib testConfig apiVersionHeap (some 0) 0).2 zeroIntMemory
      = .ret (zeroIntMemory.set ⟨INT, 0⟩ (.int 5), none) :=
  have key := name_normalization asciiStdlib asciiUpper_idem asciiUpper_hyphen testConfig
    apiVersionHeap (some 0) 0 Config.SetInt (by simp [setOps])
  ⟨asciiUpper_idem, asciiUpper_hyphen, by simp [setOps], key, rfl, by decide,
    (key.2.2.2.2.2.1 "API_VERSION" (by decide)).1, rfl⟩


/-- Claim C11, refuted as stated: the source holds `api-version=5` under that
very key, the INT declaration `API-VERSION` is registered with `SetInt` and
parsed. The lookup is made at `API_VERSION`, which the source does not hold, so
`Parse` returns the wrong-value-type error and the target keeps its value. -/
theorem normalized_lookup_counterexample :
    hyphenEnv.LookupEnv "api-version" = ("5", true) ∧
    ∃ mem1,
      (((New hyphenEnv).SetEnvLookuper hyphenEnv).SetInt asciiStdlib upperApiVersionHeap
          (some 0) 0).1.Parse asciiStdlib
        (((New hyphenEnv).SetEnvLookuper hyphenEnv).SetInt asciiStdlib upperApiVersionHeap
          (some 0) 0).2 zeroIntMemory
        = .ret (mem1, some ⟨[.errorString "variable 'API_VERSION' has a wrong value type"]⟩) ∧
      mem1 ⟨INT, 0⟩ = .int 0 :=
  ⟨by decide, _, rfl, rfl⟩

/-- The value `5` converts at both widths of `int`. -/
theorem Atoi_five (rt : Stdlib) (hint : rt.IntSize = 32 ∨ rt.IntSize = 64) :
    Atoi rt "5" = some 5 := by
  rcases hint with h | h <;> simp only [Atoi, h] <;> decide

/-- Claim C11, amended. Normalized lookup: when the source holds `5` under the
normalized key `API_VERSION`, an INT declaration named `API-VERSION` with no
default, not required and without validator, registered with `SetInt`, parses
without error and its output target receives 5. -/
theorem normalized_lookup (rt : Stdlib)
    (hfmt : formatEnvVarName rt "API-VERSION" = "API_VERSION")
    (hint : rt.IntSize = 32 ∨ rt.IntSize = 64)
    (os l : EnvLookuper) (hl : l.LookupEnv "API_VERSION" = ("5", true))
    (h : VarHeap) (r a : Nat) (mem : Memory)
    (hname : (h r).Name = "API-VERSION") (hdef : (h r).Default = none)
    (hreq : (h r).Required = false) (hvf : (h r).ValidationFunc = none) :
    (((New os).SetEnvLookuper l).SetInt rt h (some a) r).1.Parse rt
        (((New os).SetEnvLookuper l).SetInt rt h (some a) r).2 mem
      = .ret (mem.set ⟨INT, a⟩ (.int 5), none) := by
  simp [Config.Parse, Config.SetInt, Config.setVariable, tagVariable, VarHeap.update, New,
    Config.SetEnvLookuper, Config.ParseLoop, NewParseErrors, Config.parseVariable,
    Config.parseInt, hname, hfmt, hl, hdef, hreq, hvf, Pointer.assert, Atoi_five rt hint,
    assignAndValidate, Memory.store, ParseErrors.IsNotNil, INT, STRING]

/-- The case "unformated variable name" of `TestConfigInt` with the name in
upper case: the source holds `API_VERSION=5`. -/
theorem normalized_lookup_witness :
    formatEnvVarName asciiStdlib "API-VERSION" = "API_VERSION" ∧
    (asciiStdlib.IntSize = 32 ∨ asciiStdlib.IntSize = 64) ∧
    testEnv.LookupEnv "API_VERSION" = ("5", true) ∧
    (upperApiVersionHeap 0).Name = "API-VERSION" ∧
    (upperApiVersionHeap 0).Default = none ∧
    (upperApiVersionHeap 0).Required = false ∧
    (upperApiVersionHeap 0).ValidationFunc = none ∧
    (((New testEnv).SetEnvLookuper testEnv).SetInt asciiStdlib upperApiVersionHeap
        (some 0) 0).1.Parse asciiStdlib
        (((New testEnv).SetEnvLookuper testEnv).SetInt asciiStdlib upperApiVersionHeap
          (some 0) 0).2 zeroIntMemory
      = .ret (zeroIntMemory.set ⟨INT, 0⟩ (.int 5), none) :=
  ⟨by decide, Or.inr rfl, by decide, rfl, rfl, rfl, rfl,
    normalized_lookup asciiStdlib (by decide) (Or.inr rfl) testEnv testEnv (by decide)
      upperApiVersionHeap 0 0 zeroIntMemory rfl rfl rfl rfl⟩

/-- Claim C12. Absent optional variable without default, for a source that
returns the empty string for the absent name and a `ParseFloat` that rejects
the empty string: with Required false and Default nil, a STRING declaration
without validator succeeds and its target receives the empty string, while an
INT, INT64, FLOAT32, FLOAT64 or BOOL declaration fails with the error
variable 'NAME' has a wrong value type and leaves the memory as it was. -/
theorem absent_optional_without_default (rt : Stdlib)
    (hf32 : rt.ParseFloat "" 32 = none) (hf64 : rt.ParseFloat "" 64 = none)
    (c : Config) (v : Variable) (mem : Memory) (p : Option Nat)
    (hreq : v.Required = false) (hdef : v.Default = none)
    (habs : c.env.LookupEnv v.Name = ("", false))
    (hp : v.pointer = .ptr v.valueType p) :
    (v.valueType = STRING → v.ValidationFunc = none → ∀ a, p = some a →
      c.parseVariable rt v mem = .ret (mem.set ⟨STRING, a⟩ (.string ""), none)) ∧
    (v.valueType = INT ∨ v.valueType = INT64 ∨ v.valueType = FLOAT32 ∨ v.valueType = FLOAT64 ∨
        v.valueType = BOOL →
      c.parseVariable rt v mem
        = .ret (mem, some (.errorString
            ("variable '" ++ v.Name ++ "' has a wrong value type")))) := by
  have hA : Atoi rt "" = none := rfl
  have hI : ParseInt "" 64 = none := rfl
  have hB : ParseBool "" = none := by decide
  constructor
  · intro hty hvf a ha
    rw [parseVariable_eq_resolve rt c v mem (Or.inl hty)]
    simp [resolve, hreq, hdef, habs, hp, Pointer.assert, hty, convert, assignAndValidate,
      Memory.store, hvf, ha]
  · intro hty
    have hs : supported v.valueType := Or.inr hty
    rw [parseVariable_eq_resolve rt c v mem hs]
    rcases hty with hty | hty | hty | hty | hty <;>
      simp [resolve, hreq, hdef, habs, hp, Pointer.assert, hty, convert, hA, hI, hB, hf32, hf64,
        errWrongValue, STRING, INT, INT64, FLOAT32, FLOAT64, BOOL]

/-- An optional INT declaration `BATCH_SIZE` without default against the
source of `TestConfigInt`, which does not hold that name. -/
theorem absent_optional_without_default_witness :
    asciiStdlib.ParseFloat "" 32 = none ∧ asciiStdlib.ParseFloat "" 64 = none ∧
    optionalInt.Required = false ∧ optionalInt.Default = none ∧
    testConfig.env.LookupEnv optionalInt.Name = ("", false) ∧
    optionalInt.pointer = .ptr optionalInt.valueType (some 0) ∧
    (optionalInt.valueType = STRING → optionalInt.ValidationFunc = none →
      ∀ a, some 0 = some a →
      testConfig.parseVariable asciiStdlib optionalInt zeroIntMemory
        = .ret (zeroIntMemory.set ⟨STRING, a⟩ (.string ""), none)) ∧
    (optionalInt.valueType = INT ∨ optionalInt.valueType = INT64 ∨
        optionalInt.valueType = FLOAT32 ∨ optionalInt.valueType = FLOAT64 ∨
        optionalInt.valueType = BOOL →
      testConfig.parseVariable asciiStdlib optionalInt zeroIntMemory
        = .ret (zeroIntMemory, some (.errorString
            ("variable '" ++ optionalInt.Name ++ "' has a wrong value type")))) :=
  ⟨rfl, rfl, rfl, rfl, by decide, rfl,
    absent_optional_without_default asciiStdlib rfl rfl testConfig optionalInt zeroIntMemory
      (some 0) rfl rfl (by decide) rfl⟩

/-- The routine of a present variable whose raw value converts, with a
validator attached: the target is assigned and the validator decides. -/
theorem parseVariable_validated (rt : Stdlib) (c : Config) (v : Variable) (mem : Memory)
    (a : Nat) (stored arg : Value) (f : Value → Exec (Option GoError))
    (hs : supported v.valueType) (hpres : (c.env.LookupEnv v.Name).2 = true)
    (hconv : convert rt v.valueType (c.env.LookupEnv v.Name).1 = some (stored, arg))
    (hp : v.pointer = .ptr v.valueType (some a)) (hvf : v.ValidationFunc = some f) :
    c.parseVariable rt v mem =
      match f arg with
      | .panic => .panic
      | .ret e => .ret (mem.set ⟨v.valueType, a⟩ stored, e) := by
  rw [parseVariable_eq_resolve rt c v mem hs]
  simp only [resolve, hpres, hconv, hp, Pointer.assert, assignAndValidate, Memory.store, hvf]
  simp

/-- Claim C13. Validator errors pass through verbatim: for a declaration of
one of the six types whose variable is present and converts, with a validator
`f` attached. If `f` returns the error `e` for the converted value, the error
of the declaration is `e` itself; `Parse` on the registry holding it alone
returns the aggregate whose only entry is `e`, and `Parse` on any registry that
holds it (and in which no declaration panics) returns an aggregate containing
`e`. If `f` returns nil the declaration succeeds. -/
theorem validator_errors_verbatim (rt : Stdlib) (c : Config) (v : Variable) (mem : Memory)
    (a : Nat) (stored arg : Value) (f : Value → Exec (Option GoError))
    (hs : supported v.valueType) (hpres : (c.env.LookupEnv v.Name).2 = true)
    (hconv : convert rt v.valueType (c.env.LookupEnv v.Name).1 = some (stored, arg))
    (hp : v.pointer = .ptr v.valueType (some a)) (hvf : v.ValidationFunc = some f) :
    (∀ e, f arg = .ret (some e) →
      c.parseVariable rt v mem = .ret (mem.set ⟨v.valueType, a⟩ stored, some e) ∧
      (∀ (h : VarHeap) (r : Nat), h r = v →
        (c.only r).Parse rt h mem = .ret (mem.set ⟨v.valueType, a⟩ stored, some ⟨[e]⟩)) ∧
      (∀ (h : VarHeap), (∀ r ∈ c.vars, c.parseVariable rt (h r) mem ≠ .panic) →
        ∀ r ∈ c.vars, h r = v →
        ∃ mem1 res, c.Parse rt h mem = .ret (mem1, res) ∧ e ∈ errorsOf res)) ∧
    (f arg = .ret none →
      c.parseVariable rt v mem = .ret (mem.set ⟨v.valueType, a⟩ stored, none)) := by
  have hv := parseVariable_validated rt c v mem a stored arg f hs hpres hconv hp hvf
  constructor
  · intro e he
    have hve : c.parseVariable rt v mem = .ret (mem.set ⟨v.valueType, a⟩ stored, some e) := by
      rw [hv, he]
    refine ⟨hve, fun h r hr => ?_, fun h hnp r hr hrv => ?_⟩
    · have := Parse_only rt c h r mem _ (some e) (by rw [hr]; exact hve)
      simpa using this
    · have hnp1 : ∀ u ∈ c.vars.map h, c.parseVariable rt u mem ≠ .panic := by
        intro u hu
        obtain ⟨r1, hr1, rfl⟩ := List.mem_map.1 hu
        exact hnp r1 hr1
      obtain ⟨mem1, hloop⟩ :=
        ParseLoop_errors rt c mem (c.vars.map h) mem (NewParseErrors []) hnp1
      refine ⟨mem1, _, Parse_of_loop rt c h mem mem1 _ hloop, ?_⟩
      rw [errorsOf_result]
      simp only [NewParseErrors, List.nil_append, List.mem_filterMap]
      exact ⟨v, List.mem_map.2 ⟨r, hr, hrv⟩, by rw [hve]; rfl⟩
  · intro he
    rw [hv, he]

/-- The STRING declaration `LOG_LEVEL` with a rejecting validator, present in
the source of the tests. -/
theorem validator_errors_verbatim_witness :
    supported rejectedString.valueType ∧
    (oneConfig.env.LookupEnv rejectedString.Name).2 = true ∧
    convert asciiStdlib rejectedString.valueType (oneConfig.env.LookupEnv rejectedString.Name).1
      = some (.string "DEBUG", .string "DEBUG") ∧
    rejectedString.pointer = .ptr rejectedString.valueType (some 0) ∧
    rejectedString.ValidationFunc = some rejectAll ∧
    (∀ e, rejectAll (.string "DEBUG") = .ret (some e) →
      oneConfig.parseVariable asciiStdlib rejectedString zeroMemory
        = .ret (zeroMemory.set ⟨rejectedString.valueType, 0⟩ (.string "DEBUG"), some e) ∧
      (∀ (h : VarHeap) (r : Nat), h r = rejectedString →
        (oneConfig.only r).Parse asciiStdlib h zeroMemory
          = .ret (zeroMemory.set ⟨rejectedString.valueType, 0⟩ (.string "DEBUG"),
              some ⟨[e]⟩)) ∧
      (∀ (h : VarHeap),
        (∀ r ∈ oneConfig.vars, oneConfig.parseVariable asciiStdlib (h r) zeroMemory ≠ .panic) →
        ∀ r ∈ oneConfig.vars, h r = rejectedString →
        ∃ mem1 res, oneConfig.Parse asciiStdlib h zeroMemory = .ret (mem1, res) ∧
          e ∈ errorsOf res)) ∧
    (rejectAll (.string "DEBUG") = .ret none →
      oneConfig.parseVariable asciiStdlib rejectedString zeroMemory
        = .ret (zeroMemory.set ⟨rejectedString.valueType, 0⟩ (.string "DEBUG"), none)) :=
  ⟨by decide, by decide, by decide, rfl, rfl,
    validator_errors_verbatim asciiStdlib oneConfig rejectedString zeroMemory 0
      (.string "DEBUG") (.string "DEBUG") rejectAll (by decide) (by decide) (by decide) rfl rfl⟩

/-- Claim C14, refuted as stated: the optional STRING declaration `LOG_FORMAT`
without default, against a source that does not hold `LOG_FORMAT`. With a
validator that rejects every value the routine returns that validator's error;
without validator it returns none: the validator was called, on the empty
string that the lookup returned for the absent name. -/
theorem validators_only_on_present_counterexample :
    (testConfig.env.LookupEnv "LOG_FORMAT").2 = false ∧
    (∃ mem1, testConfig.parseVariable asciiStdlib (optionalString (some rejectAll)) zeroIntMemory
        = .ret (mem1, some (.errorString "rejected")) ∧ mem1 ⟨STRING, 0⟩ = .string "") ∧
    (∃ mem1, testConfig.parseVariable asciiStdlib (optionalString none) zeroIntMemory
        = .ret (mem1, none)) :=
  ⟨by decide, ⟨_, rfl, by decide⟩, ⟨_, rfl⟩⟩

/-- Claim C14, amended. For a declaration whose name is absent from the source:
when Required is true, or a Default is declared, or the value that the lookup
returned for the absent name does not convert to the declared type, the
outcome is the same whichever validator is attached (the validator is not
called); when Required is false, Default is nil and that value converts (as
every value does for STRING), the validator is called on the converted value
and decides the outcome. -/
theorem validators_only_on_converted (rt : Stdlib) (c : Config) (v : Variable) (mem : Memory)
    (habs : (c.env.LookupEnv v.Name).2 = false) :
    (v.Required = true ∨ v.Default ≠ none ∨
        convert rt v.valueType (c.env.LookupEnv v.Name).1 = none →
      ∀ f g, c.parseVariable rt { v with ValidationFunc := f } mem
        = c.parseVariable rt { v with ValidationFunc := g } mem) ∧
    (∀ a stored arg, v.Required = false → v.Default = none →
      convert rt v.valueType (c.env.LookupEnv v.Name).1 = some (stored, arg) →
      v.pointer = .ptr v.valueType (some a) →
      ∀ f, c.parseVariable rt { v with ValidationFunc := some f } mem =
        match f arg with
        | .panic => .panic
        | .ret e => .ret (mem.set ⟨v.valueType, a⟩ stored, e)) := by
  constructor
  · intro hcase f g
    by_cases hs : supported v.valueType
    · have h1 := parseVariable_eq_resolve rt c { v with ValidationFunc := f } mem hs
      have h2 := parseVariable_eq_resolve rt c { v with ValidationFunc := g } mem hs
      rw [h1, h2]
      rcases hcase with hreq | hdef | hconv
      · simp [resolve, hreq, habs]
      · obtain ⟨d, hd⟩ := Option.ne_none_iff_exists'.1 hdef
        simp only [resolve, habs, hd]
        cases v.pointer.assert v.valueType <;> simp
      · simp only [resolve, habs, hconv]
    · have h1 := parseVariable_unsupported rt c { v with ValidationFunc := f } mem hs
      have h2 := parseVariable_unsupported rt c { v with ValidationFunc := g } mem hs
      rw [h1, h2]
  · intro a stored arg hreq hdef hconv hp f
    have hs : supported v.valueType := by
      by_contra hn
      simp only [supported, not_or] at hn
      obtain ⟨h0, h1, h2, h3, h4, h5⟩ := hn
      simp [convert, h0, h1, h2, h3, h4, h5] at hconv
    have h1 := parseVariable_eq_resolve rt c { v with ValidationFunc := some f } mem hs
    rw [h1]
    simp only [resolve, hreq, hdef, habs, hconv, hp, Pointer.assert, assignAndValidate,
      Memory.store]
    simp

/-- The optional STRING declaration `LOG_FORMAT`, absent from the source of the
tests. -/
theorem validators_only_on_converted_witness :
    (testConfig.env.LookupEnv (optionalString none).Name).2 = false ∧
    ((optionalString none).Required = true ∨ (optionalString none).Default ≠ none ∨
        convert asciiStdlib (optionalString none).valueType
          (testConfig.env.LookupEnv (optionalString none).Name).1 = none →
      ∀ f g, testConfig.parseVariable asciiStdlib
          { optionalString none with ValidationFunc := f } zeroIntMemory
        = testConfig.parseVariable asciiStdlib
          { optionalString none with ValidationFunc := g } zeroIntMemory) ∧
    (∀ a stored arg, (optionalString none).Required = false →
      (optionalString none).Default = none →
      convert asciiStdlib (optionalString none).valueType
        (testConfig.env.LookupEnv (optionalString none).Name).1 = some (stored, arg) →
      (optionalString none).pointer = .ptr (optionalString none).valueType (some a) →
      ∀ f, testConfig.parseVariable asciiStdlib
          { optionalString none with ValidationFunc := some f } zeroIntMemory =
        match f arg with
        | .panic => .panic
        | .ret e => .ret (zeroIntMemory.set ⟨(optionalString none).valueType, a⟩ stored, e)) :=
  ⟨by decide,
    validators_only_on_converted asciiStdlib testConfig (optionalString none) zeroIntMemory
      (by decide)⟩

theorem digitVal_of_isDecimalDigit (c : Char) (h : isDecimalDigit c = true) :
    digitVal c = some (c.toNat - 48) := by
  simp only [isDecimalDigit, decide_eq_true_eq] at h
  simp [digitVal, h]

theorem digitVal_eq_none (c : Char) (h : isDecimalDigit c = false) : digitVal c = none := by
  simp only [isDecimalDigit, decide_eq_false_iff_not] at h
  simp only [digitVal, h, if_false]

theorem ParseUintLoop_digits :
    ∀ (ds : List Char) (acc : Nat), (∀ c ∈ ds, isDecimalDigit c = true) →
      ParseUintLoop ds acc = some (ds.foldl (fun n c => n * 10 + (c.toNat - 48)) acc) := by
  intro ds
  induction ds with
  | nil => intro acc _; rfl
  | cons c cs ih =>
    intro acc h
    simp only [ParseUintLoop, digitVal_of_isDecimalDigit c (h c (List.mem_cons_self _ _)),
      List.foldl_cons]
    exact ih _ (fun x hx => h x (List.mem_cons_of_mem _ hx))

theorem ParseUintLoop_some :
    ∀ (ds : List Char) (acc n : Nat), ParseUintLoop ds acc = some n →
      ∀ c ∈ ds, isDecimalDigit c = true := by
  intro ds
  induction ds with
  | nil => intro acc n _ c hc; cases hc
  | cons d cs ih =>
    intro acc n h c hc
    cases hd : isDecimalDigit d with
    | false => simp [ParseUintLoop, digitVal_eq_none d hd] at h
    | true =>
      simp only [ParseUintLoop, digitVal_of_isDecimalDigit d hd] at h
      rcases List.mem_cons.1 hc with rfl | hc1
      · exact hd
      · exact ih _ n h c hc1

/-- The model of `strconv.ParseUint` accepts the non-empty digit strings. -/
theorem ParseUint_eq_some (ds : List Char) (n : Nat) :
    ParseUint ds = some n ↔
      ds ≠ [] ∧ (∀ c ∈ ds, isDecimalDigit c = true) ∧ n = decimalValue ds := by
  cases ds with
  | nil => simp [ParseUint]
  | cons d cs =>
    simp only [ParseUint, ne_eq, reduceCtorEq, not_false_eq_true, true_and]
    constructor
    · intro h
      have hall := ParseUintLoop_some (d :: cs) 0 n h
      rw [ParseUintLoop_digits (d :: cs) 0 hall] at h
      exact ⟨hall, by simpa [decimalValue] using h.symm⟩
    · rintro ⟨hall, hn⟩
      rw [ParseUintLoop_digits (d :: cs) 0 hall, hn]
      rfl

/-- The range check of `ParseInt` on the magnitude `un` with the sign `neg`. -/
theorem ParseInt_of_ParseUint (s : String) (b : Nat) (c : Char) (cs : List Char)
    (hs : s.data = c :: cs) :
    ParseInt s b =
      match ParseUint (if c = '+' ∨ c = '-' then cs else c :: cs) with
      | none => none
      | some un =>
        if (!decide (c = '-')) && decide (2 ^ (b - 1) ≤ un) then none
        else if decide (c = '-') && decide (2 ^ (b - 1) < un) then none
        else some (if decide (c = '-') = true then -(un : Int) else (un : Int)) := by
  simp only [ParseInt, hs]

/-- The model of `strconv.ParseInt(s, 10, b)` accepts exactly the decimal
numerals that denote an integer of `b` bits, and returns the integer. -/
theorem ParseInt_eq_some (s : String) (b : Nat) (n : Int) :
    ParseInt s b = some n ↔
      DecimalNumeral s n ∧ -((2 : Int) ^ (b - 1)) ≤ n ∧ n < (2 : Int) ^ (b - 1) := by
  obtain ⟨C, hC⟩ : ∃ C : Nat, C = 2 ^ (b - 1) := ⟨_, rfl⟩
  have hCi : ((2 : Int) ^ (b - 1)) = (C : Int) := by rw [hC]; push_cast; rfl
  have hCpos : 0 < C := by rw [hC]; positivity
  rw [hCi]
  have hminus : isDecimalDigit '-' = false := by decide
  have hplus : isDecimalDigit '+' = false := by decide
  cases hs : s.data with
  | nil =>
    constructor
    · intro h
      simp [ParseInt, hs] at h
    · rintro ⟨⟨sign, ds, hsd, _, hne, _, _⟩, _⟩
      rw [hs] at hsd
      have := List.append_eq_nil.1 hsd.symm
      exact absurd this.2 hne
  | cons c cs =>
    rw [ParseInt_of_ParseUint s b c cs hs, ← hC]
    by_cases hm : c = '-'
    · subst hm
      simp only [or_true, if_true, decide_True, Bool.not_true, Bool.false_and, Bool.true_and,
        Bool.false_eq_true, if_false]
      constructor
      · intro h
        cases hu : ParseUint cs with
        | none => simp [hu] at h
        | some un =>
          simp only [hu] at h
          split at h
          · cases h
          · rename_i hlt
            simp only [decide_eq_true_eq, not_lt] at hlt
            simp only [Option.some.injEq] at h
            obtain ⟨hne, hall, hval⟩ := (ParseUint_eq_some cs un).1 hu
            refine ⟨⟨['-'], cs, by rw [hs]; rfl, Or.inr (Or.inr rfl), hne, hall, ?_⟩, ?_, ?_⟩
            · simp only [if_true]
              rw [← h, hval]
            · omega
            · omega
      · rintro ⟨⟨sign, ds, hsd, hsign, hne, hall, hn⟩, hlo, hhi⟩
        rw [hs] at hsd
        rcases hsign with rfl | rfl | rfl
        · simp only [List.nil_append] at hsd
          have h1 := hall '-' (by rw [← hsd]; exact List.mem_cons_self _ _)
          rw [hminus] at h1
          cases h1
        · simp at hsd
        · simp only [List.singleton_append, List.cons.injEq, true_and] at hsd
          subst hsd
          simp only [if_true] at hn
          rw [(ParseUint_eq_some cs (decimalValue cs)).2 ⟨hne, hall, rfl⟩]
          have hle : ¬ C < decimalValue cs := by omega
          simp only [decide_eq_true_eq, hle, if_false, hn]
    · by_cases hpl : c = '+'
      · subst hpl
        simp only [true_or, if_true, hm, decide_False, Bool.not_false, Bool.true_and,
          Bool.false_and, Bool.false_eq_true, if_false]
        constructor
        · intro h
          cases hu : ParseUint cs with
          | none => simp [hu] at h
          | some un =>
            simp only [hu] at h
            split at h
            · cases h
            · rename_i hlt
              simp only [decide_eq_true_eq, not_le] at hlt
              simp only [Option.some.injEq] at h
              obtain ⟨hne, hall, hval⟩ := (ParseUint_eq_some cs un).1 hu
              refine ⟨⟨['+'], cs, by rw [hs]; rfl, Or.inr (Or.inl rfl), hne, hall, ?_⟩, ?_, ?_⟩
              · have hsg : (['+'] : List Char) ≠ ['-'] := by decide
                simp only [hsg, if_false]
                rw [← h, hval]
              · omega
              · omega
        · rintro ⟨⟨sign, ds, hsd, hsign, hne, hall, hn⟩, hlo, hhi⟩
          rw [hs] at hsd
          rcases hsign with rfl | rfl | rfl
          · simp only [List.nil_append] at hsd
            have h1 := hall '+' (by rw [← hsd]; exact List.mem_cons_self _ _)
            rw [hplus] at h1
            cases h1
          · simp only [List.singleton_append, List.cons.injEq, true_and] at hsd
            subst hsd
            have hsg : (['+'] : List Char) ≠ ['-'] := by decide
            simp only [hsg, if_false] at hn
            rw [(ParseUint_eq_some cs (decimalValue cs)).2 ⟨hne, hall, rfl⟩]
            have hle : ¬ C ≤ decimalValue cs := by omega
            simp only [decide_eq_true_eq, hle, if_false, hn]
          · simp at hsd
      · simp only [hm, hpl, or_self, if_false, decide_False, Bool.not_false, Bool.true_and,
          Bool.false_and, Bool.false_eq_true]
        constructor
        · intro h
          cases hu : ParseUint (c :: cs) with
          | none => simp [hu] at h
          | some un =>
            simp only [hu] at h
            split at h
            · cases h
            · rename_i hlt
              simp only [decide_eq_true_eq, not_le] at hlt
              simp only [Option.some.injEq] at h
              obtain ⟨hne, hall, hval⟩ := (ParseUint_eq_some (c :: cs) un).1 hu
              refine ⟨⟨[], c :: cs, by rw [hs]; rfl, Or.inl rfl, hne, hall, ?_⟩, ?_, ?_⟩
              · have hsg : ([] : List Char) ≠ ['-'] := by decide
                simp only [hsg, if_false]
                rw [← h, hval]
              · omega
              · omega
        · rintro ⟨⟨sign, ds, hsd, hsign, hne, hall, hn⟩, hlo, hhi⟩
          rw [hs] at hsd
          rcases hsign with rfl | rfl | rfl
          · simp only [List.nil_append] at hsd
            subst hsd
            have hsg : ([] : List Char) ≠ ['-'] := by decide
            simp only [hsg, if_false] at hn
            rw [(ParseUint_eq_some (c :: cs) (decimalValue (c :: cs))).2 ⟨hne, hall, rfl⟩]
            have hle : ¬ C ≤ decimalValue (c :: cs) := by omega
            simp only [decide_eq_true_eq, hle, if_false, hn]
          · simp only [List.singleton_append, List.cons.injEq] at hsd
            exact absurd hsd.1 hpl
          · simp only [List.singleton_append, List.cons.injEq] at hsd
            exact absurd hsd.1 hm

theorem digitChar_toNat (d : Nat) (h : d < 10) : (digitChar d).toNat = 48 + d := by
  interval_cases d <;> rfl

theorem isDecimalDigit_digitChar (d : Nat) (h : d < 10) : isDecimalDigit (digitChar d) = true := by
  simp only [isDecimalDigit, digitChar_toNat d h, decide_eq_true_eq]
  omega

theorem decimalValue_digits (L : List Nat) (h : ∀ d ∈ L, d < 10) :
    decimalValue (L.reverse.map digitChar) = Nat.ofDigits 10 L := by
  induction L with
  | nil => rfl
  | cons d tl ih =>
    have ih1 := ih (fun x hx => h x (List.mem_cons_of_mem _ hx))
    have hd := digitChar_toNat d (h d (List.mem_cons_self _ _))
    simp only [decimalValue] at ih1 ⊢
    simp only [List.reverse_cons, List.map_append, List.map_cons, List.map_nil,
      List.foldl_append, List.foldl_cons, List.foldl_nil, ih1, hd, Nat.ofDigits_cons,
      Nat.cast_id]
    omega

theorem formatNat_spec (m : Nat) :
    formatNat m ≠ [] ∧ (∀ c ∈ formatNat m, isDecimalDigit c = true) ∧
      decimalValue (formatNat m) = m := by
  by_cases hm : m = 0
  · subst hm
    refine ⟨by simp [formatNat], ?_, by simp [formatNat, decimalValue]⟩
    intro c hc
    simp only [formatNat, if_true, List.mem_singleton] at hc
    subst hc
    decide
  · have hlt : ∀ d ∈ Nat.digits 10 m, d < 10 := fun d hd => Nat.digits_lt_base (by norm_num) hd
    refine ⟨?_, ?_, ?_⟩
    · simp only [formatNat, hm, if_false, ne_eq, List.map_eq_nil_iff, List.reverse_eq_nil_iff]
      exact Nat.digits_ne_nil_iff_ne_zero.2 hm
    · intro c hc
      simp only [formatNat, hm, if_false, List.mem_map, List.mem_reverse] at hc
      obtain ⟨d, hd, rfl⟩ := hc
      exact isDecimalDigit_digitChar d (hlt d hd)
    · simp only [formatNat, hm, if_false]
      rw [decimalValue_digits _ hlt, Nat.ofDigits_digits]

/-- The decimal rendering of an integer is a decimal numeral that denotes it. -/
theorem DecimalNumeral_FormatInt (n : Int) : DecimalNumeral (FormatInt n) n := by
  obtain ⟨hne, hall, hval⟩ := formatNat_spec n.natAbs
  by_cases hn : n < 0
  · refine ⟨['-'], formatNat n.natAbs, by simp [FormatInt, hn], Or.inr (Or.inr rfl), hne, hall, ?_⟩
    simp only [if_true, hval]
    omega
  · refine ⟨[], formatNat n.natAbs, by simp [FormatInt, hn], Or.inl rfl, hne, hall, ?_⟩
    have hsg : ([] : List Char) ≠ ['-'] := by decide
    simp only [hsg, if_false, hval]
    omega

/-- The routine of a present variable whose raw value converts. -/
theorem parseVariable_converted (rt : Stdlib) (c : Config) (v : Variable) (mem : Memory)
    (a : Nat) (stored arg : Value)
    (hs : supported v.valueType) (hpres : (c.env.LookupEnv v.Name).2 = true)
    (hconv : convert rt v.valueType (c.env.LookupEnv v.Name).1 = some (stored, arg))
    (hp : v.pointer = .ptr v.valueType (some a)) :
    c.parseVariable rt v mem =
      match v.ValidationFunc with
      | none => .ret (mem.set ⟨v.valueType, a⟩ stored, none)
      | some f =>
        match f arg with
        | .panic => .panic
        | .ret e => .ret (mem.set ⟨v.valueType, a⟩ stored, e) := by
  rw [parseVariable_eq_resolve rt c v mem hs]
  simp only [resolve, hpres, hconv, hp, Pointer.assert, assignAndValidate, Memory.store]
  cases v.ValidationFunc <;> simp

/-- The routine of a present variable whose raw value does not convert. -/
theorem parseVariable_not_converted (rt : Stdlib) (c : Config) (v : Variable) (mem : Memory)
    (p : Option Nat)
    (hs : supported v.valueType) (hpres : (c.env.LookupEnv v.Name).2 = true)
    (hconv : convert rt v.valueType (c.env.LookupEnv v.Name).1 = none)
    (hp : v.pointer = .ptr v.valueType p) :
    c.parseVariable rt v mem = .ret (mem, some (errWrongValue v.Name)) := by
  rw [parseVariable_eq_resolve rt c v mem hs]
  simp [resolve, hpres, hconv, hp, Pointer.assert]

/-- The conversion step of the INT64 routine, and of the INT routine on a
64-bit host. -/
theorem convert_int (rt : Stdlib) (t : valueType) (s : String)
    (hty : t = INT64 ∨ t = INT) (hint : t = INT → rt.IntSize = 64) :
    convert rt t s = (ParseInt s 64).map (fun n => (intValue t n, intValue t n)) := by
  rcases hty with h | h
  · subst h
    simp [convert, intValue, INT64, STRING, INT]
  · subst h
    simp [convert, intValue, INT64, STRING, INT, Atoi, hint rfl]

/-- The INT64 routine, and the INT routine on a 64-bit host, by the form of the
raw value: a decimal numeral of the signed 64-bit range is assigned and handed
to the validator, anything else is a wrong value type; decimal renderings
convert back. -/
theorem integer_conversion_cases (rt : Stdlib) (c : Config) (v : Variable) (mem : Memory)
    (a : Nat) (s : String)
    (hty : v.valueType = INT64 ∨ v.valueType = INT)
    (hint : v.valueType = INT → rt.IntSize = 64)
    (hpres : c.env.LookupEnv v.Name = (s, true))
    (hp : v.pointer = .ptr v.valueType (some a)) :
    (∀ n : Int, DecimalNumeral s n → -(2 : Int) ^ 63 ≤ n → n < (2 : Int) ^ 63 →
      c.parseVariable rt v mem =
        match v.ValidationFunc with
        | none => .ret (mem.set ⟨v.valueType, a⟩ (intValue v.valueType n), none)
        | some f =>
          match f (intValue v.valueType n) with
          | .panic => .panic
          | .ret e => .ret (mem.set ⟨v.valueType, a⟩ (intValue v.valueType n), e)) ∧
    ((¬ ∃ n : Int, DecimalNumeral s n ∧ -(2 : Int) ^ 63 ≤ n ∧ n < (2 : Int) ^ 63) →
      c.parseVariable rt v mem
        = .ret (mem, some (.errorString
            ("variable '" ++ v.Name ++ "' has a wrong value type")))) ∧
    (∀ n : Int, -(2 : Int) ^ 63 ≤ n → n < (2 : Int) ^ 63 →
      convert rt v.valueType (FormatInt n)
        = some (intValue v.valueType n, intValue v.valueType n)) := by
  have hs : supported v.valueType := by
    rcases hty with h | h
    · exact Or.inr (Or.inr (Or.inl h))
    · exact Or.inr (Or.inl h)
  have hpres2 : (c.env.LookupEnv v.Name).2 = true := by rw [hpres]
  have hraw : (c.env.LookupEnv v.Name).1 = s := by rw [hpres]
  have hparse : ∀ (t : String) (n : Int), DecimalNumeral t n → -(2 : Int) ^ 63 ≤ n →
      n < (2 : Int) ^ 63 → ParseInt t 64 = some n := by
    intro t n hnum hlo hhi
    exact (ParseInt_eq_some t 64 n).2 ⟨hnum, by simpa using hlo, by simpa using hhi⟩
  refine ⟨fun n hnum hlo hhi => ?_, fun hno => ?_, fun n hlo hhi => ?_⟩
  · have hconv : convert rt v.valueType (c.env.LookupEnv v.Name).1
        = some (intValue v.valueType n, intValue v.valueType n) := by
      rw [hraw, convert_int rt v.valueType s hty hint, hparse s n hnum hlo hhi]
      rfl
    exact parseVariable_converted rt c v mem a _ _ hs hpres2 hconv hp
  · have hnone : ParseInt s 64 = none := by
      cases hpi : ParseInt s 64 with
      | none => rfl
      | some n =>
        obtain ⟨hnum, hlo, hhi⟩ := (ParseInt_eq_some s 64 n).1 hpi
        exact absurd ⟨n, hnum, by simpa using hlo, by simpa using hhi⟩ hno
    have hconv : convert rt v.valueType (c.env.LookupEnv v.Name).1 = none := by
      rw [hraw, convert_int rt v.valueType s hty hint, hnone]
      rfl
    exact parseVariable_not_converted rt c v mem (some a) hs hpres2 hconv hp
  · rw [convert_int rt v.valueType _ hty hint,
      hparse _ n (DecimalNumeral_FormatInt n) hlo hhi]
    rfl

theorem DecimalNumeral_thirty : DecimalNumeral "30" 30 :=
  ⟨[], ['3', '0'], rfl, Or.inl rfl, by decide, by decide, by decide⟩

/-- Claim C15, refuted as stated: the INT64 declaration `REQUEST_TIMEOUT` with
a validator that rejects every value, against a source holding
`REQUEST_TIMEOUT=30`. The raw value is a decimal numeral of the signed 64-bit
range and the target receives 30, yet the parse does not succeed: the routine
returns the validator's error. -/
theorem integer_conversion_counterexample :
    DecimalNumeral "30" 30 ∧ -(2 : Int) ^ 63 ≤ 30 ∧ (30 : Int) < (2 : Int) ^ 63 ∧
    testConfig.env.LookupEnv validatedInt64.Name = ("30", true) ∧
    ∃ mem1, testConfig.parseVariable asciiStdlib validatedInt64 zeroIntMemory
        = .ret (mem1, some (.errorString "rejected")) ∧
      mem1 ⟨INT64, 0⟩ = .int64 30 :=
  ⟨DecimalNumeral_thirty, by decide, by decide, by decide, _, rfl, by decide⟩

/-- Claim C15, amended. Integer conversion: for an INT64 declaration, and for
an INT declaration on a host whose `int` has 64 bits, whose variable is present
with the raw value `s`. If `s` is an optional sign followed by one or more
decimal digits and denotes an integer `n` of the signed 64-bit range, the
output target receives `n` and the result of the routine is the verdict of the
attached validator, no error when there is none; for every other `s` the
routine fails with the error variable 'NAME' has a wrong value type and leaves
the memory as it was. Hence the routine returns no error if and only if `s`
is such a numeral and the validator, if one is attached, accepts the integer;
without validator, if and only if `s` is such a numeral. The decimal rendering
of every integer of the signed 64-bit range converts back to that integer. -/
theorem integer_conversion (rt : Stdlib) (c : Config) (v : Variable) (mem : Memory)
    (a : Nat) (s : String)
    (hty : v.valueType = INT64 ∨ v.valueType = INT)
    (hint : v.valueType = INT → rt.IntSize = 64)
    (hpres : c.env.LookupEnv v.Name = (s, true))
    (hp : v.pointer = .ptr v.valueType (some a)) :
    (∀ n : Int, DecimalNumeral s n → -(2 : Int) ^ 63 ≤ n → n < (2 : Int) ^ 63 →
      c.parseVariable rt v mem =
        match v.ValidationFunc with
        | none => .ret (mem.set ⟨v.valueType, a⟩ (intValue v.valueType n), none)
        | some f =>
          match f (intValue v.valueType n) with
          | .panic => .panic
          | .ret e => .ret (mem.set ⟨v.valueType, a⟩ (intValue v.valueType n), e)) ∧
    ((¬ ∃ n : Int, DecimalNumeral s n ∧ -(2 : Int) ^ 63 ≤ n ∧ n < (2 : Int) ^ 63) →
      c.parseVariable rt v mem
        = .ret (mem, some (.errorString
            ("variable '" ++ v.Name ++ "' has a wrong value type")))) ∧
    (∀ n : Int, -(2 : Int) ^ 63 ≤ n → n < (2 : Int) ^ 63 →
      convert rt v.valueType (FormatInt n)
        = some (intValue v.valueType n, intValue v.valueType n)) ∧
    ((∃ mem1, c.parseVariable rt v mem = .ret (mem1, none)) ↔
      ∃ n : Int, DecimalNumeral s n ∧ -(2 : Int) ^ 63 ≤ n ∧ n < (2 : Int) ^ 63 ∧
        ∀ f, v.ValidationFunc = some f → f (intValue v.valueType n) = .ret none) ∧
    (v.ValidationFunc = none →
      ((∃ mem1, c.parseVariable rt v mem = .ret (mem1, none)) ↔
        ∃ n : Int, DecimalNumeral s n ∧ -(2 : Int) ^ 63 ≤ n ∧ n < (2 : Int) ^ 63)) := by
  obtain ⟨h1, h2, h3⟩ := integer_conversion_cases rt c v mem a s hty hint hpres hp
  have hiff : (∃ mem1, c.parseVariable rt v mem = .ret (mem1, none)) ↔
      ∃ n : Int, DecimalNumeral s n ∧ -(2 : Int) ^ 63 ≤ n ∧ n < (2 : Int) ^ 63 ∧
        ∀ f, v.ValidationFunc = some f → f (intValue v.valueType n) = .ret none := by
    constructor
    · rintro ⟨mem1, hm⟩
      by_cases hex : ∃ n : Int, DecimalNumeral s n ∧ -(2 : Int) ^ 63 ≤ n ∧ n < (2 : Int) ^ 63
      · obtain ⟨n, hnum, hlo, hhi⟩ := hex
        refine ⟨n, hnum, hlo, hhi, fun f hf => ?_⟩
        have hn := h1 n hnum hlo hhi
        rw [hm, hf] at hn
        cases hfa : f (intValue v.valueType n) with
        | panic => simp [hfa] at hn
        | ret e =>
          simp only [hfa, Exec.ret.injEq, Prod.mk.injEq] at hn
          rw [← hn.2]
      · rw [h2 hex] at hm
        simp at hm
    · rintro ⟨n, hnum, hlo, hhi, hacc⟩
      have hn := h1 n hnum hlo hhi
      cases hf : v.ValidationFunc with
      | none =>
        rw [hf] at hn
        exact ⟨_, hn⟩
      | some f =>
        rw [hf] at hn
        simp only [hacc f hf] at hn
        exact ⟨_, hn⟩
  refine ⟨h1, h2, h3, hiff, fun hvf => ?_⟩
  rw [hiff]
  constructor
  · rintro ⟨n, hnum, hlo, hhi, _⟩
    exact ⟨n, hnum, hlo, hhi⟩
  · rintro ⟨n, hnum, hlo, hhi⟩
    exact ⟨n, hnum, hlo, hhi, fun f hf => by rw [hvf] at hf; cases hf⟩

/-- The INT64 declaration `REQUEST_TIMEOUT` of `TestConfigInt64`, present with
the raw value `30` and without validator: the target receives 30 and no error
is returned. -/
theorem integer_conversion_witness :
    (conflictInt64.valueType = INT64 ∨ conflictInt64.valueType = INT) ∧
    (conflictInt64.valueType = INT → asciiStdlib.IntSize = 64) ∧
    testConfig.env.LookupEnv conflictInt64.Name = ("30", true) ∧
    conflictInt64.pointer = .ptr conflictInt64.valueType (some 0) ∧
    ((∀ n : Int, DecimalNumeral "30" n → -(2 : Int) ^ 63 ≤ n → n < (2 : Int) ^ 63 →
      testConfig.parseVariable asciiStdlib conflictInt64 zeroIntMemory =
        match conflictInt64.ValidationFunc with
        | none =>
          .ret (zeroIntMemory.set ⟨conflictInt64.valueType, 0⟩
            (intValue conflictInt64.valueType n), none)
        | some f =>
          match f (intValue conflictInt64.valueType n) with
          | .panic => .panic
          | .ret e =>
            .ret (zeroIntMemory.set ⟨conflictInt64.valueType, 0⟩
              (intValue conflictInt64.valueType n), e)) ∧
    ((¬ ∃ n : Int, DecimalNumeral "30" n ∧ -(2 : Int) ^ 63 ≤ n ∧ n < (2 : Int) ^ 63) →
      testConfig.parseVariable asciiStdlib conflictInt64 zeroIntMemory
        = .ret (zeroIntMemory, some (.errorString
            ("variable '" ++ conflictInt64.Name ++ "' has a wrong value type")))) ∧
    (∀ n : Int, -(2 : Int) ^ 63 ≤ n → n < (2 : Int) ^ 63 →
      convert asciiStdlib conflictInt64.valueType (FormatInt n)
        = some (intValue conflictInt64.valueType n, intValue conflictInt64.valueType n)) ∧
    ((∃ mem1, testConfig.parseVariable asciiStdlib conflictInt64 zeroIntMemory
        = .ret (mem1, none)) ↔
      ∃ n : Int, DecimalNumeral "30" n ∧ -(2 : Int) ^ 63 ≤ n ∧ n < (2 : Int) ^ 63 ∧
        ∀ f, conflictInt64.ValidationFunc = some f →
          f (intValue conflictInt64.valueType n) = .ret none) ∧
    (conflictInt64.ValidationFunc = none →
      ((∃ mem1, testConfig.parseVariable asciiStdlib conflictInt64 zeroIntMemory
          = .ret (mem1, none)) ↔
        ∃ n : Int, DecimalNumeral "30" n ∧ -(2 : Int) ^ 63 ≤ n ∧ n < (2 : Int) ^ 63))) ∧
    testConfig.parseVariable asciiStdlib conflictInt64 zeroIntMemory
      = .ret (zeroIntMemory.set ⟨INT64, 0⟩ (.int64 30), none) :=
  ⟨Or.inl rfl, fun _ => rfl, by decide, rfl,
    integer_conversion asciiStdlib testConfig conflictInt64 zeroIntMemory 0 "30" (Or.inl rfl)
      (fun _ => rfl) (by decide) rfl, rfl⟩

/-- Claim C16, refuted as stated: the BOOL declaration `TRACING_ENABLED`
against a source holding `TRACING_ENABLED=tRUE`. The raw value equals `true`
ignoring letter case, yet the routine fails with the wrong-value-type error:
`strconv.ParseBool` knows `true`, `TRUE` and `True` only. And against the
source holding `TRACING_ENABLED=true`, with a validator that rejects every
value attached, the target receives true but the parse does not succeed: the
routine returns the validator's error. -/
theorem boolean_conversion_counterexample :
    mixedCaseEnv.LookupEnv "TRACING_ENABLED" = ("tRUE", true) ∧
    equalIgnoringCase "tRUE" "true" = true ∧
    mixedCaseConfig.parseVariable asciiStdlib tracingBool zeroIntMemory
      = .ret (zeroIntMemory,
          some (.errorString "variable 'TRACING_ENABLED' has a wrong value type")) ∧
    boolEnv.LookupEnv "TRACING_ENABLED" = ("true", true) ∧
    ∃ mem1, boolConfig.parseVariable asciiStdlib validatedBool zeroIntMemory
        = .ret (mem1, some (.errorString "rejected")) ∧
      mem1 ⟨BOOL, 0⟩ = .bool true :=
  ⟨by decide, by decide, rfl, by decide, _, rfl, by decide⟩

/-- The model of `strconv.ParseBool` by its twelve spellings. -/
theorem ParseBool_spec (s : String) :
    (s ∈ trueSpellings → ParseBool s = some true) ∧
    (s ∈ falseSpellings → ParseBool s = some false) ∧
    (s ∉ trueSpellings → s ∉ falseSpellings → ParseBool s = none) := by
  have hdisj : s ∈ falseSpellings → ¬ s ∈ trueSpellings := by
    simp only [trueSpellings, falseSpellings, List.mem_cons, List.mem_singleton,
      List.not_mem_nil, or_false]
    rintro (h | h | h | h | h | h) <;> subst h <;> decide
  refine ⟨fun h => ?_, fun h => ?_, fun h1 h2 => ?_⟩
  · simp only [trueSpellings, List.mem_cons, List.mem_singleton, List.not_mem_nil,
      or_false] at h
    simp only [ParseBool, h, if_true]
  · have h1 := hdisj h
    simp only [trueSpellings, falseSpellings, List.mem_cons, List.mem_singleton,
      List.not_mem_nil, or_false] at h h1
    simp only [ParseBool, h, h1, if_true, if_false]
  · simp only [trueSpellings, falseSpellings, List.mem_cons, List.mem_singleton,
      List.not_mem_nil, or_false] at h1 h2
    simp only [ParseBool, h1, h2, if_false]

/-- The BOOL routine by the form of the raw value: one of the twelve
spellings is assigned and handed to the validator, anything else is a wrong
value type. -/
theorem boolean_conversion_cases (rt : Stdlib) (c : Config) (v : Variable) (mem : Memory)
    (a : Nat) (s : String)
    (hty : v.valueType = BOOL) (hpres : c.env.LookupEnv v.Name = (s, true))
    (hp : v.pointer = .ptr v.valueType (some a)) :
    (∀ b : Bool, (b = true ∧ s ∈ trueSpellings) ∨ (b = false ∧ s ∈ falseSpellings) →
      c.parseVariable rt v mem =
        match v.ValidationFunc with
        | none => .ret (mem.set ⟨BOOL, a⟩ (.bool b), none)
        | some f =>
          match f (.bool b) with
          | .panic => .panic
          | .ret e => .ret (mem.set ⟨BOOL, a⟩ (.bool b), e)) ∧
    (s ∉ trueSpellings → s ∉ falseSpellings →
      c.parseVariable rt v mem
        = .ret (mem, some (.errorString
            ("variable '" ++ v.Name ++ "' has a wrong value type")))) := by
  have hs : supported v.valueType := by simp [supported, hty]
  have hpres2 : (c.env.LookupEnv v.Name).2 = true := by rw [hpres]
  have hraw : (c.env.LookupEnv v.Name).1 = s := by rw [hpres]
  have hconv : convert rt v.valueType (c.env.LookupEnv v.Name).1
      = (ParseBool s).map (fun bv => (.bool bv, .bool bv)) := by
    rw [hraw, hty]
    simp [convert, BOOL, STRING, INT, INT64, FLOAT32, FLOAT64]
  obtain ⟨ht, hf, hn⟩ := ParseBool_spec s
  constructor
  · intro b hb
    have hpb : ParseBool s = some b := by
      rcases hb with ⟨rfl, h⟩ | ⟨rfl, h⟩
      · exact ht h
      · exact hf h
    rw [hpb] at hconv
    have := parseVariable_converted rt c v mem a _ _ hs hpres2 hconv hp
    rw [hty] at this
    rw [this]
  · intro h1 h2
    rw [hn h1 h2] at hconv
    exact parseVariable_not_converted rt c v mem (some a) hs hpres2 hconv hp

/-- Claim C16, amended. Boolean conversion: for a BOOL declaration whose
variable is present with the raw value `s`. If `s` is one of `1`, `t`, `T`,
`true`, `TRUE`, `True` the output target receives true, if it is one of `0`,
`f`, `F`, `false`, `FALSE`, `False` it receives false, and the result of the
routine is the verdict of the attached validator, no error when there is none;
every other `s`, also one that differs from these twelve only by letter case,
fails with the error variable 'NAME' has a wrong value type and leaves the
memory as it was. Hence the routine returns no error if and only if `s` is one
of the twelve spellings and the validator, if one is attached, accepts the
boolean; without validator, if and only if `s` is one of the twelve
spellings. -/
theorem boolean_conversion (rt : Stdlib) (c : Config) (v : Variable) (mem : Memory)
    (a : Nat) (s : String)
    (hty : v.valueType = BOOL) (hpres : c.env.LookupEnv v.Name = (s, true))
    (hp : v.pointer = .ptr v.valueType (some a)) :
    (∀ b : Bool, (b = true ∧ s ∈ trueSpellings) ∨ (b = false ∧ s ∈ falseSpellings) →
      c.parseVariable rt v mem =
        match v.ValidationFunc with
        | none => .ret (mem.set ⟨BOOL, a⟩ (.bool b), none)
        | some f =>
          match f (.bool b) with
          | .panic => .panic
          | .ret e => .ret (mem.set ⟨BOOL, a⟩ (.bool b), e)) ∧
    (s ∉ trueSpellings → s ∉ falseSpellings →
      c.parseVariable rt v mem
        = .ret (mem, some (.errorString
            ("variable '" ++ v.Name ++ "' has a wrong value type")))) ∧
    ((∃ mem1, c.parseVariable rt v mem = .ret (mem1, none)) ↔
      ∃ b : Bool, ((b = true ∧ s ∈ trueSpellings) ∨ (b = false ∧ s ∈ falseSpellings)) ∧
        ∀ f, v.ValidationFunc = some f → f (.bool b) = .ret none) ∧
    (v.ValidationFunc = none →
      ((∃ mem1, c.parseVariable rt v mem = .ret (mem1, none)) ↔
        (s ∈ trueSpellings ∨ s ∈ falseSpellings))) := by
  obtain ⟨h1, h2⟩ := boolean_conversion_cases rt c v mem a s hty hpres hp
  have hiff : (∃ mem1, c.parseVariable rt v mem = .ret (mem1, none)) ↔
      ∃ b : Bool, ((b = true ∧ s ∈ trueSpellings) ∨ (b = false ∧ s ∈ falseSpellings)) ∧
        ∀ f, v.ValidationFunc = some f → f (.bool b) = .ret none := by
    constructor
    · rintro ⟨mem1, hm⟩
      by_cases ht : s ∈ trueSpellings
      · refine ⟨true, Or.inl ⟨rfl, ht⟩, fun f hf => ?_⟩
        have hn := h1 true (Or.inl ⟨rfl, ht⟩)
        rw [hm, hf] at hn
        cases hfa : f (.bool true) with
        | panic => simp [hfa] at hn
        | ret e =>
          simp only [hfa, Exec.ret.injEq, Prod.mk.injEq] at hn
          rw [← hn.2]
      · by_cases hf0 : s ∈ falseSpellings
        · refine ⟨false, Or.inr ⟨rfl, hf0⟩, fun f hf => ?_⟩
          have hn := h1 false (Or.inr ⟨rfl, hf0⟩)
          rw [hm, hf] at hn
          cases hfa : f (.bool false) with
          | panic => simp [hfa] at hn
          | ret e =>
            simp only [hfa, Exec.ret.injEq, Prod.mk.injEq] at hn
            rw [← hn.2]
        · rw [h2 ht hf0] at hm
          simp at hm
    · rintro ⟨b, hb, hacc⟩
      have hn := h1 b hb
      cases hf : v.ValidationFunc with
      | none =>
        rw [hf] at hn
        exact ⟨_, hn⟩
      | some f =>
        rw [hf] at hn
        simp only [hacc f hf] at hn
        exact ⟨_, hn⟩
  refine ⟨h1, h2, hiff, fun hvf => ?_⟩
  rw [hiff]
  constructor
  · rintro ⟨b, hb, _⟩
    rcases hb with ⟨_, h⟩ | ⟨_, h⟩
    · exact Or.inl h
    · exact Or.inr h
  · rintro (h | h)
    · exact ⟨true, Or.inl ⟨rfl, h⟩, fun f hf => by rw [hvf] at hf; cases hf⟩
    · exact ⟨false, Or.inr ⟨rfl, h⟩, fun f hf => by rw [hvf] at hf; cases hf⟩

/-- The case "basic test case" of `TestConfigBool`: `TRACING_ENABLED=true`,
without validator: the target receives true and no error is returned. -/
theorem boolean_conversion_witness :
    tracingBool.valueType = BOOL ∧
    boolConfig.env.LookupEnv tracingBool.Name = ("true", true) ∧
    tracingBool.pointer = .ptr tracingBool.valueType (some 0) ∧
    ((∀ b : Bool, (b = true ∧ "true" ∈ trueSpellings) ∨ (b = false ∧ "true" ∈ falseSpellings) →
      boolConfig.parseVariable asciiStdlib tracingBool zeroIntMemory =
        match tracingBool.ValidationFunc with
        | none => .ret (zeroIntMemory.set ⟨BOOL, 0⟩ (.bool b), none)
        | some f =>
          match f (.bool b) with
          | .panic => .panic
          | .ret e => .ret (zeroIntMemory.set ⟨BOOL, 0⟩ (.bool b), e)) ∧
    ("true" ∉ trueSpellings → "true" ∉ falseSpellings →
      boolConfig.parseVariable asciiStdlib tracingBool zeroIntMemory
        = .ret (zeroIntMemory, some (.errorString
            ("variable '" ++ tracingBool.Name ++ "' has a wrong value type")))) ∧
    ((∃ mem1, boolConfig.parseVariable asciiStdlib tracingBool zeroIntMemory
        = .ret (mem1, none)) ↔
      ∃ b : Bool, ((b = true ∧ "true" ∈ trueSpellings) ∨
          (b = false ∧ "true" ∈ falseSpellings)) ∧
        ∀ f, tracingBool.ValidationFunc = some f → f (.bool b) = .ret none) ∧
    (tracingBool.ValidationFunc = none →
      ((∃ mem1, boolConfig.parseVariable asciiStdlib tracingBool zeroIntMemory
          = .ret (mem1, none)) ↔
        ("true" ∈ trueSpellings ∨ "true" ∈ falseSpellings)))) ∧
    boolConfig.parseVariable asciiStdlib tracingBool zeroIntMemory
      = .ret (zeroIntMemory.set ⟨BOOL, 0⟩ (.bool true), none) :=
  ⟨rfl, by decide, rfl,
    boolean_conversion asciiStdlib boolConfig tracingBool zeroIntMemory 0 "true" rfl
      (by decide) rfl, rfl⟩

theorem occursIn_iff (sub : List Char) :
    ∀ text : List Char, occursIn sub text = true ↔ ∃ pre post, text = pre ++ sub ++ post := by
  intro text
  induction text with
  | nil =>
    simp only [occursIn, List.isPrefixOf_iff_prefix, List.prefix_nil]
    constructor
    · rintro rfl
      exact ⟨[], [], rfl⟩
    · rintro ⟨pre, post, h⟩
      have h1 := List.append_eq_nil.1 h.symm
      exact (List.append_eq_nil.1 h1.1).2
  | cons c cs ih =>
    simp only [occursIn, Bool.or_eq_true, List.isPrefixOf_iff_prefix, ih]
    constructor
    · rintro (⟨post, h⟩ | ⟨pre, post, h⟩)
      · exact ⟨[], post, by simpa using h.symm⟩
      · exact ⟨c :: pre, post, by simp [h]⟩
    · rintro ⟨pre, post, h⟩
      cases pre with
      | nil => exact Or.inl ⟨post, by simpa using h.symm⟩
      | cons d pre1 =>
        simp only [List.cons_append, List.cons.injEq] at h
        exact Or.inr ⟨pre1, post, h.2⟩

theorem HasPrefix_iff (v s : String) : HasPrefix v s = true ↔ ∃ post, v.data = s.data ++ post := by
  simp only [HasPrefix, List.isPrefixOf_iff_prefix]
  constructor
  · rintro ⟨t, h⟩
    exact ⟨t, h.symm⟩
  · rintro ⟨t, h⟩
    exact ⟨t, h.symm⟩

theorem HasSuffix_iff (v s : String) : HasSuffix v s = true ↔ ∃ pre, v.data = pre ++ s.data := by
  simp only [HasSuffix, List.isSuffixOf_iff_suffix]
  constructor
  · rintro ⟨t, h⟩
    exact ⟨t, h.symm⟩
  · rintro ⟨t, h⟩
    exact ⟨t, h.symm⟩

/-- Claim C17. String predicate validators: for all strings `s` and `v`,
`ValidateStringContains(s)(v)` returns nil if and only if `s` occurs as a
substring of `v`, `ValidateStringHasPrefix(s)(v)` if and only if `v` starts
with `s`, and `ValidateStringHasSuffix(s)(v)` if and only if `v` ends with `s`;
otherwise they return the errors value 'v' does not contain 's', value 'v'
does not start with 's' and value 'v' does not end with 's'. -/
theorem string_predicate_validators (s v : String) :
    (ValidateStringContains s (.string v) = .ret none ↔
      ∃ pre post, v.data = pre ++ s.data ++ post) ∧
    ((¬ ∃ pre post, v.data = pre ++ s.data ++ post) →
      ValidateStringContains s (.string v)
        = .ret (some (.errorString ("value '" ++ v ++ "' does not contain '" ++ s ++ "'")))) ∧
    (ValidateStringHasPrefix s (.string v) = .ret none ↔ ∃ post, v.data = s.data ++ post) ∧
    ((¬ ∃ post, v.data = s.data ++ post) →
      ValidateStringHasPrefix s (.string v)
        = .ret (some (.errorString
            ("value '" ++ v ++ "' does not start with '" ++ s ++ "'")))) ∧
    (ValidateStringHasSuffix s (.string v) = .ret none ↔ ∃ pre, v.data = pre ++ s.data) ∧
    ((¬ ∃ pre, v.data = pre ++ s.data) →
      ValidateStringHasSuffix s (.string v)
        = .ret (some (.errorString ("value '" ++ v ++ "' does not end with '" ++ s ++ "'")))) := by
  have hc := occursIn_iff s.data v.data
  have hp := HasPrefix_iff v s
  have hx := HasSuffix_iff v s
  refine ⟨?_, ?_, ?_, ?_, ?_, ?_⟩
  · rw [← hc]
    cases h : occursIn s.data v.data <;> simp [ValidateStringContains, Contains, h]
  · intro hn
    rw [← hc] at hn
    simp [ValidateStringContains, Contains, hn]
  · rw [← hp]
    cases h : HasPrefix v s <;> simp [ValidateStringHasPrefix, h]
  · intro hn
    rw [← hp] at hn
    simp [ValidateStringHasPrefix, hn]
  · rw [← hx]
    cases h : HasSuffix v s <;> simp [ValidateStringHasSuffix, h]
  · intro hn
    rw [← hx] at hn
    simp [ValidateStringHasSuffix, hn]

/-- The failing cases of `TestValidateStringFuncs` for the three predicates,
and the passing ones. -/
theorem string_validators_tests :
    ValidateStringContains "example" (.string "https://api.example.com") = .ret none ∧
    ValidateStringContains "google" (.string "https://api.example.com")
      = .ret (some (.errorString "value 'https://api.example.com' does not contain 'google'")) ∧
    ValidateStringHasPrefix "https" (.string "https://api.example.com") = .ret none ∧
    ValidateStringHasPrefix "ssh" (.string "https://api.example.com")
      = .ret (some (.errorString
          "value 'https://api.example.com' does not start with 'ssh'")) ∧
    ValidateStringHasSuffix "com" (.string "https://api.example.com") = .ret none ∧
    ValidateStringHasSuffix "org" (.string "https://api.example.com")
      = .ret (some (.errorString "value 'https://api.example.com' does not end with 'org'")) := by
  decide

/-- Claim C18, refuted as stated: the declaration `REQUEST_TIMEOUT` with the
validator `ValidateStringContains("3")` is registered with `SetInt` and a
non-nil output target, and parsed against a source holding
`REQUEST_TIMEOUT=30`. The value converts to the `int` 30, the validator asserts
that it is a string, and `Parse` panics. -/
theorem no_panicking_conditions_counterexample :
    (⟨Config.SetInt, some 0, 0⟩ : SetCall).pointer ≠ none ∧
    testEnv.LookupEnv "REQUEST_TIMEOUT" = ("30", true) ∧
    (registerAll asciiStdlib [⟨Config.SetInt, some 0, 0⟩]
        ((New testEnv).SetEnvLookuper testEnv, stringValidatedHeap)).1.Parse asciiStdlib
      (registerAll asciiStdlib [⟨Config.SetInt, some 0, 0⟩]
        ((New testEnv).SetEnvLookuper testEnv, stringValidatedHeap)).2 zeroIntMemory
      = .panic :=
  ⟨by decide, by decide, rfl⟩

theorem setOps_TagAgrees (rt : Stdlib) (c : Config) (h : VarHeap) (p : Option Nat) (r : Nat)
    (op : Stdlib → Config → VarHeap → Option Nat → Nat → Config × VarHeap) (hop : op ∈ setOps)
    (hinv : TagAgrees c h) : TagAgrees (op rt c h p r).1 (op rt c h p r).2 := by
  obtain ⟨ty, hty, hspec⟩ := setOps_spec rt c h p r op hop
  rw [hspec]
  intro k hk
  by_cases hkr : k = r
  · subst hkr
    simp only [if_true]
    exact ⟨hty, p, rfl⟩
  · simp only [hkr, if_false]
    simp only [List.mem_append, List.mem_singleton, hkr, or_false] at hk
    exact hinv k hk

theorem setOps_TargetsNonNil (rt : Stdlib) (c : Config) (h : VarHeap) (p : Option Nat) (r : Nat)
    (op : Stdlib → Config → VarHeap → Option Nat → Nat → Config × VarHeap) (hop : op ∈ setOps)
    (hp : p ≠ none) (hinv : TargetsNonNil c h) :
    TargetsNonNil (op rt c h p r).1 (op rt c h p r).2 := by
  obtain ⟨ty, _, hspec⟩ := setOps_spec rt c h p r op hop
  rw [hspec]
  intro k hk e
  by_cases hkr : k = r
  · subst hkr
    simp only [if_true, ne_eq, Pointer.ptr.injEq, not_and]
    exact fun _ => hp
  · simp only [hkr, if_false]
    simp only [List.mem_append, List.mem_singleton, hkr, or_false] at hk
    exact hinv k hk e

theorem setOps_env (rt : Stdlib) (c : Config) (h : VarHeap) (p : Option Nat) (r : Nat)
    (op : Stdlib → Config → VarHeap → Option Nat → Nat → Config × VarHeap) (hop : op ∈ setOps) :
    (op rt c h p r).1.env = c.env := by
  obtain ⟨ty, _, hspec⟩ := setOps_spec rt c h p r op hop
  rw [hspec]

/-- A registry built by registration calls keeps tags and pointers in
agreement. -/
theorem registerAll_TagAgrees (rt : Stdlib) :
    ∀ (calls : List SetCall) (st : Config × VarHeap), (∀ call ∈ calls, call.op ∈ setOps) →
      TagAgrees st.1 st.2 →
      TagAgrees (registerAll rt calls st).1 (registerAll rt calls st).2 := by
  intro calls
  induction calls with
  | nil => intro st _ h; exact h
  | cons call rest ih =>
    intro st hops h
    exact ih _ (fun x hx => hops x (List.mem_cons_of_mem _ hx))
      (setOps_TagAgrees rt st.1 st.2 _ _ call.op (hops call (List.mem_cons_self _ _)) h)

theorem registerAll_TargetsNonNil (rt : Stdlib) :
    ∀ (calls : List SetCall) (st : Config × VarHeap),
      (∀ call ∈ calls, call.op ∈ setOps ∧ call.pointer ≠ none) →
      TargetsNonNil st.1 st.2 →
      TargetsNonNil (registerAll rt calls st).1 (registerAll rt calls st).2 := by
  intro calls
  induction calls with
  | nil => intro st _ h; exact h
  | cons call rest ih =>
    intro st hops h
    have hc := hops call (List.mem_cons_self _ _)
    exact ih _ (fun x hx => hops x (List.mem_cons_of_mem _ hx))
      (setOps_TargetsNonNil rt st.1 st.2 _ _ call.op hc.1 hc.2 h)

theorem registerAll_env (rt : Stdlib) :
    ∀ (calls : List SetCall) (st : Config × VarHeap), (∀ call ∈ calls, call.op ∈ setOps) →
      (registerAll rt calls st).1.env = st.1.env := by
  intro calls
  induction calls with
  | nil => intro st _; rfl
  | cons call rest ih =>
    intro st hops
    rw [registerAll, ih _ (fun x hx => hops x (List.mem_cons_of_mem _ hx))]
    exact setOps_env rt st.1 st.2 _ _ call.op (hops call (List.mem_cons_self _ _))

/-- A declaration with a supported tag, a non-nil pointer of the element type
of the tag and a validator that returns on the value it is handed does not
make its routine panic. -/
theorem parseVariable_ne_panic (rt : Stdlib) (c : Config) (v : Variable) (mem : Memory)
    (a : Nat) (hs : supported v.valueType) (hp : v.pointer = .ptr v.valueType (some a))
    (hval : ∀ f stored arg, v.ValidationFunc = some f →
      convert rt v.valueType (c.env.LookupEnv v.Name).1 = some (stored, arg) → f arg ≠ .panic) :
    c.parseVariable rt v mem ≠ .panic := by
  rw [parseVariable_eq_resolve rt c v mem hs]
  unfold resolve
  split
  · simp
  · simp only [hp, Pointer.assert, if_true]
    split
    · cases hd : v.Default with
      | none => simp
      | some d =>
        simp only
        split <;> simp [assignDefault, Memory.store]
    · cases hc : convert rt v.valueType (c.env.LookupEnv v.Name).1 with
      | none => simp
      | some sa =>
        obtain ⟨stored, arg⟩ := sa
        simp only [assignAndValidate, Memory.store]
        cases hf : v.ValidationFunc with
        | none => simp
        | some f =>
          simp only
          cases hfa : f arg with
          | panic => exact absurd hfa (hval f stored arg hf hc)
          | ret e => simp

/-- Claim C18, amended. For every registry built by a sequence of the six
registration operations with non-nil output targets, from any contents of the
`Variable` structs and against any lookup source: if no attached validator
panics on the converted value it is called with, `Parse` returns, with nil or
an aggregate; a wrongly typed default is among the errors, not a panic. The
library's three string validators return on every string for every argument,
and so does the regular-expression validator; on a value that is not a string
all four panic. -/
theorem no_panicking_conditions (rt : Stdlib) (os l : EnvLookuper) (h0 : VarHeap)
    (calls : List SetCall) (mem : Memory)
    (hcalls : ∀ call ∈ calls, call.op ∈ setOps ∧ call.pointer ≠ none)
    (hval : ∀ r ∈ (registerAll rt calls ((New os).SetEnvLookuper l, h0)).1.vars,
      ∀ f stored arg,
        ((registerAll rt calls ((New os).SetEnvLookuper l, h0)).2 r).ValidationFunc = some f →
        convert rt ((registerAll rt calls ((New os).SetEnvLookuper l, h0)).2 r).valueType
          (l.LookupEnv ((registerAll rt calls ((New os).SetEnvLookuper l, h0)).2 r).Name).1
          = some (stored, arg) →
        f arg ≠ .panic) :
    (∃ mem1 res,
      (registerAll rt calls ((New os).SetEnvLookuper l, h0)).1.Parse rt
        (registerAll rt calls ((New os).SetEnvLookuper l, h0)).2 mem = .ret (mem1, res)) ∧
    (∀ (M : String → String → Except GoError Bool) (s v : String),
      ValidateStringContains s (.string v) ≠ .panic ∧
      ValidateStringHasPrefix s (.string v) ≠ .panic ∧
      ValidateStringHasSuffix s (.string v) ≠ .panic ∧
      ValidateStringRegexpMatch M s (.string v) ≠ .panic) ∧
    (∀ (M : String → String → Except GoError Bool) (s : String) (x : Value),
      (∀ v, x ≠ .string v) →
      ValidateStringContains s x = .panic ∧ ValidateStringHasPrefix s x = .panic ∧
      ValidateStringHasSuffix s x = .panic ∧ ValidateStringRegexpMatch M s x = .panic) := by
  have hops : ∀ call ∈ calls, call.op ∈ setOps := fun x hx => (hcalls x hx).1
  have htag := registerAll_TagAgrees rt calls ((New os).SetEnvLookuper l, h0) hops
    (by intro r hr; simp [New, Config.SetEnvLookuper] at hr)
  have hnn := registerAll_TargetsNonNil rt calls ((New os).SetEnvLookuper l, h0) hcalls
    (by intro r hr; simp [New, Config.SetEnvLookuper] at hr)
  have henv : (registerAll rt calls ((New os).SetEnvLookuper l, h0)).1.env = l :=
    registerAll_env rt calls ((New os).SetEnvLookuper l, h0) hops
  refine ⟨?_, ?_, ?_⟩
  · generalize hst : registerAll rt calls ((New os).SetEnvLookuper l, h0) = st at *
    have hnp : ∀ v ∈ st.1.vars.map st.2, st.1.parseVariable rt v mem ≠ .panic := by
      intro v hv
      obtain ⟨r, hr, rfl⟩ := List.mem_map.1 hv
      obtain ⟨hs, p, hp⟩ := htag r hr
      cases p with
      | none => exact absurd hp (hnn r hr _)
      | some a =>
        refine parseVariable_ne_panic rt st.1 (st.2 r) mem a hs hp (fun f stored arg hf hc => ?_)
        rw [henv] at hc
        exact hval r hr f stored arg hf hc
    obtain ⟨mem1, hloop⟩ :=
      ParseLoop_errors rt st.1 mem (st.1.vars.map st.2) mem (NewParseErrors []) hnp
    exact ⟨mem1, _, Parse_of_loop rt st.1 st.2 mem mem1 _ hloop⟩
  · intro M s v
    refine ⟨?_, ?_, ?_, ?_⟩
    · simp only [ValidateStringContains]; split <;> simp
    · simp only [ValidateStringHasPrefix]; split <;> simp
    · simp only [ValidateStringHasSuffix]; split <;> simp
    · simp only [ValidateStringRegexpMatch]
      cases M s v with
      | error err => simp
      | ok ok => simp only; split <;> simp
  · intro M s x hx
    cases x with
    | string v => exact absurd rfl (hx v)
    | int _ => exact ⟨rfl, rfl, rfl, rfl⟩
    | int64 _ => exact ⟨rfl, rfl, rfl, rfl⟩
    | float32 _ => exact ⟨rfl, rfl, rfl, rfl⟩
    | float64 _ => exact ⟨rfl, rfl, rfl, rfl⟩
    | bool _ => exact ⟨rfl, rfl, rfl, rfl⟩
    | other _ => exact ⟨rfl, rfl, rfl, rfl⟩

/-- The STRING declaration `LOG_LEVEL` with a validator that rejects every
value (and never panics), registered with `SetString`. -/
theorem no_panicking_conditions_witness :
    (∀ call ∈ [(⟨Config.SetString, some 0, 0⟩ : SetCall)],
      call.op ∈ setOps ∧ call.pointer ≠ none) ∧
    (∀ r ∈ (registerAll asciiStdlib [⟨Config.SetString, some 0, 0⟩]
        ((New testEnv).SetEnvLookuper testEnv, rejectingHeap)).1.vars,
      ∀ f stored arg,
        ((registerAll asciiStdlib [⟨Config.SetString, some 0, 0⟩]
          ((New testEnv).SetEnvLookuper testEnv, rejectingHeap)).2 r).ValidationFunc = some f →
        convert asciiStdlib ((registerAll asciiStdlib [⟨Config.SetString, some 0, 0⟩]
            ((New testEnv).SetEnvLookuper testEnv, rejectingHeap)).2 r).valueType
          (testEnv.LookupEnv ((registerAll asciiStdlib [⟨Config.SetString, some 0, 0⟩]
            ((New testEnv).SetEnvLookuper testEnv, rejectingHeap)).2 r).Name).1
          = some (stored, arg) →
        f arg ≠ .panic) ∧
    ((∃ mem1 res,
      (registerAll asciiStdlib [⟨Config.SetString, some 0, 0⟩]
          ((New testEnv).SetEnvLookuper testEnv, rejectingHeap)).1.Parse asciiStdlib
        (registerAll asciiStdlib [⟨Config.SetString, some 0, 0⟩]
          ((New testEnv).SetEnvLookuper testEnv, rejectingHeap)).2 zeroMemory
        = .ret (mem1, res)) ∧
    (∀ (M : String → String → Except GoError Bool) (s v : String),
      ValidateStringContains s (.string v) ≠ .panic ∧
      ValidateStringHasPrefix s (.string v) ≠ .panic ∧
      ValidateStringHasSuffix s (.string v) ≠ .panic ∧
      ValidateStringRegexpMatch M s (.string v) ≠ .panic) ∧
    (∀ (M : String → String → Except GoError Bool) (s : String) (x : Value),
      (∀ v, x ≠ .string v) →
      ValidateStringContains s x = .panic ∧ ValidateStringHasPrefix s x = .panic ∧
      ValidateStringHasSuffix s x = .panic ∧ ValidateStringRegexpMatch M s x = .panic)) := by
  have hcalls : ∀ call ∈ [(⟨Config.SetString, some 0, 0⟩ : SetCall)],
      call.op ∈ setOps ∧ call.pointer ≠ none := by
    intro call hc
    simp only [List.mem_singleton] at hc
    subst hc
    exact ⟨by simp [setOps], by simp⟩
  have hval : ∀ r ∈ (registerAll asciiStdlib [⟨Config.SetString, some 0, 0⟩]
        ((New testEnv).SetEnvLookuper testEnv, rejectingHeap)).1.vars,
      ∀ f stored arg,
        ((registerAll asciiStdlib [⟨Config.SetString, some 0, 0⟩]
          ((New testEnv).SetEnvLookuper testEnv, rejectingHeap)).2 r).ValidationFunc = some f →
        convert asciiStdlib ((registerAll asciiStdlib [⟨Config.SetString, some 0, 0⟩]
            ((New testEnv).SetEnvLookuper testEnv, rejectingHeap)).2 r).valueType
          (testEnv.LookupEnv ((registerAll asciiStdlib [⟨Config.SetString, some 0, 0⟩]
            ((New testEnv).SetEnvLookuper testEnv, rejectingHeap)).2 r).Name).1
          = some (stored, arg) →
        f arg ≠ .panic := by
    intro r hr f stored arg hf _
    have hr0 : r = 0 := by
      simpa [registerAll, Config.SetString, Config.setVariable, New, Config.SetEnvLookuper]
        using hr
    subst hr0
    have hf1 : some rejectAll = some f := hf
    cases hf1
    simp [rejectAll]
  exact ⟨hcalls, hval,
    no_panicking_conditions asciiStdlib testEnv testEnv rejectingHeap
      [⟨Config.SetString, some 0, 0⟩] zeroMemory hcalls hval⟩

/-- The loop of `Parse` does not depend on the memory it starts from: either
it panics from every memory, or it makes the same assignments and adds the
same errors from every memory. -/
theorem ParseLoop_uniform (rt : Stdlib) (c : Config) :
    ∀ vs : List Variable,
      (∀ mem errs, Config.ParseLoop rt c vs mem errs = .panic) ∨
      ∃ (ws : List (Option (Loc × Value))) (es : List GoError),
        ∀ mem errs, Config.ParseLoop rt c vs mem errs
          = .ret (ws.foldl Memory.write mem, ⟨errs.errs ++ es⟩) := by
  intro vs
  induction vs with
  | nil => exact Or.inr ⟨[], [], fun mem errs => by simp [Config.ParseLoop]⟩
  | cons v rest ih =>
    rcases parseVariable_uniform rt c v with hp | ⟨w, e, hw, _⟩
    · exact Or.inl fun mem errs => by simp [Config.ParseLoop, hp mem]
    · rcases ih with hpr | ⟨ws, es, hws⟩
      · refine Or.inl fun mem errs => ?_
        obtain ⟨errs2, h2⟩ := ParseLoop_cons rt c v rest mem errs w e (hw mem)
        rw [h2, hpr]
      · cases e with
        | none =>
          refine Or.inr ⟨w :: ws, es, fun mem errs => ?_⟩
          simp only [Config.ParseLoop, hw mem, hws, List.foldl_cons]
        | some x =>
          refine Or.inr ⟨w :: ws, x :: es, fun mem errs => ?_⟩
          simp only [Config.ParseLoop, hw mem, hws, List.foldl_cons, ParseErrors.Add,
            List.append_assoc, List.singleton_append]

/-- A sequence of assignments either overwrites a variable, with the same
result from every memory, or leaves it as it is in every memory. -/
theorem foldl_write_cases :
    ∀ (ws : List (Option (Loc × Value))) (m1 m2 : Memory) (l : Loc),
      (ws.foldl Memory.write m1) l = (ws.foldl Memory.write m2) l ∨
      ((ws.foldl Memory.write m1) l = m1 l ∧ (ws.foldl Memory.write m2) l = m2 l) := by
  intro ws
  induction ws with
  | nil => intro m1 m2 l; exact Or.inr ⟨rfl, rfl⟩
  | cons w ws ih =>
    intro m1 m2 l
    simp only [List.foldl_cons]
    rcases ih (m1.write w) (m2.write w) l with h | ⟨h1, h2⟩
    · exact Or.inl h
    · rw [h1, h2]
      cases w with
      | none => exact Or.inr ⟨rfl, rfl⟩
      | some lx =>
        obtain ⟨l1, x⟩ := lx
        by_cases hl : l = l1
        · exact Or.inl (by simp [Memory.write, Memory.set, hl])
        · exact Or.inr ⟨by simp [Memory.write, Memory.set, hl],
            by simp [Memory.write, Memory.set, hl]⟩

/-- Making the same assignments a second time changes nothing. -/
theorem foldl_write_idem (ws : List (Option (Loc × Value))) (mem : Memory) :
    ws.foldl Memory.write (ws.foldl Memory.write mem) = ws.foldl Memory.write mem := by
  funext l
  rcases foldl_write_cases ws (ws.foldl Memory.write mem) mem l with h | ⟨h1, _⟩
  · exact h
  · exact h1

/-- Claim C19. Fresh aggregate per pass: for every registry and lookup source,
with validators that are functions of their argument, if `Parse` returns then
calling it again on the memory it left returns the same result (nil both
times, or aggregates with the same error sequence) and leaves every variable,
hence every output target, with the value it had after the first pass. -/
theorem fresh_aggregate_per_pass (rt : Stdlib) (c : Config) (h : VarHeap) (mem mem1 : Memory)
    (res : Option ParseErrors) (h1 : c.Parse rt h mem = .ret (mem1, res)) :
    c.Parse rt h mem1 = .ret (mem1, res) := by
  rcases ParseLoop_uniform rt c (c.vars.map h) with hp | ⟨ws, es, hws⟩
  · simp [Config.Parse, hp] at h1
  · have hP : ∀ m, c.Parse rt h m
        = .ret (ws.foldl Memory.write m,
            if (⟨(NewParseErrors []).errs ++ es⟩ : ParseErrors).IsNotNil
              then some ⟨(NewParseErrors []).errs ++ es⟩ else none) :=
      fun m => Parse_of_loop rt c h m _ _ (hws m (NewParseErrors []))
    rw [hP mem] at h1
    simp only [Exec.ret.injEq, Prod.mk.injEq] at h1
    rw [hP mem1, ← h1.1, ← h1.2, foldl_write_idem]

/-- The sixth example scenario, parsed twice. -/
theorem fresh_aggregate_per_pass_witness :
    twoConfig.Parse asciiStdlib twoHeap zeroMemory
      = .ret (zeroMemory.set ⟨STRING, 0⟩ (.string "DEBUG"),
          some ⟨[.errorString "'BATCH_SIZE' variable is missing"]⟩) ∧
    twoConfig.Parse asciiStdlib twoHeap (zeroMemory.set ⟨STRING, 0⟩ (.string "DEBUG"))
      = .ret (zeroMemory.set ⟨STRING, 0⟩ (.string "DEBUG"),
          some ⟨[.errorString "'BATCH_SIZE' variable is missing"]⟩) :=
  ⟨rfl, fresh_aggregate_per_pass asciiStdlib twoConfig twoHeap zeroMemory
    (zeroMemory.set ⟨STRING, 0⟩ (.string "DEBUG"))
    (some ⟨[.errorString "'BATCH_SIZE' variable is missing"]⟩) rfl⟩

/-- Claim C20, the code at the failing input: the FLOAT32 declaration
`CPU_REQUEST` against a source holding `CPU_REQUEST=1.2`. The output target
receives a `float32`, but the validator is called with the `float64` that
`strconv.ParseFloat` returned: a validator that reports the type of its
argument reports `float64`, and one that asserts a `float32` panics. The
routines of the five other types hand the stored value to the validator, as
`parseInt` does with the `int` 30 here. -/
theorem float32_validator_argument :
    (∃ mem1, floatConfig.parseVariable floatStdlib (cpuRequest reportType) zeroIntMemory
        = .ret (mem1, some (.errorString "float64")) ∧
      mem1 ⟨FLOAT32, 0⟩ = .float32 ⟨0x3F99999A⟩) ∧
    floatConfig.parseVariable floatStdlib (cpuRequest assertFloat32) zeroIntMemory = .panic ∧
    (∃ mem1, testConfig.parseVariable floatStdlib
        { conflictInt64 with valueType := INT, pointer := .ptr INT (some 0),
                             ValidationFunc := some reportType } zeroIntMemory
        = .ret (mem1, some (.errorString "int")) ∧
      mem1 ⟨INT, 0⟩ = .int 30) :=
  ⟨⟨_, rfl, by decide⟩, rfl, ⟨_, rfl, by decide⟩⟩

/-- The FLOAT32 routine for every standard library: when the variable is
present and `ParseFloat` returns `fv`, the target receives `float32(fv)` and
the validator is called with the `float64` value `fv`. -/
theorem parseFloat32_validator (rt : Stdlib) (c : Config) (v : Variable) (mem : Memory)
    (a : Nat) (fv : Float64) (f : Value → Exec (Option GoError))
    (hty : v.valueType = FLOAT32) (hpres : (c.env.LookupEnv v.Name).2 = true)
    (hpf : rt.ParseFloat (c.env.LookupEnv v.Name).1 32 = some fv)
    (hp : v.pointer = .ptr v.valueType (some a)) (hvf : v.ValidationFunc = some f) :
    c.parseVariable rt v mem =
      match f (.float64 fv) with
      | .panic => .panic
      | .ret e => .ret (mem.set ⟨FLOAT32, a⟩ (.float32 (rt.toFloat32 fv)), e) := by
  have hs : supported v.valueType := by simp [supported, hty]
  have hconv : convert rt v.valueType (c.env.LookupEnv v.Name).1
      = some (.float32 (rt.toFloat32 fv), .float64 fv) := by
    rw [hty]
    simp [convert, hpf, FLOAT32, STRING, INT, INT64]
  have := parseVariable_validated rt c v mem a _ _ f hs hpres hconv hp hvf
  rw [hty] at this
  rw [this]

/-- The switch of `Parse` runs the routine selected for the tag, and returns
without doing anything when no case matches. -/
theorem parseVariable_eq_routine (rt : Stdlib) (c : Config) (v : Variable) (mem : Memory) :
    c.parseVariable rt v mem =
      match c.routine rt v.valueType with
      | some f => f v mem
      | none => .ret (mem, none) := by
  simp only [Config.parseVariable, Config.routine]
  repeat' split
  all_goals first | rfl | simp_all

theorem routine_isSome_iff (rt : Stdlib) (c : Config) (t : valueType) :
    (c.routine rt t).isSome = true ↔ supported t := by
  simp only [Config.routine, supported]
  constructor
  · intro h
    by_contra hn
    simp only [not_or] at hn
    obtain ⟨h0, h1, h2, h3, h4, h5⟩ := hn
    simp [h0, h1, h2, h3, h4, h5] at h
  · rintro (h | h | h | h | h | h) <;> subst h <;> simp [STRING, INT, INT64, FLOAT32, FLOAT64, BOOL]

/-- Claim C21. Output pointer type agrees with the type tag: after any sequence
of `SetString`, `SetInt`, `SetInt64`, `SetFloat32`, `SetFloat64` and `SetBool`
calls on a new registry, whatever the `Variable` structs hold and also when the
same `*Variable` is handed to several calls, every declaration held by the
registry has one of the six tags and a pointer whose element type is that of
the tag, so that the type assertion of the routine of the tag returns the
pointer; the switch of `Parse` selects a routine for the tag and runs it (no
declaration is skipped). Each registration operation sets the two fields
together and appends the declaration. -/
theorem pointer_type_agrees_with_tag (rt : Stdlib) (c0 : Config) (h0 : VarHeap)
    (calls : List SetCall) (hc0 : c0.vars = []) (hcalls : ∀ call ∈ calls, call.op ∈ setOps) :
    (∀ r ∈ (registerAll rt calls (c0, h0)).1.vars,
      supported ((registerAll rt calls (c0, h0)).2 r).valueType ∧
      (∃ p, ((registerAll rt calls (c0, h0)).2 r).pointer
            = .ptr ((registerAll rt calls (c0, h0)).2 r).valueType p ∧
          ((registerAll rt calls (c0, h0)).2 r).pointer.assert
            ((registerAll rt calls (c0, h0)).2 r).valueType = .ret p) ∧
      (∃ f, (registerAll rt calls (c0, h0)).1.routine rt
              ((registerAll rt calls (c0, h0)).2 r).valueType = some f ∧
          ∀ mem, (registerAll rt calls (c0, h0)).1.parseVariable rt
              ((registerAll rt calls (c0, h0)).2 r) mem
            = f ((registerAll rt calls (c0, h0)).2 r) mem)) ∧
    (∀ (op : Stdlib → Config → VarHeap → Option Nat → Nat → Config × VarHeap), op ∈ setOps →
      ∀ (c : Config) (h : VarHeap) (p : Option Nat) (r : Nat),
        ∃ ty, supported ty ∧ ((op rt c h p r).2 r).valueType = ty ∧
          ((op rt c h p r).2 r).pointer = .ptr ty p ∧ (op rt c h p r).1.vars = c.vars ++ [r]) := by
  constructor
  · have htag := registerAll_TagAgrees rt calls (c0, h0) hcalls
      (by intro r hr; rw [hc0] at hr; cases hr)
    generalize registerAll rt calls (c0, h0) = st at htag ⊢
    intro r hr
    obtain ⟨hs, p, hp⟩ := htag r hr
    refine ⟨hs, ⟨p, hp, by simp [hp, Pointer.assert]⟩, ?_⟩
    cases hf : st.1.routine rt (st.2 r).valueType with
    | none =>
      have := (routine_isSome_iff rt st.1 (st.2 r).valueType).2 hs
      rw [hf] at this
      cases this
    | some f =>
      refine ⟨f, rfl, fun mem => ?_⟩
      rw [parseVariable_eq_routine, hf]
  · intro op hop c h p r
    obtain ⟨ty, hty, hspec⟩ := setOps_spec rt c h p r op hop
    refine ⟨ty, hty, ?_, ?_, ?_⟩ <;> rw [hspec] <;> simp

/-- The same `*Variable` registered with `SetString` and then with `SetInt`:
the registry holds it twice, both times with the tag INT and a pointer to
`int`. -/
theorem registered_twice :
    (registerAll asciiStdlib twiceCalls (New testEnv, apiVersionHeap)).1.vars = [0, 0] ∧
    ((registerAll asciiStdlib twiceCalls (New testEnv, apiVersionHeap)).2 0).valueType = INT ∧
    ((registerAll asciiStdlib twiceCalls (New testEnv, apiVersionHeap)).2 0).pointer
      = .ptr INT (some 1) ∧
    ((registerAll asciiStdlib twiceCalls (New testEnv, apiVersionHeap)).2 0).Name
      = "API_VERSION" := by
  decide

/-- The registry after `SetString(&s, v)` and `SetInt(&i, v)` on one `v`. -/
theorem pointer_type_agrees_with_tag_witness :
    (New testEnv).vars = [] ∧ (∀ call ∈ twiceCalls, call.op ∈ setOps) ∧
    ((∀ r ∈ (registerAll asciiStdlib twiceCalls (New testEnv, apiVersionHeap)).1.vars,
      supported ((registerAll asciiStdlib twiceCalls (New testEnv, apiVersionHeap)).2 r).valueType ∧
      (∃ p, ((registerAll asciiStdlib twiceCalls (New testEnv, apiVersionHeap)).2 r).pointer
            = .ptr ((registerAll asciiStdlib twiceCalls
                (New testEnv, apiVersionHeap)).2 r).valueType p ∧
          ((registerAll asciiStdlib twiceCalls (New testEnv, apiVersionHeap)).2 r).pointer.assert
            ((registerAll asciiStdlib twiceCalls (New testEnv, apiVersionHeap)).2 r).valueType
            = .ret p) ∧
      (∃ f, (registerAll asciiStdlib twiceCalls (New testEnv, apiVersionHeap)).1.routine
              asciiStdlib
              ((registerAll asciiStdlib twiceCalls (New testEnv, apiVersionHeap)).2 r).valueType
            = some f ∧
          ∀ mem, (registerAll asciiStdlib twiceCalls
                (New testEnv, apiVersionHeap)).1.parseVariable asciiStdlib
              ((registerAll asciiStdlib twiceCalls (New testEnv, apiVersionHeap)).2 r) mem
            = f ((registerAll asciiStdlib twiceCalls (New testEnv, apiVersionHeap)).2 r) mem)) ∧
    (∀ (op : Stdlib → Config → VarHeap → Option Nat → Nat → Config × VarHeap), op ∈ setOps →
      ∀ (c : Config) (h : VarHeap) (p : Option Nat) (r : Nat),
        ∃ ty, supported ty ∧ ((op asciiStdlib c h p r).2 r).valueType = ty ∧
          ((op asciiStdlib c h p r).2 r).pointer = .ptr ty p ∧
          (op asciiStdlib c h p r).1.vars = c.vars ++ [r])) := by
  have hcalls : ∀ call ∈ twiceCalls, call.op ∈ setOps := by
    intro call hc
    simp only [twiceCalls, List.mem_cons, List.mem_singleton, List.not_mem_nil, or_false] at hc
    rcases hc with rfl | rfl <;> simp [setOps]
  exact ⟨rfl, hcalls,
    pointer_type_agrees_with_tag asciiStdlib (New testEnv) apiVersionHeap twiceCalls rfl hcalls⟩

/-- The loop of `Parse` under two lookup sources that agree at the names of the
declarations. -/
theorem ParseLoop_congr_env (rt : Stdlib) (c1 c2 : Config) :
    ∀ (vs : List Variable) (mem : Memory) (errs : ParseErrors),
      (∀ v ∈ vs, c1.env.LookupEnv v.Name = c2.env.LookupEnv v.Name) →
      Config.ParseLoop rt c1 vs mem errs = Config.ParseLoop rt c2 vs mem errs := by
  intro vs
  induction vs with
  | nil => intro mem errs _; rfl
  | cons v rest ih =>
    intro mem errs hagree
    have hrest : ∀ u ∈ rest, c1.env.LookupEnv u.Name = c2.env.LookupEnv u.Name :=
      fun u hu => hagree u (List.mem_cons_of_mem _ hu)
    simp only [Config.ParseLoop,
      parseVariable_congr_env rt c1 c2 v mem (hagree v (List.mem_cons_self _ _))]
    cases c2.parseVariable rt v mem with
    | panic => rfl
    | ret a =>
      obtain ⟨m1, e⟩ := a
      cases e with
      | none => exact ih m1 errs hrest
      | some x => exact ih m1 (errs.Add x) hrest

/-- A lookup in the in-memory map with one more entry, at another key. -/
theorem EnvLookuperMock_cons_ne (entries : List (String × String)) (k x key : String)
    (hne : key ≠ k) :
    (EnvLookuperMock ((k, x) :: entries)).LookupEnv key
      = (EnvLookuperMock entries).LookupEnv key := by
  have hb : (key == k) = false := by simpa using hne
  simp only [EnvLookuperMock, List.lookup, hb]

/-- Claim C22. The result depends on the source only through the declared
names: for every registry and every two lookup sources that return the same
pair of value and presence for the name of every registered declaration,
`Parse` has the same outcome under both, the same result and the same memory,
hence the same values in the output targets. In particular an entry of an
in-memory source under a key that is no declared name has no effect, also a
key that differs from a declared name only by case or by a hyphen. -/
theorem depends_on_declared_names (rt : Stdlib) (c : Config) (h : VarHeap) (mem : Memory)
    (l1 l2 : EnvLookuper)
    (hagree : ∀ r ∈ c.vars, l1.LookupEnv (h r).Name = l2.LookupEnv (h r).Name) :
    (c.SetEnvLookuper l1).Parse rt h mem = (c.SetEnvLookuper l2).Parse rt h mem ∧
    (∀ (entries : List (String × String)) (k x : String),
      (∀ r ∈ c.vars, (h r).Name ≠ k) →
      (c.SetEnvLookuper (EnvLookuperMock ((k, x) :: entries))).Parse rt h mem
        = (c.SetEnvLookuper (EnvLookuperMock entries)).Parse rt h mem) := by
  have key : ∀ m1 m2 : EnvLookuper,
      (∀ r ∈ c.vars, m1.LookupEnv (h r).Name = m2.LookupEnv (h r).Name) →
      (c.SetEnvLookuper m1).Parse rt h mem = (c.SetEnvLookuper m2).Parse rt h mem := by
    intro m1 m2 hag
    have hloop := ParseLoop_congr_env rt (c.SetEnvLookuper m1) (c.SetEnvLookuper m2)
      (c.vars.map h) mem (NewParseErrors []) (by
        intro v hv
        obtain ⟨r, hr, rfl⟩ := List.mem_map.1 hv
        exact hag r hr)
    simp only [Config.Parse, Config.SetEnvLookuper] at hloop ⊢
    rw [hloop]
  refine ⟨key l1 l2 hagree, fun entries k x hne => key _ _ (fun r hr => ?_)⟩
  exact EnvLookuperMock_cons_ne entries k x _ (hne r hr)

/-- The sixth example scenario under the source of the tests and under the
same source with the entries `batch-size=7` and `log_level=TRACE` added. -/
theorem depends_on_declared_names_witness :
    (∀ r ∈ twoConfig.vars,
      noisyEnv.LookupEnv (twoHeap r).Name = testEnv.LookupEnv (twoHeap r).Name) ∧
    ((twoConfig.SetEnvLookuper noisyEnv).Parse asciiStdlib twoHeap zeroMemory
        = (twoConfig.SetEnvLookuper testEnv).Parse asciiStdlib twoHeap zeroMemory ∧
    (∀ (entries : List (String × String)) (k x : String),
      (∀ r ∈ twoConfig.vars, (twoHeap r).Name ≠ k) →
      (twoConfig.SetEnvLookuper (EnvLookuperMock ((k, x) :: entries))).Parse asciiStdlib
          twoHeap zeroMemory
        = (twoConfig.SetEnvLookuper (EnvLookuperMock entries)).Parse asciiStdlib
          twoHeap zeroMemory)) :=
  ⟨by decide,
    depends_on_declared_names asciiStdlib twoConfig twoHeap zeroMemory noisyEnv testEnv
      (by decide)⟩

end Gocfg
